import Mathlib

/-
Verification of a 3x3 tic-tac-toe engine (Parts A, B, C) against its design
specification.

The board is embedded as a list of three rows of three characters, mirroring
the source field `self.board.c` (a Python list of lists holding 'X', 'O' or
a blank).  The recursive minimax search mutates the board in place and
backtracks; this is embedded by passing the board state explicitly, so each
function returns the board it leaves behind alongside its value.  Python's
unbounded recursion is embedded with an explicit fuel parameter; nine units
of fuel are always sufficient on a 3x3 board, which is proved rather than
assumed.  Scores live in a three-constructor type with the two float
sentinels, mirroring `-float('inf')` / `float('inf')`.
-/

set_option maxRecDepth 100000

abbrev Board := List (List Char)

/-- The empty 3x3 board created by the `Board.__init__` constructor. -/
def emptyBoard : Board := [[' ', ' ', ' '], [' ', ' ', ' '], [' ', ' ', ' ']]

/-- Reading `b[i][j]`; out-of-range reads yield a junk character that is
never equal to a mark or a blank, so they cannot be mistaken for either. -/
def getCell (b : Board) (i j : Nat) : Char := (b.getD i []).getD j '?'

/-- Writing `b[i][j] = v`; out-of-range writes are dropped, matching the fact
that the source only writes through indices it has validated. -/
def setCell (b : Board) (i j : Nat) (v : Char) : Board :=
  b.set i ((b.getD i []).set j v)

/-- Well-formedness: three rows of three cells, as built by `Board.__init__`. -/
def WF (b : Board) : Prop := b.length = 3 ∧ ∀ row ∈ b, row.length = 3

/-- Every cell holds a mark or a blank. -/
def cellsOK (b : Board) : Prop := ∀ row ∈ b, ∀ c ∈ row, c = 'X' ∨ c = 'O' ∨ c = ' '

/-- Part B `checkWinState(board_state, player)`: rows, then columns, then the
two diagonals; Part A `checkWin` and Part B/C `checkWin` run the same tests
on `self.board.c` and `self.turn`. -/
def checkWinState (b : Board) (p : Char) : Bool :=
  b.any (fun row => row.all (fun cell => cell == p)) ||
  (List.range 3).any (fun col => (List.range 3).all (fun r => getCell b r col == p)) ||
  (List.range 3).all (fun i => getCell b i i == p) ||
  (List.range 3).all (fun i => getCell b i (2 - i) == p)

/-- `checkFull` / the inline draw test in `minimax`:
`all(cell != " " for row in ... for cell in row)`. -/
def checkFull (b : Board) : Bool :=
  b.all (fun row => row.all (fun cell => cell != ' '))

/-- `validateEntry(row, col)`: both coordinates in range and the cell empty
(identical in Part A, Part B and Part C). -/
def validateEntry (b : Board) (row col : Int) : Bool :=
  decide (0 ≤ row) && decide (row < 3) && decide (0 ≤ col) && decide (col < 3) &&
    (getCell b row.toNat col.toNat == ' ')

/-- `switchPlayer`: swap the 'X' and 'O' turns. -/
def switchPlayer (t : Char) : Char := if t == 'X' then 'O' else 'X'

/-- Minimax score values: an integer, or one of the two float sentinels
`-float('inf')` and `float('inf')` used to seed the running best. -/
inductive MVal where
  | negInf
  | posInf
  | fin (n : Int)
deriving DecidableEq, Repr

/-- Python `max` restricted to the values that occur in the search. -/
def MVal.maxV : MVal → MVal → MVal
  | .negInf, v => v
  | .posInf, _ => .posInf
  | .fin a, .negInf => .fin a
  | .fin _, .posInf => .posInf
  | .fin a, .fin b => .fin (max a b)

/-- Python `min` restricted to the values that occur in the search. -/
def MVal.minV : MVal → MVal → MVal
  | .posInf, v => v
  | .negInf, _ => .negInf
  | .fin a, .posInf => .fin a
  | .fin _, .negInf => .negInf
  | .fin a, .fin b => .fin (min a b)

/-- Python `<` on scores (used as `score > best_score` with arguments
swapped). -/
def MVal.ltV : MVal → MVal → Bool
  | .negInf, .negInf => false
  | .negInf, _ => true
  | .posInf, _ => false
  | .fin _, .negInf => false
  | .fin _, .posInf => true
  | .fin a, .fin b => decide (a < b)

/-- The cell enumeration order of `for i in range(3): for j in range(3)`. -/
def cellsRM : List (Nat × Nat) :=
  [(0, 0), (0, 1), (0, 2), (1, 0), (1, 1), (1, 2), (2, 0), (2, 1), (2, 2)]

/-- One iteration of the `for i ... for j ...` loop body inside `minimax`:
skip a non-empty cell; on an empty cell place the mover's mark, evaluate the
position (`rec` is the recursive call one level down), undo the placement,
and combine the score into the running best. -/
def minimaxStep (rec : Board → Bool → MVal × Board) (mk : Char) (flg : Bool)
    (comb : MVal → MVal → MVal) (acc : MVal × Board) (ij : Nat × Nat) :
    MVal × Board :=
  if getCell acc.2 ij.1 ij.2 == ' ' then
    (comb acc.1 (rec (setCell acc.2 ij.1 ij.2 mk) flg).1,
      setCell (rec (setCell acc.2 ij.1 ij.2 mk) flg).2 ij.1 ij.2 ' ')
  else acc

/-- Part B `minimax(board_state, is_maximizing)`.  The board is threaded
through explicitly: the source sets a cell, recurses, and resets the cell, so
each call returns its score together with the board it leaves behind.  The
fuel argument stands for the call depth available to Python's unbounded
recursion; with fuel at least the number of empty cells the fuel case is
never reached. -/
def minimax : Nat → Board → Bool → MVal × Board
  | 0, b, _ => (.fin 0, b)
  | fuel + 1, b, isMax =>
    if checkWinState b 'O' then (.fin 1, b)
    else if checkWinState b 'X' then (.fin (-1), b)
    else if checkFull b then (.fin 0, b)
    else if isMax then
      cellsRM.foldl (minimaxStep (minimax fuel) 'O' false MVal.maxV)
        (MVal.negInf, b)
    else
      cellsRM.foldl (minimaxStep (minimax fuel) 'X' true MVal.minV)
        (MVal.posInf, b)

/-- One iteration of the loop body inside `getComputerMove`: on an empty cell
place 'O', evaluate by minimax, undo the placement, and keep the move when
its score strictly beats the running best. -/
def bestStep (rec : Board → Bool → MVal × Board)
    (acc : MVal × Option (Nat × Nat) × Board) (ij : Nat × Nat) :
    MVal × Option (Nat × Nat) × Board :=
  if getCell acc.2.2 ij.1 ij.2 == ' ' then
    if MVal.ltV acc.1 (rec (setCell acc.2.2 ij.1 ij.2 'O') false).1 then
      ((rec (setCell acc.2.2 ij.1 ij.2 'O') false).1, some ij,
        setCell (rec (setCell acc.2.2 ij.1 ij.2 'O') false).2 ij.1 ij.2 ' ')
    else
      (acc.1, acc.2.1,
        setCell (rec (setCell acc.2.2 ij.1 ij.2 'O') false).2 ij.1 ij.2 ' ')
  else acc

/-- Part B `getComputerMove`, accumulator form: running best score, running
best move, and the live board (mutated and restored in place).  Nine units of
fuel bound the at most eight levels of recursion below a placed mark. -/
def getComputerMoveAux (b : Board) : MVal × Option (Nat × Nat) × Board :=
  cellsRM.foldl (bestStep (minimax 9)) (MVal.negInf, none, b)

/-- Part B `getComputerMove`: the chosen move for O, together with the board
the search leaves behind. -/
def getComputerMove (b : Board) : Option (Nat × Nat) × Board :=
  ((getComputerMoveAux b).2.1, (getComputerMoveAux b).2.2)

example : getComputerMove [['X', 'O', 'X'], ['X', 'O', ' '], [' ', ' ', ' ']]
    = (some (2, 1), [['X', 'O', 'X'], ['X', 'O', ' '], [' ', ' ', ' ']]) := by decide

/-- Bounded universal quantifiers over the three row or column indices,
expanded to a finite conjunction. -/
theorem forall_lt_three (P : Nat → Prop) : (∀ i < 3, P i) ↔ P 0 ∧ P 1 ∧ P 2 := by
  constructor
  · intro h
    exact ⟨h 0 (by omega), h 1 (by omega), h 2 (by omega)⟩
  · rintro ⟨h0, h1, h2⟩ i hi
    interval_cases i <;> assumption

/-- Bounded existential quantifiers over the three indices, expanded to a
finite disjunction. -/
theorem exists_lt_three (P : Nat → Prop) : (∃ i < 3, P i) ↔ P 0 ∨ P 1 ∨ P 2 := by
  constructor
  · rintro ⟨i, hi, h⟩
    interval_cases i
    · exact Or.inl h
    · exact Or.inr (Or.inl h)
    · exact Or.inr (Or.inr h)
  · rintro (h | h | h)
    · exact ⟨0, by omega, h⟩
    · exact ⟨1, by omega, h⟩
    · exact ⟨2, by omega, h⟩

/-- A well-formed board is literally three rows of three cells. -/
theorem WF.elim {b : Board} (h : WF b) :
    ∃ c0 c1 c2 c3 c4 c5 c6 c7 c8,
      b = [[c0, c1, c2], [c3, c4, c5], [c6, c7, c8]] := by
  obtain ⟨hlen, hrows⟩ := h
  obtain ⟨r0, r1, r2, rfl⟩ := List.length_eq_three.mp hlen
  obtain ⟨c0, c1, c2, h0⟩ := List.length_eq_three.mp (hrows r0 (by simp))
  obtain ⟨c3, c4, c5, h1⟩ := List.length_eq_three.mp (hrows r1 (by simp))
  obtain ⟨c6, c7, c8, h2⟩ := List.length_eq_three.mp (hrows r2 (by simp))
  subst h0; subst h1; subst h2
  exact ⟨c0, c1, c2, c3, c4, c5, c6, c7, c8, rfl⟩

/-- Spec-side winning condition: some row, column or diagonal is uniformly
the player's mark. -/
def hasLine (b : Board) (p : Char) : Prop :=
  (∃ i < 3, ∀ j < 3, getCell b i j = p) ∨
  (∃ j < 3, ∀ i < 3, getCell b i j = p) ∨
  (∀ i < 3, getCell b i i = p) ∨
  (∀ i < 3, getCell b i (2 - i) = p)

/-- Spec-side full-board condition: no cell is blank. -/
def isFullP (b : Board) : Prop := ∀ i < 3, ∀ j < 3, getCell b i j ≠ ' '

theorem getCell00 (c0 c1 c2 c3 c4 c5 c6 c7 c8 : Char) :
    getCell [[c0, c1, c2], [c3, c4, c5], [c6, c7, c8]] 0 0 = c0 := rfl

theorem getCell01 (c0 c1 c2 c3 c4 c5 c6 c7 c8 : Char) :
    getCell [[c0, c1, c2], [c3, c4, c5], [c6, c7, c8]] 0 1 = c1 := rfl

theorem getCell02 (c0 c1 c2 c3 c4 c5 c6 c7 c8 : Char) :
    getCell [[c0, c1, c2], [c3, c4, c5], [c6, c7, c8]] 0 2 = c2 := rfl

theorem getCell10 (c0 c1 c2 c3 c4 c5 c6 c7 c8 : Char) :
    getCell [[c0, c1, c2], [c3, c4, c5], [c6, c7, c8]] 1 0 = c3 := rfl

theorem getCell11 (c0 c1 c2 c3 c4 c5 c6 c7 c8 : Char) :
    getCell [[c0, c1, c2], [c3, c4, c5], [c6, c7, c8]] 1 1 = c4 := rfl

theorem getCell12 (c0 c1 c2 c3 c4 c5 c6 c7 c8 : Char) :
    getCell [[c0, c1, c2], [c3, c4, c5], [c6, c7, c8]] 1 2 = c5 := rfl

theorem getCell20 (c0 c1 c2 c3 c4 c5 c6 c7 c8 : Char) :
    getCell [[c0, c1, c2], [c3, c4, c5], [c6, c7, c8]] 2 0 = c6 := rfl

theorem getCell21 (c0 c1 c2 c3 c4 c5 c6 c7 c8 : Char) :
    getCell [[c0, c1, c2], [c3, c4, c5], [c6, c7, c8]] 2 1 = c7 := rfl

theorem getCell22 (c0 c1 c2 c3 c4 c5 c6 c7 c8 : Char) :
    getCell [[c0, c1, c2], [c3, c4, c5], [c6, c7, c8]] 2 2 = c8 := rfl

theorem checkWinState_iff {b : Board} (hWF : WF b) (p : Char) :
    checkWinState b p = true ↔ hasLine b p := by
  obtain ⟨c0, c1, c2, c3, c4, c5, c6, c7, c8, rfl⟩ := hWF.elim
  have hr : List.range 3 = [0, 1, 2] := rfl
  have s20 : (2 : Nat) - 0 = 2 := rfl
  have s21 : (2 : Nat) - 1 = 1 := rfl
  have s22 : (2 : Nat) - 2 = 0 := rfl
  simp only [checkWinState, hasLine, hr, s20, s21, s22, List.any_cons,
    List.any_nil, List.all_cons, List.all_nil, exists_lt_three,
    forall_lt_three,
    getCell00, getCell01, getCell02, getCell10, getCell11, getCell12,
    getCell20, getCell21, getCell22, Bool.or_eq_true, Bool.and_eq_true,
    beq_iff_eq, Bool.or_false, Bool.and_true, or_assoc]

theorem checkFull_iff {b : Board} (hWF : WF b) :
    checkFull b = true ↔ isFullP b := by
  obtain ⟨c0, c1, c2, c3, c4, c5, c6, c7, c8, rfl⟩ := hWF.elim
  simp only [checkFull, isFullP, List.all_cons, List.all_nil, forall_lt_three,
    getCell00, getCell01, getCell02, getCell10, getCell11, getCell12,
    getCell20, getCell21, getCell22, Bool.and_eq_true, Bool.and_true,
    bne_iff_ne, ne_eq]

/-- C1: on any well-formed terminal board the minimax evaluator returns the
spec's terminal value at once, for every positive fuel (hence before and
independently of any recursive exploration): +1 when O owns a line, else -1
when X owns a line, else 0 when no cell is blank; the checks are applied in
that order of precedence. -/
theorem minimax_terminal_classification (fuel : Nat) (b : Board) (isMax : Bool)
    (hWF : WF b) :
    (hasLine b 'O' → (minimax (fuel + 1) b isMax).1 = .fin 1) ∧
    (¬ hasLine b 'O' → hasLine b 'X' →
      (minimax (fuel + 1) b isMax).1 = .fin (-1)) ∧
    (¬ hasLine b 'O' → ¬ hasLine b 'X' → isFullP b →
      (minimax (fuel + 1) b isMax).1 = .fin 0) := by
  refine ⟨fun hO => ?_, fun hO hX => ?_, fun hO hX hF => ?_⟩
  · rw [minimax, if_pos ((checkWinState_iff hWF 'O').mpr hO)]
  · rw [minimax, if_neg ?_, if_pos ((checkWinState_iff hWF 'X').mpr hX)]
    simp only [checkWinState_iff hWF]
    exact hO
  · rw [minimax, if_neg ?_, if_neg ?_, if_pos ((checkFull_iff hWF).mpr hF)]
    · simp only [checkWinState_iff hWF]
      exact hX
    · simp only [checkWinState_iff hWF]
      exact hO

/-- Closed instance of the terminal classification: an O-line board, an
X-line board and a full drawn board, each evaluated at fuel 1. -/
theorem minimax_terminal_classification_witness :
    (minimax 1 [['O', 'O', 'O'], ['X', 'X', ' '], [' ', ' ', ' ']] true).1 = .fin 1 ∧
    (minimax 1 [['X', 'X', 'X'], ['O', 'O', ' '], [' ', ' ', ' ']] false).1 = .fin (-1) ∧
    (minimax 1 [['X', 'O', 'X'], ['X', 'O', 'O'], ['O', 'X', 'X']] true).1 = .fin 0 := by
  refine ⟨?_, ?_, ?_⟩
  · exact (minimax_terminal_classification 0
      [['O', 'O', 'O'], ['X', 'X', ' '], [' ', ' ', ' ']] true
      (by constructor <;> decide)).1 (by unfold hasLine; decide)
  · exact (minimax_terminal_classification 0
      [['X', 'X', 'X'], ['O', 'O', ' '], [' ', ' ', ' ']] false
      (by constructor <;> decide)).2.1 (by unfold hasLine; decide)
      (by unfold hasLine; decide)
  · exact (minimax_terminal_classification 0
      [['X', 'O', 'X'], ['X', 'O', 'O'], ['O', 'X', 'X']] true
      (by constructor <;> decide)).2.2 (by unfold hasLine; decide)
      (by unfold hasLine; decide) (by unfold isFullP; decide)

theorem validateEntry_iff (b : Board) (row col : Int) :
    validateEntry b row col = true ↔
      0 ≤ row ∧ row < 3 ∧ 0 ≤ col ∧ col < 3 ∧
        getCell b row.toNat col.toNat = ' ' := by
  simp only [validateEntry, Bool.and_eq_true, decide_eq_true_eq, beq_iff_eq,
    and_assoc]

/-- C7: `validateEntry` accepts exactly the in-range coordinates whose cell
is blank, rejecting every out-of-range pair and every occupied cell. -/
theorem validateEntry_spec (b : Board) (row col : Int) :
    validateEntry b row col = true ↔
      0 ≤ row ∧ row < 3 ∧ 0 ≤ col ∧ col < 3 ∧
        getCell b row.toNat col.toNat = ' ' :=
  validateEntry_iff b row col

theorem list_set_self {α : Type} {l : List α} {j : Nat} {x : α}
    (hj : j < l.length) (hx : l[j] = x) : l.set j x = l := by
  apply List.ext_getElem?
  intro n
  by_cases hn : n = j
  · subst hn
    rw [List.getElem?_set_self hj, List.getElem?_eq_getElem hj, hx]
  · rw [List.getElem?_set_ne (fun h => hn h.symm)]

theorem getCell_space_bounds {b : Board} {i j : Nat}
    (h : getCell b i j = ' ') :
    ∃ hi : i < b.length, ∃ hj : j < b[i].length, b[i][j] = ' ' := by
  unfold getCell at h
  by_cases hi : i < b.length
  · have hrow : b.getD i [] = b[i] := by
      rw [List.getD_eq_getElem?_getD, List.getElem?_eq_getElem hi]
      rfl
    rw [hrow] at h
    by_cases hj : j < b[i].length
    · have : (b[i]).getD j '?' = b[i][j] := by
        rw [List.getD_eq_getElem?_getD, List.getElem?_eq_getElem hj]
        rfl
      rw [this] at h
      exact ⟨hi, hj, h⟩
    · rw [List.getD_eq_getElem?_getD, List.getElem?_eq_none (by omega)] at h
      simp at h
  · rw [List.getD_eq_getElem?_getD b i [], List.getElem?_eq_none (by omega)] at h
    simp at h

/-- Setting a blank cell and then blanking it again restores the board
exactly: the backtracking pattern of the search. -/
theorem setCell_restore {b : Board} {i j : Nat} (v : Char)
    (h : getCell b i j = ' ') : setCell (setCell b i j v) i j ' ' = b := by
  obtain ⟨hi, hj, hcell⟩ := getCell_space_bounds h
  have hrow : b.getD i [] = b[i] := by
    rw [List.getD_eq_getElem?_getD, List.getElem?_eq_getElem hi]
    rfl
  have hlen : i < (b.set i ((b[i]).set j v)).length := by
    rw [List.length_set]
    exact hi
  unfold setCell
  rw [hrow]
  have hrow2 : (b.set i ((b[i]).set j v)).getD i [] = (b[i]).set j v := by
    rw [List.getD_eq_getElem?_getD, List.getElem?_set_self hi]
    rfl
  rw [hrow2, List.set_set, List.set_set]
  have : (b[i]).set j ' ' = b[i] := list_set_self hj hcell
  rw [this]
  exact list_set_self hi rfl

theorem minimax_loop_board (rec : Board → Bool → MVal × Board)
    (mk : Char) (flg : Bool) (comb : MVal → MVal → MVal)
    (hrec : ∀ b m, (rec b m).2 = b) :
    ∀ (cells : List (Nat × Nat)) (acc : MVal × Board),
      (cells.foldl (minimaxStep rec mk flg comb) acc).2 = acc.2 := by
  intro cells
  induction cells with
  | nil => intro acc; rfl
  | cons hd tl ih =>
    intro acc
    rw [List.foldl_cons, minimaxStep]
    split
    · rename_i hc
      rw [ih]
      show setCell (rec (setCell acc.2 hd.1 hd.2 mk) flg).2 hd.1 hd.2 ' ' = acc.2
      rw [hrec]
      exact setCell_restore mk (beq_iff_eq.mp hc)
    · exact ih acc

/-- Minimax search leaves the board it was handed exactly as it found it:
every placement is undone before the next cell is tried. -/
theorem minimax_preserves : ∀ (fuel : Nat) (b : Board) (isMax : Bool),
    (minimax fuel b isMax).2 = b := by
  intro fuel
  induction fuel with
  | zero => intro b isMax; rfl
  | succ fuel ih =>
    intro b isMax
    rw [minimax]
    split
    · rfl
    split
    · rfl
    split
    · rfl
    split
    · exact minimax_loop_board (minimax fuel) 'O' false MVal.maxV
        (fun b m => ih b m) cellsRM (MVal.negInf, b)
    · exact minimax_loop_board (minimax fuel) 'X' true MVal.minV
        (fun b m => ih b m) cellsRM (MVal.posInf, b)

theorem best_loop_board (rec : Board → Bool → MVal × Board)
    (hrec : ∀ b m, (rec b m).2 = b) :
    ∀ (cells : List (Nat × Nat)) (acc : MVal × Option (Nat × Nat) × Board),
      (cells.foldl (bestStep rec) acc).2.2 = acc.2.2 := by
  intro cells
  induction cells with
  | nil => intro acc; rfl
  | cons hd tl ih =>
    intro acc
    rw [List.foldl_cons, bestStep]
    split
    · rename_i hc
      have hb : setCell (rec (setCell acc.2.2 hd.1 hd.2 'O') false).2
          hd.1 hd.2 ' ' = acc.2.2 := by
        rw [hrec]
        exact setCell_restore 'O' (beq_iff_eq.mp hc)
      split
      · rw [ih]
        exact hb
      · rw [ih]
        exact hb
    · exact ih acc

theorem getComputerMoveAux_board (b : Board) : (getComputerMoveAux b).2.2 = b := by
  unfold getComputerMoveAux
  exact best_loop_board (minimax 9) (fun b m => minimax_preserves 9 b m)
    cellsRM (MVal.negInf, none, b)

/-- C4: search exploration never mutates the live board: `minimax` returns
the board equal to its value before the call, for every board and fuel, and
`getComputerMove` returns the live game board unchanged. -/
theorem search_no_mutation (fuel : Nat) (b : Board) (isMax : Bool) :
    (minimax fuel b isMax).2 = b ∧ (getComputerMove b).2 = b := by
  refine ⟨minimax_preserves fuel b isMax, ?_⟩
  simp only [getComputerMove]
  exact getComputerMoveAux_board b

/-- The number of blank cells on the board. -/
def emptyCount (b : Board) : Nat := (b.map (fun row => row.count ' ')).sum

theorem getCell_cons_succ (r : List Char) (rows : Board) (i j : Nat) :
    getCell (r :: rows) (i + 1) j = getCell rows i j := rfl

theorem setCell_cons_succ (r : List Char) (rows : Board) (i j : Nat) (v : Char) :
    setCell (r :: rows) (i + 1) j v = r :: setCell rows i j v := rfl

theorem count_set_row (l : List Char) (j : Nat) (mk : Char)
    (hj : j < l.length) (hsp : l[j] = ' ') (hmk : mk ≠ ' ') :
    (l.set j mk).count ' ' + 1 = l.count ' ' := by
  induction l generalizing j with
  | nil => simp at hj
  | cons hd tl ih =>
    cases j with
    | zero =>
      simp only [List.getElem_cons_zero] at hsp
      subst hsp
      rw [List.set_cons_zero, List.count_cons, List.count_cons]
      simp [hmk]
    | succ j =>
      simp only [List.getElem_cons_succ] at hsp
      rw [List.set_cons_succ, List.count_cons, List.count_cons]
      have := ih j (by simpa using hj) hsp
      omega

theorem emptyCount_set (b : Board) (i j : Nat) (mk : Char)
    (h : getCell b i j = ' ') (hmk : mk ≠ ' ') :
    emptyCount (setCell b i j mk) + 1 = emptyCount b := by
  induction b generalizing i with
  | nil =>
    obtain ⟨hi, _, _⟩ := getCell_space_bounds h
    simp at hi
  | cons r rows ih =>
    cases i with
    | zero =>
      obtain ⟨hi, hj, hsp⟩ := getCell_space_bounds h
      simp only [List.getElem_cons_zero] at hj hsp
      have hrow : getCell (r :: rows) 0 j = (r).getD j '?' := rfl
      unfold setCell
      simp only [List.getD_cons_zero, List.set_cons_zero]
      unfold emptyCount
      simp only [List.map_cons, List.sum_cons]
      have := count_set_row r j mk hj hsp hmk
      omega
    | succ i =>
      rw [getCell_cons_succ] at h
      rw [setCell_cons_succ]
      unfold emptyCount
      simp only [List.map_cons, List.sum_cons]
      have := ih i h
      unfold emptyCount at this
      omega

theorem emptyCount_le_nine {b : Board} (hWF : WF b) : emptyCount b ≤ 9 := by
  obtain ⟨c0, c1, c2, c3, c4, c5, c6, c7, c8, rfl⟩ := hWF.elim
  unfold emptyCount
  simp only [List.map_cons, List.map_nil, List.sum_cons, List.sum_nil]
  have h0 := List.count_le_length ' ' [c0, c1, c2]
  have h1 := List.count_le_length ' ' [c3, c4, c5]
  have h2 := List.count_le_length ' ' [c6, c7, c8]
  simp only [List.length_cons, List.length_nil] at h0 h1 h2
  omega

theorem setCell_WF {b : Board} (hWF : WF b) (i j : Nat) (v : Char) :
    WF (setCell b i j v) := by
  obtain ⟨hlen, hrows⟩ := hWF
  constructor
  · rw [setCell, List.length_set]
    exact hlen
  · intro row hrow
    by_cases hi : i < b.length
    · rcases List.mem_or_eq_of_mem_set hrow with h | h
      · exact hrows row h
      · subst h
        rw [List.length_set]
        have hbd : b.getD i [] = b[i] := by
          rw [List.getD_eq_getElem?_getD, List.getElem?_eq_getElem hi]
          rfl
        rw [hbd]
        exact hrows b[i] (List.getElem_mem hi)
    · have hno : setCell b i j v = b := by
        rw [setCell]
        exact List.set_eq_of_length_le (by omega)
      rw [hno] at hrow
      exact hrows row hrow

theorem not_full_has_empty {b : Board} (hWF : WF b)
    (h : ¬ checkFull b = true) :
    ∃ ij ∈ cellsRM, getCell b ij.1 ij.2 = ' ' := by
  obtain ⟨c0, c1, c2, c3, c4, c5, c6, c7, c8, rfl⟩ := hWF.elim
  simp only [checkFull, List.all_cons, List.all_nil, Bool.and_eq_true,
    Bool.and_true, bne_iff_ne, ne_eq] at h
  have hd : c0 = ' ' ∨ c1 = ' ' ∨ c2 = ' ' ∨ c3 = ' ' ∨ c4 = ' ' ∨
      c5 = ' ' ∨ c6 = ' ' ∨ c7 = ' ' ∨ c8 = ' ' := by
    by_contra hall
    push_neg at hall
    exact h ⟨⟨hall.1, hall.2.1, hall.2.2.1⟩,
      ⟨hall.2.2.2.1, hall.2.2.2.2.1, hall.2.2.2.2.2.1⟩,
      hall.2.2.2.2.2.2.1, hall.2.2.2.2.2.2.2.1, hall.2.2.2.2.2.2.2.2⟩
  rcases hd with h' | h' | h' | h' | h' | h' | h' | h' | h'
  · exact ⟨(0, 0), by decide, by rw [getCell00]; exact h'⟩
  · exact ⟨(0, 1), by decide, by rw [getCell01]; exact h'⟩
  · exact ⟨(0, 2), by decide, by rw [getCell02]; exact h'⟩
  · exact ⟨(1, 0), by decide, by rw [getCell10]; exact h'⟩
  · exact ⟨(1, 1), by decide, by rw [getCell11]; exact h'⟩
  · exact ⟨(1, 2), by decide, by rw [getCell12]; exact h'⟩
  · exact ⟨(2, 0), by decide, by rw [getCell20]; exact h'⟩
  · exact ⟨(2, 1), by decide, by rw [getCell21]; exact h'⟩
  · exact ⟨(2, 2), by decide, by rw [getCell22]; exact h'⟩

/-- The legal minimax score range. -/
def rangeI (n : Int) : Prop := n = -1 ∨ n = 0 ∨ n = 1

theorem minimax_fold_range (rec : Board → Bool → MVal × Board) (mk : Char)
    (flg : Bool) (comb : MVal → MVal → MVal) (ident : MVal)
    (hrec_board : ∀ b m, (rec b m).2 = b)
    (hident : ∀ n, comb ident (.fin n) = .fin n)
    (hident_ne : ∀ n, MVal.fin n ≠ ident)
    (hfin : ∀ a c : Int, comb (.fin a) (.fin c) = .fin (max a c) ∨
      comb (.fin a) (.fin c) = .fin (min a c)) :
    ∀ (cells : List (Nat × Nat)) (acc : MVal × Board) (b : Board),
      acc.2 = b →
      (∀ ij ∈ cells, getCell b ij.1 ij.2 = ' ' →
        ∃ n, (rec (setCell b ij.1 ij.2 mk) flg).1 = MVal.fin n ∧ rangeI n) →
      (acc.1 = ident ∨ ∃ n, acc.1 = MVal.fin n ∧ rangeI n) →
      (((cells.foldl (minimaxStep rec mk flg comb) acc).1 = ident →
          acc.1 = ident ∧ ∀ ij ∈ cells, getCell b ij.1 ij.2 ≠ ' ') ∧
        ((cells.foldl (minimaxStep rec mk flg comb) acc).1 = ident ∨
          ∃ n, (cells.foldl (minimaxStep rec mk flg comb) acc).1 = MVal.fin n ∧
            rangeI n)) := by
  intro cells
  induction cells with
  | nil =>
    intro acc b hacc2 hchild hacc1
    exact ⟨fun h => ⟨h, by simp⟩, hacc1⟩
  | cons hd tl ih =>
    intro acc b hacc2 hchild hacc1
    rw [List.foldl_cons, minimaxStep]
    subst hacc2
    split
    · rename_i hc
      obtain ⟨n, hn, hrange⟩ :=
        hchild hd (List.mem_cons_self hd tl) (beq_iff_eq.mp hc)
      rw [hn]
      have hboard : setCell (rec (setCell acc.2 hd.1 hd.2 mk) flg).2
          hd.1 hd.2 ' ' = acc.2 := by
        rw [hrec_board]
        exact setCell_restore mk (beq_iff_eq.mp hc)
      have hnew1 : ∃ m, comb acc.1 (MVal.fin n) = MVal.fin m ∧ rangeI m := by
        rcases hacc1 with h | ⟨m, hm, hmr⟩
        · rw [h, hident]
          exact ⟨n, rfl, hrange⟩
        · rw [hm]
          rcases hfin m n with h | h <;> rw [h]
          · refine ⟨max m n, rfl, ?_⟩
            unfold rangeI at hmr hrange ⊢
            omega
          · refine ⟨min m n, rfl, ?_⟩
            unfold rangeI at hmr hrange ⊢
            omega
      obtain ⟨m, hm, hmr⟩ := hnew1
      have := ih (comb acc.1 (MVal.fin n),
          setCell (rec (setCell acc.2 hd.1 hd.2 mk) flg).2 hd.1 hd.2 ' ') acc.2
        hboard
        (fun ij hij hsp => hchild ij (List.mem_cons_of_mem hd hij) hsp)
        (Or.inr ⟨m, hm, hmr⟩)
      refine ⟨fun hres => ?_, this.2⟩
      have habs := (this.1 hres).1
      rw [hm] at habs
      exact absurd habs (hident_ne m)
    · rename_i hc
      have := ih acc acc.2 rfl
        (fun ij hij hsp => hchild ij (List.mem_cons_of_mem hd hij) hsp)
        hacc1
      refine ⟨fun hres => ?_, this.2⟩
      obtain ⟨hacc, hrest⟩ := this.1 hres
      refine ⟨hacc, fun ij hij => ?_⟩
      rcases List.mem_cons.mp hij with h | h
      · subst h
        intro hsp
        exact hc (beq_iff_eq.mpr hsp)
      · exact hrest ij h

/-- C9 support: with fuel at least the number of blank cells, minimax always
produces a finite score in the legal range; the infinity sentinels never
escape a loop. -/
theorem minimax_value_range : ∀ (fuel : Nat) (b : Board) (isMax : Bool),
    WF b → emptyCount b ≤ fuel →
    ∃ n, (minimax fuel b isMax).1 = MVal.fin n ∧ rangeI n := by
  intro fuel
  induction fuel with
  | zero =>
    intro b isMax _ _
    exact ⟨0, rfl, Or.inr (Or.inl rfl)⟩
  | succ fuel ih =>
    intro b isMax hWF hfuel
    rw [minimax]
    split
    · exact ⟨1, rfl, Or.inr (Or.inr rfl)⟩
    split
    · exact ⟨-1, rfl, Or.inl rfl⟩
    split
    · exact ⟨0, rfl, Or.inr (Or.inl rfl)⟩
    rename_i hwo hwx hfull
    have hchild : ∀ (mk : Char), mk ≠ ' ' → ∀ flg, ∀ ij ∈ cellsRM,
        getCell b ij.1 ij.2 = ' ' →
        ∃ n, (minimax fuel (setCell b ij.1 ij.2 mk) flg).1 = MVal.fin n ∧
          rangeI n := by
      intro mk hmk flg ij _ hsp
      refine ih (setCell b ij.1 ij.2 mk) flg (setCell_WF hWF ij.1 ij.2 mk) ?_
      have := emptyCount_set b ij.1 ij.2 mk hsp hmk
      omega
    obtain ⟨ij0, hmem0, hsp0⟩ := not_full_has_empty hWF hfull
    split
    · have hres := minimax_fold_range (minimax fuel) 'O' false MVal.maxV
        MVal.negInf (minimax_preserves fuel) (fun n => rfl) (fun n => by simp)
        (fun a c => Or.inl rfl) cellsRM (MVal.negInf, b) b rfl
        (hchild 'O' (by decide) false) (Or.inl rfl)
      rcases hres.2 with h | h
      · exact absurd hsp0 ((hres.1 h).2 ij0 hmem0)
      · exact h
    · have hres := minimax_fold_range (minimax fuel) 'X' true MVal.minV
        MVal.posInf (minimax_preserves fuel) (fun n => rfl) (fun n => by simp)
        (fun a c => Or.inr rfl) cellsRM (MVal.posInf, b) b rfl
        (hchild 'X' (by decide) true) (Or.inl rfl)
      rcases hres.2 with h | h
      · exact absurd hsp0 ((hres.1 h).2 ij0 hmem0)
      · exact h

/-- C9: for every well-formed board and any fuel at least the number of
blank cells (Python's recursion is unbounded, so this covers the real calls),
minimax terminates with a value in {-1, 0, +1}: the `-inf` / `+inf` seeds are
always replaced, because any non-terminal board has a blank cell whose child
evaluation is finite. -/
theorem minimax_total_range (fuel : Nat) (b : Board) (isMax : Bool)
    (hWF : WF b) (hfuel : emptyCount b ≤ fuel) :
    ∃ n, (minimax fuel b isMax).1 = MVal.fin n ∧
      (n = -1 ∨ n = 0 ∨ n = 1) :=
  minimax_value_range fuel b isMax hWF hfuel

/-- Closed instance: on the empty board with fuel 9 the minimax value is
finite and in range (it is in fact 0). -/
theorem minimax_total_range_witness :
    ∃ n, (minimax 9 emptyBoard true).1 = MVal.fin n ∧
      (n = -1 ∨ n = 0 ∨ n = 1) :=
  minimax_total_range 9 emptyBoard true (by constructor <;> decide) (by decide)

/-- Engine state between turns: the live board plus the active player
(`self.board`, `self.turn`). -/
structure GameSt where
  board : Board
  turn : Char
deriving DecidableEq, Repr

/-- Result of applying one move in the engine turn loop: the game ends in a
win for the mover or in a draw (the loop breaks), or play continues with the
other player.  Terminal outcomes carry the final board. -/
inductive Outcome where
  | inProgress (g : GameSt)
  | win (p : Char) (b : Board)
  | draw (b : Board)
deriving DecidableEq, Repr

/-- Part A `playGame` turn body after a validated move: place the mark, test
`checkWin`, else test `checkFull`, else `switchPlayer`. -/
def applyMove (g : GameSt) (row col : Nat) : Outcome :=
  if checkWinState (setCell g.board row col g.turn) g.turn then
    .win g.turn (setCell g.board row col g.turn)
  else if checkFull (setCell g.board row col g.turn) then
    .draw (setCell g.board row col g.turn)
  else .inProgress ⟨setCell g.board row col g.turn, switchPlayer g.turn⟩

/-- Part B `playGame` turn body after an applied move: test
`checkEnd = checkWin or checkFull` first, then decide win against draw by
`checkWin`, else `switchPlayer`. -/
def applyMoveB (g : GameSt) (row col : Nat) : Outcome :=
  if checkWinState (setCell g.board row col g.turn) g.turn ||
      checkFull (setCell g.board row col g.turn) then
    if checkWinState (setCell g.board row col g.turn) g.turn then
      .win g.turn (setCell g.board row col g.turn)
    else .draw (setCell g.board row col g.turn)
  else .inProgress ⟨setCell g.board row col g.turn, switchPlayer g.turn⟩

/-- The engine turn loop driven by an external stream of parsed move
candidates: invalid candidates are rejected and re-prompted (skipped), valid
ones are applied; the loop stops at the first terminal outcome. -/
def runMoves : GameSt → List (Int × Int) → Outcome
  | g, [] => .inProgress g
  | g, rc :: rest =>
    if validateEntry g.board rc.1 rc.2 then
      match applyMove g rc.1.toNat rc.2.toNat with
      | .inProgress g2 => runMoves g2 rest
      | t => t
    else runMoves g rest

/-- C5: after each applied move the engine classifies the new position with
the win test first, the full-board test second, and otherwise switches the
active player; Part A and Part B order their tests differently but agree;
and a terminal outcome is absorbing: once a move ends the game, the engine
applies no further moves from the stream. -/
theorem engine_turn_classification (g : GameSt) (row col : Nat) :
    (applyMoveB g row col = applyMove g row col) ∧
    (checkWinState (setCell g.board row col g.turn) g.turn = true →
      applyMove g row col = .win g.turn (setCell g.board row col g.turn)) ∧
    (checkWinState (setCell g.board row col g.turn) g.turn = false →
      checkFull (setCell g.board row col g.turn) = true →
      applyMove g row col = .draw (setCell g.board row col g.turn)) ∧
    (checkWinState (setCell g.board row col g.turn) g.turn = false →
      checkFull (setCell g.board row col g.turn) = false →
      applyMove g row col =
        .inProgress ⟨setCell g.board row col g.turn, switchPlayer g.turn⟩) ∧
    (∀ (rc : Int × Int) (rest : List (Int × Int)) (p : Char) (bf : Board),
      validateEntry g.board rc.1 rc.2 = true →
      applyMove g rc.1.toNat rc.2.toNat = .win p bf →
      runMoves g (rc :: rest) = .win p bf) ∧
    (∀ (rc : Int × Int) (rest : List (Int × Int)) (bf : Board),
      validateEntry g.board rc.1 rc.2 = true →
      applyMove g rc.1.toNat rc.2.toNat = .draw bf →
      runMoves g (rc :: rest) = .draw bf) := by
  refine ⟨?_, ?_, ?_, ?_, ?_, ?_⟩
  · unfold applyMove applyMoveB
    by_cases h1 : checkWinState (setCell g.board row col g.turn) g.turn = true
    · rw [h1]
      simp
    · rw [Bool.not_eq_true] at h1
      rw [h1]
      simp
  · intro h
    unfold applyMove
    rw [h]
    simp
  · intro h1 h2
    unfold applyMove
    rw [h1, h2]
    simp
  · intro h1 h2
    unfold applyMove
    rw [h1, h2]
    simp
  · intro rc rest p bf hv happ
    unfold runMoves
    rw [hv]
    simp only [if_true, happ]
  · intro rc rest bf hv happ
    unfold runMoves
    rw [hv]
    simp only [if_true, happ]

/-- Closed instance of the turn classification: a winning move, a drawing
move and a continuing move, plus absorption of a winning move ahead of a
nonempty remaining stream. -/
theorem engine_turn_classification_witness :
    applyMove ⟨[['X', 'X', ' '], ['O', 'O', ' '], [' ', ' ', ' ']], 'X'⟩ 0 2 =
      .win 'X' [['X', 'X', 'X'], ['O', 'O', ' '], [' ', ' ', ' ']] ∧
    applyMove ⟨[['X', 'O', 'X'], ['X', 'O', 'O'], ['O', 'X', ' ']], 'X'⟩ 2 2 =
      .draw [['X', 'O', 'X'], ['X', 'O', 'O'], ['O', 'X', 'X']] ∧
    applyMove ⟨emptyBoard, 'X'⟩ 1 1 =
      .inProgress ⟨[[' ', ' ', ' '], [' ', 'X', ' '], [' ', ' ', ' ']], 'O'⟩ ∧
    runMoves ⟨[['X', 'X', ' '], ['O', 'O', ' '], [' ', ' ', ' ']], 'X'⟩
        [(0, 2), (1, 2)] =
      .win 'X' [['X', 'X', 'X'], ['O', 'O', ' '], [' ', ' ', ' ']] := by
  refine ⟨?_, ?_, ?_, ?_⟩
  · exact (engine_turn_classification
      ⟨[['X', 'X', ' '], ['O', 'O', ' '], [' ', ' ', ' ']], 'X'⟩ 0 2).2.1
      (by decide)
  · exact (engine_turn_classification
      ⟨[['X', 'O', 'X'], ['X', 'O', 'O'], ['O', 'X', ' ']], 'X'⟩ 2 2).2.2.1
      (by decide) (by decide)
  · exact (engine_turn_classification ⟨emptyBoard, 'X'⟩ 1 1).2.2.2.1
      (by decide) (by decide)
  · exact (engine_turn_classification
      ⟨[['X', 'X', ' '], ['O', 'O', ' '], [' ', ' ', ' ']], 'X'⟩ 0 0).2.2.2.2.1
      (0, 2) [(1, 2)] 'X' [['X', 'X', 'X'], ['O', 'O', ' '], [' ', ' ', ' ']]
      (by decide) (by decide)

/-- The number of cells holding a given mark. -/
def countMark (b : Board) (m : Char) : Nat :=
  (b.map (fun row => row.count m)).sum

theorem count_set_char (l : List Char) (j : Nat) (mk m : Char)
    (hj : j < l.length) (hsp : l[j] = ' ') :
    (l.set j mk).count m + (if ' ' = m then 1 else 0) =
      l.count m + (if mk = m then 1 else 0) := by
  induction l generalizing j with
  | nil => simp at hj
  | cons hd tl ih =>
    cases j with
    | zero =>
      simp only [List.getElem_cons_zero] at hsp
      subst hsp
      rw [List.set_cons_zero, List.count_cons, List.count_cons]
      by_cases hm1 : mk == m <;> by_cases hm2 : (' ' == m : Bool) <;>
        simp_all [beq_iff_eq] <;> omega
    | succ j =>
      simp only [List.getElem_cons_succ] at hsp
      rw [List.set_cons_succ, List.count_cons, List.count_cons]
      have := ih j (by simpa using hj) hsp
      omega

theorem countMark_set (b : Board) (i j : Nat) (mk m : Char)
    (h : getCell b i j = ' ') :
    countMark (setCell b i j mk) m + (if ' ' = m then 1 else 0) =
      countMark b m + (if mk = m then 1 else 0) := by
  induction b generalizing i with
  | nil =>
    obtain ⟨hi, _, _⟩ := getCell_space_bounds h
    simp at hi
  | cons r rows ih =>
    cases i with
    | zero =>
      obtain ⟨hi, hj, hsp⟩ := getCell_space_bounds h
      simp only [List.getElem_cons_zero] at hj hsp
      unfold setCell
      simp only [List.getD_cons_zero, List.set_cons_zero]
      unfold countMark
      simp only [List.map_cons, List.sum_cons]
      have := count_set_char r j mk m hj hsp
      omega
    | succ i =>
      rw [getCell_cons_succ] at h
      rw [setCell_cons_succ]
      unfold countMark
      simp only [List.map_cons, List.sum_cons]
      have := ih i h
      unfold countMark at this
      omega

theorem cellsOK_set {b : Board} (hOK : cellsOK b) (i j : Nat) {v : Char}
    (hv : v = 'X' ∨ v = 'O' ∨ v = ' ') : cellsOK (setCell b i j v) := by
  intro row hrow c hc
  rcases List.mem_or_eq_of_mem_set hrow with h | h
  · exact hOK row h c hc
  · subst h
    rcases List.mem_or_eq_of_mem_set hc with h | h
    · by_cases hi : i < b.length
      · have hbd : b.getD i [] = b[i] := by
          rw [List.getD_eq_getElem?_getD, List.getElem?_eq_getElem hi]
          rfl
        rw [hbd] at h
        exact hOK b[i] (List.getElem_mem hi) c h
      · rw [List.getD_eq_getElem?_getD b i [],
          List.getElem?_eq_none (by omega)] at h
        simp at h
    · subst h
      exact hv

/-- Engine-reachable outcomes: play starts awaiting X's move on the empty
board, and from an awaiting state any externally supplied move that passes
`validateEntry` may be applied. -/
inductive Reachable : Outcome → Prop where
  | init : Reachable (.inProgress ⟨emptyBoard, 'X'⟩)
  | step {g : GameSt} {row col : Int} :
      Reachable (.inProgress g) → validateEntry g.board row col = true →
      Reachable (applyMove g row.toNat col.toNat)

/-- The board carried by an outcome. -/
def Outcome.board : Outcome → Board
  | .inProgress g => g.board
  | .win _ b => b
  | .draw b => b

/-- The alternation invariant, stated over a single engine state. -/
def stInv (g : GameSt) : Prop :=
  WF g.board ∧ cellsOK g.board ∧
    ((g.turn = 'X' ∧ countMark g.board 'X' = countMark g.board 'O') ∨
     (g.turn = 'O' ∧ countMark g.board 'X' = countMark g.board 'O' + 1))

theorem reachable_inv {o : Outcome} (h : Reachable o) :
    WF o.board ∧ cellsOK o.board ∧
      (countMark o.board 'X' = countMark o.board 'O' ∨
        countMark o.board 'X' = countMark o.board 'O' + 1) ∧
      (∀ g : GameSt, o = .inProgress g → stInv g) := by
  induction h with
  | init =>
    refine ⟨by constructor <;> decide, by unfold cellsOK; decide,
      Or.inl (by decide), ?_⟩
    rintro g rfl2
    cases rfl2
    exact ⟨by constructor <;> decide, by unfold cellsOK; decide,
      Or.inl ⟨rfl, by decide⟩⟩
  | step hreach hval ih =>
    rename_i g row col
    obtain ⟨hWF, hOK, hcount, hst⟩ := ih
    obtain ⟨hWFg, hOKg, hturn⟩ := hst g rfl
    have hsp : getCell g.board row.toNat col.toNat = ' ' :=
      ((validateEntry_iff g.board row col).mp hval).2.2.2.2
    have hb2WF : WF (setCell g.board row.toNat col.toNat g.turn) :=
      setCell_WF hWFg row.toNat col.toNat g.turn
    have hturnXO : g.turn = 'X' ∨ g.turn = 'O' := by
      rcases hturn with ⟨h, _⟩ | ⟨h, _⟩
      · exact Or.inl h
      · exact Or.inr h
    have hb2OK : cellsOK (setCell g.board row.toNat col.toNat g.turn) :=
      cellsOK_set hOKg row.toNat col.toNat
        (by rcases hturnXO with h | h
            · exact Or.inl h
            · exact Or.inr (Or.inl h))
    have hX := countMark_set g.board row.toNat col.toNat g.turn 'X' hsp
    have hO := countMark_set g.board row.toNat col.toNat g.turn 'O' hsp
    have hcount2 :
        (countMark (setCell g.board row.toNat col.toNat g.turn) 'X' =
          countMark (setCell g.board row.toNat col.toNat g.turn) 'O' ∨
         countMark (setCell g.board row.toNat col.toNat g.turn) 'X' =
          countMark (setCell g.board row.toNat col.toNat g.turn) 'O' + 1) ∧
        (g.turn = 'X' →
          countMark (setCell g.board row.toNat col.toNat g.turn) 'X' =
          countMark (setCell g.board row.toNat col.toNat g.turn) 'O' + 1) ∧
        (g.turn = 'O' →
          countMark (setCell g.board row.toNat col.toNat g.turn) 'X' =
          countMark (setCell g.board row.toNat col.toNat g.turn) 'O') := by
      rcases hturn with ⟨ht, hc⟩ | ⟨ht, hc⟩ <;> rw [ht] at hX hO <;>
        simp only [if_neg, if_pos] at hX hO <;>
        simp_all <;> omega
    unfold applyMove
    split
    · exact ⟨hb2WF, hb2OK, hcount2.1, by rintro g2 ⟨⟩⟩
    split
    · exact ⟨hb2WF, hb2OK, hcount2.1, by rintro g2 ⟨⟩⟩
    · refine ⟨hb2WF, hb2OK, hcount2.1, ?_⟩
      rintro g2 hg2
      cases hg2
      refine ⟨hb2WF, hb2OK, ?_⟩
      rcases hturnXO with ht | ht
      · refine Or.inr ⟨?_, hcount2.2.1 ht⟩
        show switchPlayer g.turn = 'O'
        rw [ht]
        rfl
      · refine Or.inl ⟨?_, hcount2.2.2 ht⟩
        show switchPlayer g.turn = 'X'
        rw [ht]
        rfl

/-- C6: every board reachable by the engine from the empty board through
validated moves (X first, strict alternation by `switchPlayer`) has every
cell holding one of the three values, and the count of X cells minus the
count of O cells is 0 or 1; the invariant holds after every legal move,
terminal positions included. -/
theorem reachable_board_invariant (o : Outcome) (h : Reachable o) :
    cellsOK o.board ∧
      (countMark o.board 'X' = countMark o.board 'O' ∨
        countMark o.board 'X' = countMark o.board 'O' + 1) :=
  ⟨(reachable_inv h).2.1, (reachable_inv h).2.2.1⟩

/-- Closed instance: the state after the validated move X(1,1) from the
empty board is reachable and satisfies the invariant. -/
theorem reachable_board_invariant_witness :
    cellsOK ([[' ', ' ', ' '], [' ', 'X', ' '], [' ', ' ', ' ']] : Board) ∧
      (countMark [[' ', ' ', ' '], [' ', 'X', ' '], [' ', ' ', ' ']] 'X' =
        countMark [[' ', ' ', ' '], [' ', 'X', ' '], [' ', ' ', ' ']] 'O' ∨
       countMark [[' ', ' ', ' '], [' ', 'X', ' '], [' ', ' ', ' ']] 'X' =
        countMark [[' ', ' ', ' '], [' ', 'X', ' '], [' ', ' ', ' ']] 'O' + 1) := by
  have h2 : Reachable (applyMove ⟨emptyBoard, 'X'⟩ (1 : Int).toNat (1 : Int).toNat) :=
    Reachable.step Reachable.init (by decide)
  rw [show applyMove ⟨emptyBoard, 'X'⟩ (1 : Int).toNat (1 : Int).toNat =
    Outcome.inProgress ⟨[[' ', ' ', ' '], [' ', 'X', ' '], [' ', ' ', ' ']], 'O'⟩
    from by decide] at h2
  exact reachable_board_invariant _ h2

/-- Membership in the row-major cell enumeration is exactly the in-range
condition. -/
theorem mem_cellsRM (rc : Nat × Nat) :
    rc ∈ cellsRM ↔ rc.1 < 3 ∧ rc.2 < 3 := by
  obtain ⟨a, c⟩ := rc
  constructor
  · intro h
    fin_cases h <;> omega
  · rintro ⟨ha, hc⟩
    interval_cases a <;> interval_cases c <;> decide

theorem list_getD_mem {α : Type} (l : List α) (p : Nat) (d : α)
    (hp : p < l.length) : l.getD p d ∈ l := by
  rw [List.getD_eq_getElem?_getD, List.getElem?_eq_getElem hp]
  exact List.getElem_mem hp

/-- Part C `encodeBoard`: flatten the board row-major with X as 1, O as -1
and blank as 0. -/
def encodeBoard (b : Board) : List Int :=
  (b.map (fun row => row.map (fun cell =>
    if cell == 'X' then (1 : Int) else if cell == 'O' then -1 else 0))).flatten

/-- Part C list of currently empty cells
`[(r, c) for r in range(3) for c in range(3) if self.board.c[r][c] == " "]`. -/
def availableCells (b : Board) : List (Nat × Nat) :=
  cellsRM.filter (fun rc => getCell b rc.1 rc.2 == ' ')

/-- Part C `getComputerMove`: ask the injected predictor for a move index,
convert it by `divmod(move_index, 3)`, and if the move is invalid fall back
to the injected random choice among the currently empty cells; the Boolean
result records whether the fallback message was printed. -/
def getComputerMoveML (b : Board) (predict : List Int → Int) (pick : Nat) :
    (Int × Int) × Bool :=
  if validateEntry b (Int.fdiv (predict (encodeBoard b)) 3)
      (Int.fmod (predict (encodeBoard b)) 3) then
    ((Int.fdiv (predict (encodeBoard b)) 3,
      Int.fmod (predict (encodeBoard b)) 3), false)
  else
    ((((availableCells b).getD pick (0, 0)).1,
      ((availableCells b).getD pick (0, 0)).2), true)

/-- C8: when the predicted index denotes an invalid move, the ML policy
returns a cell drawn from exactly the list of currently empty cells and
reports the fallback as an observable event; when the prediction is valid it
is returned silently; and the returned move always satisfies
`validateEntry`. -/
theorem mlPolicy_fallback (b : Board) (predict : List Int → Int) (pick : Nat)
    (hpick : pick < (availableCells b).length) :
    (∀ rc : Nat × Nat, rc ∈ availableCells b ↔
      rc.1 < 3 ∧ rc.2 < 3 ∧ getCell b rc.1 rc.2 = ' ') ∧
    (validateEntry b (Int.fdiv (predict (encodeBoard b)) 3)
        (Int.fmod (predict (encodeBoard b)) 3) = false →
      (getComputerMoveML b predict pick).2 = true ∧
      ∃ rc ∈ availableCells b,
        (getComputerMoveML b predict pick).1 = ((rc.1 : Int), (rc.2 : Int))) ∧
    (validateEntry b (Int.fdiv (predict (encodeBoard b)) 3)
        (Int.fmod (predict (encodeBoard b)) 3) = true →
      (getComputerMoveML b predict pick).2 = false ∧
      (getComputerMoveML b predict pick).1 =
        (Int.fdiv (predict (encodeBoard b)) 3,
         Int.fmod (predict (encodeBoard b)) 3)) ∧
    validateEntry b (getComputerMoveML b predict pick).1.1
      (getComputerMoveML b predict pick).1.2 = true := by
  have hmem : ∀ rc : Nat × Nat, rc ∈ availableCells b ↔
      rc.1 < 3 ∧ rc.2 < 3 ∧ getCell b rc.1 rc.2 = ' ' := by
    intro rc
    unfold availableCells
    rw [List.mem_filter, mem_cellsRM, beq_iff_eq]
    tauto
  have hget : (availableCells b).getD pick (0, 0) ∈ availableCells b :=
    list_getD_mem (availableCells b) pick (0, 0) hpick
  refine ⟨hmem, fun hbad => ?_, fun hgood => ?_, ?_⟩
  · unfold getComputerMoveML
    rw [hbad]
    exact ⟨rfl, (availableCells b).getD pick (0, 0), hget, rfl⟩
  · unfold getComputerMoveML
    rw [hgood]
    exact ⟨rfl, rfl⟩
  · unfold getComputerMoveML
    by_cases hv : validateEntry b (Int.fdiv (predict (encodeBoard b)) 3)
        (Int.fmod (predict (encodeBoard b)) 3) = true
    · rw [hv]
      simpa using hv
    · rw [Bool.not_eq_true] at hv
      rw [hv]
      simp only [Bool.false_eq_true, if_false]
      obtain ⟨h1, h2, h3⟩ := (hmem _).mp hget
      rw [validateEntry_iff]
      refine ⟨by omega, by omega, by omega, by omega, ?_⟩
      have e1 : (((availableCells b).getD pick (0, 0)).1 : Int).toNat =
          ((availableCells b).getD pick (0, 0)).1 := by omega
      have e2 : (((availableCells b).getD pick (0, 0)).2 : Int).toNat =
          ((availableCells b).getD pick (0, 0)).2 := by omega
      rw [e1, e2]
      exact h3

/-- Closed instance: a predictor that always answers index 0 on a board with
cell (0,0) occupied triggers the reported fallback, and the returned move is
an empty cell (hence not (0,0)). -/
theorem mlPolicy_fallback_witness :
    (getComputerMoveML [['X', ' ', ' '], [' ', ' ', ' '], [' ', ' ', ' ']]
      (fun _ => 0) 0).2 = true ∧
    ∃ rc ∈ availableCells [['X', ' ', ' '], [' ', ' ', ' '], [' ', ' ', ' ']],
      (getComputerMoveML [['X', ' ', ' '], [' ', ' ', ' '], [' ', ' ', ' ']]
        (fun _ => 0) 0).1 = ((rc.1 : Int), (rc.2 : Int)) := by
  have h := mlPolicy_fallback
    [['X', ' ', ' '], [' ', ' ', ' '], [' ', ' ', ' ']] (fun _ => 0) 0
    (by decide)
  exact h.2.1 (by decide)

/-- Accumulator for whitespace splitting: the current partially read field,
reversed. -/
def splitWSAux : List Char → List Char → List (List Char)
  | [], acc => if acc.isEmpty then [] else [acc.reverse]
  | c :: cs, acc =>
    if c.isWhitespace then
      if acc.isEmpty then splitWSAux cs []
      else acc.reverse :: splitWSAux cs []
    else splitWSAux cs (c :: acc)

/-- Python `line.strip().split()`: split on whitespace runs with no empty
fields (the strip is subsumed). A line of the input file is embedded as its
list of characters. -/
def pySplit (line : List Char) : List (List Char) := splitWSAux line []

def digitsVal : List Char → Nat → Option Nat
  | [], acc => some acc
  | c :: cs, acc =>
    if c.isDigit then digitsVal cs (acc * 10 + (c.toNat - 48)) else none

/-- Python `int(field)` on a whitespace-free field: an optional sign
followed by at least one digit; anything else raises `ValueError`. -/
def pyInt? : List Char → Option Int
  | [] => none
  | '-' :: ds => if ds.isEmpty then none
      else (digitsVal ds 0).map (fun n => -(n : Int))
  | '+' :: ds => if ds.isEmpty then none
      else (digitsVal ds 0).map (fun n => (n : Int))
  | ds => (digitsVal ds 0).map (fun n => (n : Int))

/-- Part C `load_dataset`, over the lines of the file: a line with exactly
10 whitespace-separated fields contributes 9 integer features and an integer
label (a non-integer field raises `ValueError`, modelled as an error); every
other line is skipped. -/
def load_dataset : List (List Char) → Except String (List (List Int) × List Int)
  | [] => .ok ([], [])
  | line :: rest =>
    if (pySplit line).length = 10 then
      match ((pySplit line).take 9).mapM pyInt?,
          pyInt? ((pySplit line).getD 9 []) with
      | some features, some label =>
        match load_dataset rest with
        | .ok (xs, ys) => .ok (features :: xs, label :: ys)
        | .error e => .error e
      | _, _ => .error "ValueError"
    else load_dataset rest

theorem mapM_pyInt_of_all_some (l : List (List Char))
    (h : ∀ t ∈ l, (pyInt? t).isSome) :
    l.mapM pyInt? = some (l.map (fun t => (pyInt? t).getD 0)) := by
  induction l with
  | nil => rfl
  | cons hd tl ih =>
    have hhd := h hd (List.mem_cons_self hd tl)
    obtain ⟨v, hv⟩ := Option.isSome_iff_exists.mp hhd
    rw [List.mapM_cons, hv, ih (fun t ht => h t (List.mem_cons_of_mem hd ht))]
    simp [hv]

/-- C10: on input whose 10-field lines hold integers, `load_dataset` returns
exactly the 10-field lines, in order, each parsed into its 9 features and
its label; lines with any other field count are skipped without error and do
not disturb the parsing of the remaining lines. -/
theorem load_dataset_spec (lines : List (List Char))
    (hgood : ∀ line ∈ lines, (pySplit line).length = 10 →
      ∀ t ∈ pySplit line, (pyInt? t).isSome) :
    load_dataset lines = .ok
      ((lines.filter (fun l => (pySplit l).length == 10)).map
        (fun l => ((pySplit l).take 9).map (fun t => (pyInt? t).getD 0)),
       (lines.filter (fun l => (pySplit l).length == 10)).map
        (fun l => ((pyInt? ((pySplit l).getD 9 []))).getD 0)) := by
  induction lines with
  | nil => rfl
  | cons line rest ih =>
    have hrest : ∀ l ∈ rest, (pySplit l).length = 10 →
        ∀ t ∈ pySplit l, (pyInt? t).isSome :=
      fun l hl => hgood l (List.mem_cons_of_mem line hl)
    rw [load_dataset]
    by_cases hlen : (pySplit line).length = 10
    · have hline := hgood line (List.mem_cons_self line rest) hlen
      have htake : ∀ t ∈ (pySplit line).take 9, (pyInt? t).isSome :=
        fun t ht => hline t (List.mem_of_mem_take ht)
      have hlabel : (pyInt? ((pySplit line).getD 9 [])).isSome :=
        hline _ (list_getD_mem (pySplit line) 9 [] (by omega))
      obtain ⟨lv, hlv⟩ := Option.isSome_iff_exists.mp hlabel
      rw [if_pos hlen, mapM_pyInt_of_all_some ((pySplit line).take 9) htake,
        hlv, ih hrest]
      have hfilter : (line :: rest).filter (fun l => (pySplit l).length == 10) =
          line :: rest.filter (fun l => (pySplit l).length == 10) := by
        rw [List.filter_cons_of_pos]
        exact beq_iff_eq.mpr hlen
      rw [hfilter]
      rw [List.getD_eq_getElem?_getD] at hlv
      simp [hlv]
    · rw [if_neg hlen, ih hrest]
      have hfilter : (line :: rest).filter (fun l => (pySplit l).length == 10) =
          rest.filter (fun l => (pySplit l).length == 10) := by
        rw [List.filter_cons_of_neg]
        simpa using hlen
      rw [hfilter]

/-- Closed instance: a malformed middle line (9 fields) is skipped and the
two well-formed lines around it are parsed in order. -/
theorem load_dataset_spec_witness :
    load_dataset ["1 0 0 0 -1 0 0 0 1 4".toList, "1 0 0 0 -1 0 0 0 1".toList,
      "0 0 0 0 1 -1 0 0 0 2".toList] = .ok
      ([[1, 0, 0, 0, -1, 0, 0, 0, 1], [0, 0, 0, 0, 1, -1, 0, 0, 0]],
       [4, 2]) := by
  rw [load_dataset_spec _ (by decide)]
  rfl

theorem mval_lt_irrefl (a : MVal) : MVal.ltV a a = false := by
  cases a <;> simp [MVal.ltV]

theorem mval_lt_trans {a c d : MVal} (h1 : MVal.ltV a c = true)
    (h2 : MVal.ltV c d = true) : MVal.ltV a d = true := by
  cases a <;> cases c <;> cases d <;> simp_all [MVal.ltV] <;> omega

theorem mval_lt_false_elim {a c : MVal} (h : MVal.ltV a c = false) :
    MVal.ltV c a = true ∨ c = a := by
  cases a <;> cases c <;> simp_all [MVal.ltV] <;> omega

/-- The minimax value, for O, of playing at a given empty cell: place 'O'
there and evaluate with the minimizer to move. -/
def childVal (b : Board) (ij : Nat × Nat) : MVal :=
  (minimax 9 (setCell b ij.1 ij.2 'O') false).1

/-- Row-major rank of a cell. -/
def rmIndex (ij : Nat × Nat) : Nat := 3 * ij.1 + ij.2

/-- Invariant of the `getComputerMove` loop after processing the cells of
`P`: the live board is untouched, and either no empty cell was seen yet
(sentinel score, no move) or the best move so far is the row-major-first
maximiser of the child values over the empty cells of `P`. -/
def bestInv (b : Board) (P : List (Nat × Nat))
    (acc : MVal × Option (Nat × Nat) × Board) : Prop :=
  acc.2.2 = b ∧
  ((acc.1 = MVal.negInf ∧ acc.2.1 = none ∧
      ∀ d ∈ P, getCell b d.1 d.2 ≠ ' ') ∨
   (∃ rc, acc.2.1 = some rc ∧ rc ∈ P ∧ getCell b rc.1 rc.2 = ' ' ∧
      acc.1 = childVal b rc ∧
      (∀ d ∈ P, getCell b d.1 d.2 = ' ' →
        MVal.ltV (childVal b rc) (childVal b d) = false) ∧
      (∀ d ∈ P, getCell b d.1 d.2 = ' ' → rmIndex d < rmIndex rc →
        MVal.ltV (childVal b d) (childVal b rc) = true)))

theorem best_fold_inv (b : Board) :
    ∀ (R P : List (Nat × Nat)) (acc : MVal × Option (Nat × Nat) × Board),
      bestInv b P acc →
      (∀ d ∈ P, ∀ e ∈ R, rmIndex d < rmIndex e) →
      List.Pairwise (fun x y => rmIndex x < rmIndex y) R →
      (∀ e ∈ R, getCell b e.1 e.2 = ' ' → ∃ n, childVal b e = MVal.fin n) →
      bestInv b (P ++ R) (R.foldl (bestStep (minimax 9)) acc) := by
  intro R
  induction R with
  | nil =>
    intro P acc hinv _ _ _
    simpa using hinv
  | cons hd tl ih =>
    intro P acc hinv hPR hsort hfin
    obtain ⟨hboard, hcase⟩ := hinv
    have hsort2 := List.pairwise_cons.mp hsort
    have happ : P ++ hd :: tl = (P ++ [hd]) ++ tl := by simp
    rw [List.foldl_cons, bestStep, hboard, happ]
    by_cases hg : (getCell b hd.1 hd.2 == ' ') = true
    · rw [if_pos hg]
      have hsp := beq_iff_eq.mp hg
      have hrest : setCell (minimax 9 (setCell b hd.1 hd.2 'O') false).2
          hd.1 hd.2 ' ' = b := by
        rw [minimax_preserves]
        exact setCell_restore 'O' hsp
      have hcv : (minimax 9 (setCell b hd.1 hd.2 'O') false).1 = childVal b hd :=
        rfl
      obtain ⟨nv, hnv⟩ := hfin hd (List.mem_cons_self hd tl) hsp
      by_cases hlt : MVal.ltV acc.1 (minimax 9 (setCell b hd.1 hd.2 'O') false).1 = true
      · rw [if_pos hlt]
        rw [hcv] at hlt
        refine ih (P ++ [hd]) _ ⟨by simpa using hrest, Or.inr ⟨hd, rfl, ?_, hsp, hcv, ?_, ?_⟩⟩
          ?_ hsort2.2 (fun e he => hfin e (List.mem_cons_of_mem hd he))
        · simp
        · intro d hd2 hde
          rcases List.mem_append.mp hd2 with hdP | hdone
          · rcases hcase with ⟨_, _, hnone⟩ | ⟨rc, _, _, _, hacc1, hmax, _⟩
            · exact absurd hde (hnone d hdP)
            · rw [hacc1] at hlt
              by_contra hcon
              rw [Bool.not_eq_false] at hcon
              have := mval_lt_trans hlt hcon
              rw [hmax d hdP hde] at this
              exact Bool.false_ne_true this
          · have : d = hd := by simpa using hdone
            subst this
            exact mval_lt_irrefl _
        · intro d hd2 hde hidx
          rcases List.mem_append.mp hd2 with hdP | hdone
          · rcases hcase with ⟨_, _, hnone⟩ | ⟨rc, _, _, _, hacc1, hmax, _⟩
            · exact absurd hde (hnone d hdP)
            · rw [hacc1] at hlt
              rcases mval_lt_false_elim (hmax d hdP hde) with h | h
              · exact mval_lt_trans h hlt
              · rw [h]
                exact hlt
          · have : d = hd := by simpa using hdone
            subst this
            omega
        · intro d hd2 e he
          rcases List.mem_append.mp hd2 with hdP | hdone
          · exact hPR d hdP e (List.mem_cons_of_mem hd he)
          · have : d = hd := by simpa using hdone
            subst this
            exact hsort2.1 e he
      · rw [if_neg hlt]
        rw [Bool.not_eq_true, hcv] at hlt
        rcases hcase with ⟨hacc1, _, _⟩ | ⟨rc, hmove, hmem, hrcsp, hacc1, hmax, hfirst⟩
        · rw [hacc1, hnv] at hlt
          exact absurd hlt (by simp [MVal.ltV])
        · refine ih (P ++ [hd]) _ ⟨by simpa using hrest,
            Or.inr ⟨rc, by simpa using hmove, List.mem_append_left [hd] hmem,
              hrcsp, hacc1, ?_, ?_⟩⟩ ?_ hsort2.2
            (fun e he => hfin e (List.mem_cons_of_mem hd he))
          · intro d hd2 hde
            rcases List.mem_append.mp hd2 with hdP | hdone
            · exact hmax d hdP hde
            · have : d = hd := by simpa using hdone
              subst this
              rw [hacc1] at hlt
              exact hlt
          · intro d hd2 hde hidx
            rcases List.mem_append.mp hd2 with hdP | hdone
            · exact hfirst d hdP hde hidx
            · have hdhd : d = hd := by simpa using hdone
              have h2 := hPR rc hmem hd (List.mem_cons_self hd tl)
              rw [hdhd] at hidx
              exfalso
              omega
          · intro d hd2 e he
            rcases List.mem_append.mp hd2 with hdP | hdone
            · exact hPR d hdP e (List.mem_cons_of_mem hd he)
            · have : d = hd := by simpa using hdone
              subst this
              exact hsort2.1 e he
    · rw [if_neg hg]
      have hnsp : getCell b hd.1 hd.2 ≠ ' ' := fun h => hg (beq_iff_eq.mpr h)
      refine ih (P ++ [hd]) acc ⟨hboard, ?_⟩ ?_ hsort2.2
        (fun e he => hfin e (List.mem_cons_of_mem hd he))
      · rcases hcase with ⟨hacc1, hmove, hnone⟩ | ⟨rc, hmove, hmem, hrcsp, hacc1, hmax, hfirst⟩
        · refine Or.inl ⟨hacc1, hmove, fun d hd2 => ?_⟩
          rcases List.mem_append.mp hd2 with hdP | hdone
          · exact hnone d hdP
          · have : d = hd := by simpa using hdone
            subst this
            exact hnsp
        · refine Or.inr ⟨rc, hmove, List.mem_append_left [hd] hmem, hrcsp,
            hacc1, fun d hd2 hde => ?_, fun d hd2 hde hidx => ?_⟩
          · rcases List.mem_append.mp hd2 with hdP | hdone
            · exact hmax d hdP hde
            · have : d = hd := by simpa using hdone
              subst this
              exact absurd hde hnsp
          · rcases List.mem_append.mp hd2 with hdP | hdone
            · exact hfirst d hdP hde hidx
            · have : d = hd := by simpa using hdone
              subst this
              exact absurd hde hnsp
      · intro d hd2 e he
        rcases List.mem_append.mp hd2 with hdP | hdone
        · exact hPR d hdP e (List.mem_cons_of_mem hd he)
        · have : d = hd := by simpa using hdone
          subst this
          exact hsort2.1 e he

/-- C2: on any well-formed board with at least one empty cell,
`getComputerMove` returns (leaving the board untouched) the row-major-first
empty cell whose minimax value after placing 'O' is maximal over all empty
cells: no empty cell beats it, and every empty cell strictly before it in
row-major order is strictly worse.  The returned cell is empty and in range,
so it satisfies the move contract; being a pure function of the board, the
choice is deterministic. -/
theorem getComputerMove_spec (b : Board) (hWF : WF b)
    (hne : availableCells b ≠ []) :
    ∃ rc : Nat × Nat,
      getComputerMove b = (some rc, b) ∧
      rc ∈ availableCells b ∧
      validateEntry b (rc.1 : Int) (rc.2 : Int) = true ∧
      (∀ d ∈ availableCells b,
        MVal.ltV (childVal b rc) (childVal b d) = false) ∧
      (∀ d ∈ availableCells b, rmIndex d < rmIndex rc →
        MVal.ltV (childVal b d) (childVal b rc) = true) := by
  have hfin : ∀ e ∈ cellsRM, getCell b e.1 e.2 = ' ' →
      ∃ n, childVal b e = MVal.fin n := by
    intro e _ hsp
    have hcnt := emptyCount_set b e.1 e.2 'O' hsp (by decide)
    have hle := emptyCount_le_nine hWF
    obtain ⟨n, hn, _⟩ := minimax_value_range 9 (setCell b e.1 e.2 'O') false
      (setCell_WF hWF e.1 e.2 'O') (by omega)
    exact ⟨n, hn⟩
  have h := best_fold_inv b cellsRM [] (MVal.negInf, none, b)
    ⟨rfl, Or.inl ⟨rfl, rfl, by simp⟩⟩ (by simp) (by decide) hfin
  obtain ⟨hb2, hc⟩ := h
  rcases hc with ⟨_, _, hnone⟩ | ⟨rc, hmove, hmem, hsp, _, hmax, hfirst⟩
  · obtain ⟨e, he⟩ := List.exists_mem_of_ne_nil _ hne
    have hef := List.mem_filter.mp he
    exact absurd (beq_iff_eq.mp hef.2) (hnone e (by simpa using hef.1))
  · refine ⟨rc, ?_, ?_, ?_, ?_, ?_⟩
    · have haux : getComputerMoveAux b =
          cellsRM.foldl (bestStep (minimax 9)) (MVal.negInf, none, b) := rfl
      simp only [getComputerMove, haux]
      rw [hmove, hb2]
    · exact List.mem_filter.mpr ⟨by simpa using hmem, beq_iff_eq.mpr hsp⟩
    · have hbound := (mem_cellsRM rc).mp (by simpa using hmem)
      rw [validateEntry_iff]
      have e1 : ((rc.1 : Int)).toNat = rc.1 := rfl
      have e2 : ((rc.2 : Int)).toNat = rc.2 := rfl
      refine ⟨by omega, by omega, by omega, by omega, ?_⟩
      rw [e1, e2]
      exact hsp
    · intro d hd
      have hdf := List.mem_filter.mp hd
      exact hmax d (by simpa using hdf.1) (beq_iff_eq.mp hdf.2)
    · intro d hd hidx
      have hdf := List.mem_filter.mp hd
      exact hfirst d (by simpa using hdf.1) (beq_iff_eq.mp hdf.2) hidx

/-- Closed instance: the argmax-first characterisation applied to a concrete
mid-game board. -/
theorem getComputerMove_spec_witness :
    ∃ rc : Nat × Nat,
      getComputerMove [['X', 'O', 'X'], ['X', 'O', ' '], [' ', ' ', ' ']] =
        (some rc, [['X', 'O', 'X'], ['X', 'O', ' '], [' ', ' ', ' ']]) ∧
      rc ∈ availableCells [['X', 'O', 'X'], ['X', 'O', ' '], [' ', ' ', ' ']] ∧
      validateEntry [['X', 'O', 'X'], ['X', 'O', ' '], [' ', ' ', ' ']]
        (rc.1 : Int) (rc.2 : Int) = true ∧
      (∀ d ∈ availableCells [['X', 'O', 'X'], ['X', 'O', ' '], [' ', ' ', ' ']],
        MVal.ltV (childVal [['X', 'O', 'X'], ['X', 'O', ' '], [' ', ' ', ' ']] rc)
          (childVal [['X', 'O', 'X'], ['X', 'O', ' '], [' ', ' ', ' ']] d) = false) ∧
      (∀ d ∈ availableCells [['X', 'O', 'X'], ['X', 'O', ' '], [' ', ' ', ' ']],
        rmIndex d < rmIndex rc →
        MVal.ltV (childVal [['X', 'O', 'X'], ['X', 'O', ' '], [' ', ' ', ' ']] d)
          (childVal [['X', 'O', 'X'], ['X', 'O', ' '], [' ', ' ', ' ']] rc) = true) :=
  getComputerMove_spec [['X', 'O', 'X'], ['X', 'O', ' '], [' ', ' ', ' ']]
    (by constructor <;> decide) (by decide)

/-- Game-theoretic value table for every board code with a legal mark count:
two bits per base-3 board code (cell (i, j) is digit 3 i + j: blank 0, X 1,
O 2), holding the minimax value shifted by one (0 for -1, 1 for 0, 2 for +1)
for the player to move (X when the mark counts are equal, O when X is one
ahead).  The table is not trusted: its defining recurrence is checked below
for every code by kernel computation, and only that checked recurrence is
used in proofs. -/
def tictacTable : Nat := 198987921567637663576393740331476439326772733651480103465828172102640879619140943795827094338951801632754104812652511650556997163342075681811632275982320583591291127813067231758578991605559492548525017040948137499558645464470687640582579268814803007034360393020366945814971942482319827541124025357172352425006589591366972916955372735344455602744604559176055677777076106369321064807111901464765701270116650989123734178167601563147403198302038478293290522667294010002877569059341313850141658905683653405105722205367920376100900682853507171259969054979199587490581291422370481991233833713250212824900344761984578324470193248806479069842503134673419928269604462146083040632543842614587054662864503195457135526899094845515613478774358194483186180064869958689734240221319760769776156398730080960646892135208718007111698218804285277198335327947938031840676582404920902526868740367716666352364807337319774795860372206129911392121599043004611703801634377307215234059276933374520320755390537880801353189333809887027697223440913045130684135221994350987580335380789434749603981559716851808662216830842270607422011796895469613018089744063984532309761861294737333392897516596816450049508847462880092906793438631981172619524994212513876940735960013622182242054768406699737007119034002350563325647880881646932278743982099949406815521185842404016578019152207436442549546801499572834913917659135652669088322101917715382163806088588253075427048550385310373179618836039107579399343765640829640267899345886583038380534348506676014660514728884635250443804285818571028904836138145498784905030357263314573850349543430469745984261734605746110021334105536196133816321130384992195600255949312024195959556060353333673971589863130377420294832693703615015799829779786200155667124620743993497613561500511486128769593560845465170279155514399992208744388633264316781808831895293029081533427244533713867230734577056139561271002582492033212766521383465177759519896653732913303117551900596788471654039029605169808332120986403731402528472686770360676505156814936423796603427667936539375516289413564771243872714429960658578126762377027345371866212324463071332498211400336550009747717942640900495661884922254199974899528189879288149323303727862345318011147800225839772758501044740520258898560352338904253662394031995116078979637570215107922213627386793638613143767029567437966060563675760725475995200219610701543221526053462440109292376877877285940157387270826863390884389200607432329853231217081389691096424584120393736495395218652769496865203606849811181706823991133058366786569634989920829686206264272752527303949662390924857110841700140067837719539954516521864571764486602058603270507589977202276902005550633319392120290578118177394785051838374908325208592447266038567798986427452591565793370136737625038869044422844200077538868980670658851932919789985985126939188745513811236346746050073570777080347329363543511379712270375758565257549550194009656578581484049251062530654615208009963809094855699970241455886980221639029065241806594912827388596749810361766815567750101137901976323049334250105546321215427611648100515776528453867010134633057449124406302922804282545055116094323964034224561831374025746099117004910940533275615688223340037786743655741606325297335761704400170933043643568175760698869490644538299039973106357440976297317476256374545893827899494565463743452016900917148534904286439674112568808060374904817773672457158438703145594553968017561871632659923243606191224439515265413261755603568661223071904316656966268494148987601413874758070582708860888283021856653091429144025478368436599891067517904793447701763968212045870678911847689846311926048268927234895368322339593170455442070145014302087708883132269549775954294933761394599470509680658182552526862505931663791500354017902331906125261502392447635652858186590772549213601547765387278684518034514800713819009947768362041054329193702531496780885016461752106322082637083186738859824325633159547463293505574562030164452640148349549849114007378316647188860351763921695893411100625381052104018700176829966433725960814866740971659227131431944572274222916873372562840850229940200557136652812951706751530511380391431770283223939122453487874980411846080286142036618511700912097537106632366489841299010423181063163503003197584617138226375431115983108822691531032009550172911643009009197881040372017344787460777168270383999153713592335599867407214411780427599017700382783788887274960009792424246664334968080135546845437579270679439163130935161086621019459173429307006416787994406799145544928593932708103114954281860520593999222728183868775164521665942976363624892460015125850621037468361040914504601725126205089576313304103113658430016210313394015592852596216026289302800008931861826183963949805746075615596181090459082480558714117004995051772393150070118751498299237333215762696380977060036223857378841745712649810992502448900328038275513734083411016899212568734798050711638019018768958285699895038511535416926318623714797540346298382746665162509538165265772949994647273760073993947114513759358181226637513988677117204442107797421686785203377957932277141080707578171147807106627745001974338212792705285808070586832295717273158657375712032230105847542602852399326219677970224309365789500247837777769400610430380881555093453377526806143227001880101310705088039690065019345221364887280965941952989326617963808618894986641714527320633068253008757891867981518098018136714093590642842791753680375834911178421214167142325769802171269806810089752663189256598951751472951982411422563745197505422037383465922583758328053954978973051884080669185910755024604190352364185042664769096793677101145039755959850503351795288365184095513158013216035481088024980598846713612236503239039082442253190330741255826966709463843114321397605477585848521067902959163917698865201390282896323447475522236332697216838670455984015576119041486829267855141275351207053552230655276294626675552427876018799655774081548203328365563800471127838417709701182523838964602257811018471049855692098262445105325778569650425665046859872222184371171310704707418852909053207857248277198380613238242329779426409048432222840731279610799592805306120593889346032728232234206432852277184252531585143610489772838639089193032951840920375950406176286932623427697959525064655623498891283053857514328455900218765818436096302745720366009926808875142703937435319186334618990422368421622631859328322873757237701269649545776903366177193084107797384229483068112314772381427352930486745637083572621632219527440285169250950298162348542850706659541075350668453179057147149962933888162325218514804823165097058500732109013547915415655927763172924497364811367904875451151762270380329940002947674739302426356782618793340844722115512497270451254499266382670302328443774634629599913543577783587869911407169742356815261226791887333712249001452409039320290683127391174755390739211528341321036261546218542240078008187078666250339796128427510116040147617552809661999412574729804992591967363398226441723436461448599752917391816508717201080532558750582269921718930451232515513279621138349944962354089206453175121170049806024491645112211053646284916290031440311374671366741434449322904398924101577279279552842411232011279049324384174340989721151126233064852673633868211509153475322422392373712732270071726926545573853884384325317166457626278924877291744164764617558387264019503291740349980441978615630382939276815567266364973674927554092600199266924825080308255744693350397817232419763797273189108553762680894247369541160634127621832620876947903128223863142096116381393032173238775253820823236102020114339408865792761663285627657768957319811359774393705715132633573474859137330824274539484882145585308183634236747979660029305413596038447284036600483553008284298249293659673874318322024063449050098717633818333580291505807139972931525132685827308389222894477955895666774481623632251515383039498774498909965252390946530276105623917215462863619206302130158531341122542129420397618238272119439203157154853573300318775995101106427771330998557696102236913797966554540194796833598463330584882549150569541640684187492241160603863254580417752800600696888357574160092044775403958161694035691881009391641277567573577199992713208459358457513578256939746023368413062622522566590059173099671536053244257029755072647477185772728335693090669118199727332291849748487830436021352579852062305776283408520682150038055785042719250142552248958599299350923285935660030431685022293695329014033619676331455096230494276642324344611563980704290445451982930841177673481513831730501457132314483590428725118596868110599478548330039502905845647522012808888557115072198176461100809240730787072093099573699072215173815395972417001177203299349556985407483817637773066139005413007274088411703005362499256364369534808601560271723018345785102188206090336825899368917761640834756985629429824410258512086813560133643310072343815720193045755546200651553511017702503086497684179366226145831598533168766573327793071533637032993724310718903139486627025722619490446365404522288572026662262980856840392184336915210476932616281688216079344618543516745914823869702251964209715088234352291678126262161317953962517708843736262103593735792687848303885864297159148993026943749825772467697010353810942720624524136140239232388861301576291242921072349643199912294785011901720494182851528258261802201531802169880583847685189410401227841142114882925275197192873538120742965149714686811696127855854820682565583316396336392882598346035299452398563553478849886956678990125764427045407726433628198187453609162231901337858572594109312521151238077304316274702320877971720558686833691420805006749007173930293187625259115227072818861047725110433771408840504448535618682691590554824179454263793744041539672680586745195845846272796190424249141756798832651068832031635837498179732709425075436933343005915937497166138043827973051700478913556868421881719566728350484632915187100585630536569622024994278075965001102408209859899493455046379936043345397347976112573645337231977150547251267642041645080027197418331293683675026331267838780115225321303899868165262179826897916385885004092148393422714947769148433066982431177152397611202784384938516726760769102439177670499072342464096583072021783347855694223899732618819301158011025118640791702911368873339748846911933400686743362621089058627899154010796672095872994241572492934993556420160625424600659054555829303344553970864054455461804519787583297484394063354850336723701859214071846953796494740835928533905430498391954071703216328607556427341432425975596302635717537456626401867937345761066148002751425970614722190748169809176560299306935721973138386900970264624425263120034130137494152282507763345197152139209034327569609332898522824950887220581021110315312621297112317672598977018743531414016240084221478069864583893493986103456266794387803910505960070656875965790234176016361782960984574199879548803134728146180267139774041236125591122198911910271730758096991720719401096634764116038918181614836075631397416242751108202780927480399659794542040650700749548389124307317399244649631700368430484977337150808847792002036168311726018871571321104442170081946403880276682093430974508818582607479507227328426849330879173027855003760099784712919188645429448389798571643208506594048038722555568283041526167854666961782125126730175536210930717821653649872736620812603169918128841683961816670507909887867577054345345077423642190409787960733908415570258049266620709808937411764474463258156348517533561927195603126537024420654295383336560329821236815194285243810527311717368727685898751582656515991194612506266998612580144143743086264740042206423378007863285633920073410416947316625329643484774594757819134820814974724597164298509163702715664676781696591466770162474991445660501390488759829150925454648918570110236417402945378801342647481782532025570966533194924442256453

/-- Table lookup for a board code. -/
def tlook (code : Nat) : Nat := tictacTable / 4 ^ code % 4

/-- Digit of a board code at cell index k. -/
def natGet (code k : Nat) : Nat := code / 3 ^ k % 3

/-- The eight winning lines, on codes; clause order mirrors
`checkWinState`. -/
def natWin (code p : Nat) : Bool :=
  (natGet code 0 == p && natGet code 1 == p && natGet code 2 == p) ||
  (natGet code 3 == p && natGet code 4 == p && natGet code 5 == p) ||
  (natGet code 6 == p && natGet code 7 == p && natGet code 8 == p) ||
  (natGet code 0 == p && natGet code 3 == p && natGet code 6 == p) ||
  (natGet code 1 == p && natGet code 4 == p && natGet code 7 == p) ||
  (natGet code 2 == p && natGet code 5 == p && natGet code 8 == p) ||
  (natGet code 0 == p && natGet code 4 == p && natGet code 8 == p) ||
  (natGet code 2 == p && natGet code 4 == p && natGet code 6 == p)

/-- Full board, on codes. -/
def natFull (code : Nat) : Bool :=
  natGet code 0 != 0 && natGet code 1 != 0 && natGet code 2 != 0 &&
  natGet code 3 != 0 && natGet code 4 != 0 && natGet code 5 != 0 &&
  natGet code 6 != 0 && natGet code 7 != 0 && natGet code 8 != 0

/-- Number of cells holding a given digit, on codes. -/
def cntDig (code d : Nat) : Nat :=
  (if natGet code 0 == d then 1 else 0) + (if natGet code 1 == d then 1 else 0) +
  (if natGet code 2 == d then 1 else 0) + (if natGet code 3 == d then 1 else 0) +
  (if natGet code 4 == d then 1 else 0) + (if natGet code 5 == d then 1 else 0) +
  (if natGet code 6 == d then 1 else 0) + (if natGet code 7 == d then 1 else 0) +
  (if natGet code 8 == d then 1 else 0)

/-- Maximum of the table values of the O-children over the empty cells, in
the row-major order of the minimax loop. -/
def natChildMax (code : Nat) : Nat :=
  cellsRM.foldl (fun acc ij =>
    if natGet code (3 * ij.1 + ij.2) == 0 then
      Nat.max acc (tlook (code + 2 * 3 ^ (3 * ij.1 + ij.2)))
    else acc) 0

/-- Minimum of the table values of the X-children over the empty cells. -/
def natChildMin (code : Nat) : Nat :=
  cellsRM.foldl (fun acc ij =>
    if natGet code (3 * ij.1 + ij.2) == 0 then
      Nat.min acc (tlook (code + 1 * 3 ^ (3 * ij.1 + ij.2)))
    else acc) 2

/-- The minimax recurrence at one code: for a code with a legal mark count
the table entry must equal the terminal value, or else the max (O to move)
or min (X to move) of the children entries; other codes are unconstrained. -/
def checkCode (code : Nat) : Bool :=
  if cntDig code 1 == cntDig code 2 then
    tlook code == (if natWin code 2 then 2 else if natWin code 1 then 0
      else if natFull code then 1 else natChildMin code)
  else if cntDig code 1 == cntDig code 2 + 1 then
    tlook code == (if natWin code 2 then 2 else if natWin code 1 then 0
      else if natFull code then 1 else natChildMax code)
  else true

/-- Primitive-operation twin of `tlook`, phrased with `Nat.pow`, `Nat.div`
and `Nat.mod` so kernel evaluation stays on the accelerated arithmetic
path. -/
def tlookF (code : Nat) : Nat := Nat.mod (Nat.div tictacTable (Nat.pow 4 code)) 4

/-- Primitive-operation twin of `natGet`. -/
def natGetF (code k : Nat) : Nat := Nat.mod (Nat.div code (Nat.pow 3 k)) 3

/-- Primitive-operation twin of `natWin`. -/
def natWinF (code p : Nat) : Bool :=
  (Nat.beq (natGetF code 0) p && Nat.beq (natGetF code 1) p && Nat.beq (natGetF code 2) p) ||
  (Nat.beq (natGetF code 3) p && Nat.beq (natGetF code 4) p && Nat.beq (natGetF code 5) p) ||
  (Nat.beq (natGetF code 6) p && Nat.beq (natGetF code 7) p && Nat.beq (natGetF code 8) p) ||
  (Nat.beq (natGetF code 0) p && Nat.beq (natGetF code 3) p && Nat.beq (natGetF code 6) p) ||
  (Nat.beq (natGetF code 1) p && Nat.beq (natGetF code 4) p && Nat.beq (natGetF code 7) p) ||
  (Nat.beq (natGetF code 2) p && Nat.beq (natGetF code 5) p && Nat.beq (natGetF code 8) p) ||
  (Nat.beq (natGetF code 0) p && Nat.beq (natGetF code 4) p && Nat.beq (natGetF code 8) p) ||
  (Nat.beq (natGetF code 2) p && Nat.beq (natGetF code 4) p && Nat.beq (natGetF code 6) p)

/-- Primitive-operation twin of `natFull`. -/
def natFullF (code : Nat) : Bool :=
  Bool.not (Nat.beq (natGetF code 0) 0) && Bool.not (Nat.beq (natGetF code 1) 0) &&
  Bool.not (Nat.beq (natGetF code 2) 0) && Bool.not (Nat.beq (natGetF code 3) 0) &&
  Bool.not (Nat.beq (natGetF code 4) 0) && Bool.not (Nat.beq (natGetF code 5) 0) &&
  Bool.not (Nat.beq (natGetF code 6) 0) && Bool.not (Nat.beq (natGetF code 7) 0) &&
  Bool.not (Nat.beq (natGetF code 8) 0)

/-- Primitive-operation twin of `cntDig`. -/
def cntDigF (code d : Nat) : Nat :=
  cond (Nat.beq (natGetF code 0) d) 1 0 + cond (Nat.beq (natGetF code 1) d) 1 0 +
  cond (Nat.beq (natGetF code 2) d) 1 0 + cond (Nat.beq (natGetF code 3) d) 1 0 +
  cond (Nat.beq (natGetF code 4) d) 1 0 + cond (Nat.beq (natGetF code 5) d) 1 0 +
  cond (Nat.beq (natGetF code 6) d) 1 0 + cond (Nat.beq (natGetF code 7) d) 1 0 +
  cond (Nat.beq (natGetF code 8) d) 1 0

/-- Primitive-operation twin of `natChildMax`. -/
def natChildMaxF (code : Nat) : Nat :=
  cellsRM.foldl (fun acc ij =>
    cond (Nat.beq (natGetF code (3 * ij.1 + ij.2)) 0)
      (Nat.max acc (tlookF (code + 2 * Nat.pow 3 (3 * ij.1 + ij.2)))) acc) 0

/-- Primitive-operation twin of `natChildMin`. -/
def natChildMinF (code : Nat) : Nat :=
  cellsRM.foldl (fun acc ij =>
    cond (Nat.beq (natGetF code (3 * ij.1 + ij.2)) 0)
      (Nat.min acc (tlookF (code + 1 * Nat.pow 3 (3 * ij.1 + ij.2)))) acc) 2

/-- Primitive-operation twin of `checkCode`. -/
def checkCodeF (code : Nat) : Bool :=
  cond (Nat.beq (cntDigF code 1) (cntDigF code 2))
    (Nat.beq (tlookF code) (cond (natWinF code 2) 2 (cond (natWinF code 1) 0
      (cond (natFullF code) 1 (natChildMinF code)))))
    (cond (Nat.beq (cntDigF code 1) (cntDigF code 2 + 1))
      (Nat.beq (tlookF code) (cond (natWinF code 2) 2 (cond (natWinF code 1) 0
        (cond (natFullF code) 1 (natChildMaxF code)))))
      true)

/-- Primitive-operation twin of `checkRange`. -/
def checkRangeF : Nat → Nat → Nat → Bool
  | 0, lo, w => Nat.beq w 1 && checkCodeF lo
  | _ + 1, _, 0 => true
  | d + 1, lo, w =>
    cond (Nat.beq w 1) (checkCodeF lo)
      (checkRangeF d lo (w / 2) && checkRangeF d (lo + w / 2) (w - w / 2))

theorem natBeqF (a b : Nat) : Nat.beq a b = (a == b) := by
  cases h2 : Nat.beq a b
  · have h3 := Nat.ne_of_beq_eq_false h2
    simp [h3]
  · have h3 := Nat.eq_of_beq_eq_true h2
    simp [h3]

theorem natPowF (a b : Nat) : Nat.pow a b = a ^ b := rfl

theorem condIteF {a : Type} (c : Bool) (x y : a) :
    cond c x y = if c = true then x else y := by
  cases c <;> rfl

theorem bneF (a b : Nat) : Bool.not (Nat.beq a b) = (a != b) := by
  rw [natBeqF]
  rfl

theorem natGetF_eq (c k : Nat) : natGetF c k = natGet c k := rfl

theorem tlookF_eq (c : Nat) : tlookF c = tlook c := rfl

theorem natWinF_eq (c p : Nat) : natWinF c p = natWin c p := by
  unfold natWinF natWin
  simp only [natGetF_eq, natBeqF]

theorem natFullF_eq (c : Nat) : natFullF c = natFull c := by
  unfold natFullF natFull
  simp only [natGetF_eq, bneF]

theorem cntDigF_eq (c d : Nat) : cntDigF c d = cntDig c d := by
  unfold cntDigF cntDig
  simp only [natGetF_eq, natBeqF, condIteF]

theorem natChildMaxF_eq (c : Nat) : natChildMaxF c = natChildMax c := by
  unfold natChildMaxF natChildMax
  have hf : (fun (acc : Nat) (ij : Nat × Nat) =>
      cond (Nat.beq (natGetF c (3 * ij.1 + ij.2)) 0)
        (Nat.max acc (tlookF (c + 2 * Nat.pow 3 (3 * ij.1 + ij.2)))) acc) =
      (fun (acc : Nat) (ij : Nat × Nat) =>
        if natGet c (3 * ij.1 + ij.2) == 0 then
          Nat.max acc (tlook (c + 2 * 3 ^ (3 * ij.1 + ij.2)))
        else acc) := by
    funext acc ij
    simp only [natGetF_eq, tlookF_eq, natPowF, natBeqF, condIteF]
  rw [hf]

theorem natChildMinF_eq (c : Nat) : natChildMinF c = natChildMin c := by
  unfold natChildMinF natChildMin
  have hf : (fun (acc : Nat) (ij : Nat × Nat) =>
      cond (Nat.beq (natGetF c (3 * ij.1 + ij.2)) 0)
        (Nat.min acc (tlookF (c + 1 * Nat.pow 3 (3 * ij.1 + ij.2)))) acc) =
      (fun (acc : Nat) (ij : Nat × Nat) =>
        if natGet c (3 * ij.1 + ij.2) == 0 then
          Nat.min acc (tlook (c + 1 * 3 ^ (3 * ij.1 + ij.2)))
        else acc) := by
    funext acc ij
    simp only [natGetF_eq, tlookF_eq, natPowF, natBeqF, condIteF]
  rw [hf]

theorem checkCodeF_eq (c : Nat) : checkCodeF c = checkCode c := by
  unfold checkCodeF checkCode
  simp only [cntDigF_eq, natWinF_eq, natFullF_eq, natChildMinF_eq,
    natChildMaxF_eq, tlookF_eq, natBeqF, condIteF]

theorem chkF_0 : checkRangeF 11 0 615 = true := by decide!
theorem chkF_1 : checkRangeF 11 615 615 = true := by decide!
theorem chkF_2 : checkRangeF 11 1230 615 = true := by decide!
theorem chkF_3 : checkRangeF 11 1845 615 = true := by decide!
theorem chkF_4 : checkRangeF 11 2460 615 = true := by decide!
theorem chkF_5 : checkRangeF 11 3075 615 = true := by decide!
theorem chkF_6 : checkRangeF 11 3690 615 = true := by decide!
theorem chkF_7 : checkRangeF 11 4305 615 = true := by decide!
theorem chkF_8 : checkRangeF 11 4920 615 = true := by decide!
theorem chkF_9 : checkRangeF 11 5535 615 = true := by decide!
theorem chkF_10 : checkRangeF 11 6150 615 = true := by decide!
theorem chkF_11 : checkRangeF 11 6765 615 = true := by decide!
theorem chkF_12 : checkRangeF 11 7380 615 = true := by decide!
theorem chkF_13 : checkRangeF 11 7995 615 = true := by decide!
theorem chkF_14 : checkRangeF 11 8610 615 = true := by decide!
theorem chkF_15 : checkRangeF 11 9225 615 = true := by decide!
theorem chkF_16 : checkRangeF 11 9840 615 = true := by decide!
theorem chkF_17 : checkRangeF 11 10455 615 = true := by decide!
theorem chkF_18 : checkRangeF 11 11070 615 = true := by decide!
theorem chkF_19 : checkRangeF 11 11685 615 = true := by decide!
theorem chkF_20 : checkRangeF 11 12300 615 = true := by decide!
theorem chkF_21 : checkRangeF 11 12915 615 = true := by decide!
theorem chkF_22 : checkRangeF 11 13530 615 = true := by decide!
theorem chkF_23 : checkRangeF 11 14145 615 = true := by decide!
theorem chkF_24 : checkRangeF 11 14760 615 = true := by decide!
theorem chkF_25 : checkRangeF 11 15375 615 = true := by decide!
theorem chkF_26 : checkRangeF 11 15990 615 = true := by decide!
theorem chkF_27 : checkRangeF 11 16605 615 = true := by decide!
theorem chkF_28 : checkRangeF 11 17220 615 = true := by decide!
theorem chkF_29 : checkRangeF 11 17835 615 = true := by decide!
theorem chkF_30 : checkRangeF 11 18450 615 = true := by decide!
theorem chkF_31 : checkRangeF 11 19065 615 = true := by decide!
theorem chkF_32 : checkRangeF 11 19680 3 = true := by decide!

theorem checkRangeF_covers : ∀ (d lo w : Nat), checkRangeF d lo w = true →
    ∀ i, i < w → checkCodeF (lo + i) = true := by
  intro d
  induction d with
  | zero =>
    intro lo w h i hi
    rw [show checkRangeF 0 lo w = (Nat.beq w 1 && checkCodeF lo) from rfl,
      Bool.and_eq_true] at h
    have hw := Nat.eq_of_beq_eq_true h.1
    have hi0 : i = 0 := by omega
    subst hi0
    simpa using h.2
  | succ d ih =>
    intro lo w h i hi
    cases w with
    | zero => omega
    | succ w =>
      rw [show checkRangeF (d + 1) lo (w + 1) =
          cond (Nat.beq (w + 1) 1) (checkCodeF lo)
            (checkRangeF d lo ((w + 1) / 2) &&
             checkRangeF d (lo + (w + 1) / 2) (w + 1 - (w + 1) / 2)) from rfl] at h
      by_cases hw : w + 1 = 1
      · have hb : Nat.beq (w + 1) 1 = true := by
          have hw0 : w = 0 := by omega
          subst hw0
          rfl
        rw [hb] at h
        have hi0 : i = 0 := by omega
        subst hi0
        simpa using h
      · have hb : Nat.beq (w + 1) 1 = false := by
          cases hbb : Nat.beq (w + 1) 1
          · rfl
          · exact absurd (Nat.eq_of_beq_eq_true hbb) hw
        rw [hb] at h
        rw [show cond false (checkCodeF lo)
            (checkRangeF d lo ((w + 1) / 2) &&
             checkRangeF d (lo + (w + 1) / 2) (w + 1 - (w + 1) / 2)) =
            (checkRangeF d lo ((w + 1) / 2) &&
             checkRangeF d (lo + (w + 1) / 2) (w + 1 - (w + 1) / 2)) from rfl,
          Bool.and_eq_true] at h
        by_cases hil : i < (w + 1) / 2
        · exact ih lo ((w + 1) / 2) h.1 i hil
        · have heq : lo + (w + 1) / 2 + (i - (w + 1) / 2) = lo + i := by omega
          have h2 := ih (lo + (w + 1) / 2) (w + 1 - (w + 1) / 2) h.2
            (i - (w + 1) / 2) (by omega)
          rwa [heq] at h2

/-- Every code in range satisfies the checked recurrence, window by
window. -/
theorem checkCode_all (code : Nat) (h : code < 19683) :
    checkCode code = true := by
  rw [← checkCodeF_eq]
  by_cases h0 : code < 615
  · simpa using checkRangeF_covers 11 0 615 chkF_0 code h0
  by_cases h1 : code < 1230
  · have hc := checkRangeF_covers 11 615 615 chkF_1 (code - 615) (by omega)
    rw [show 615 + (code - 615) = code from by omega] at hc
    exact hc
  by_cases h2 : code < 1845
  · have hc := checkRangeF_covers 11 1230 615 chkF_2 (code - 1230) (by omega)
    rw [show 1230 + (code - 1230) = code from by omega] at hc
    exact hc
  by_cases h3 : code < 2460
  · have hc := checkRangeF_covers 11 1845 615 chkF_3 (code - 1845) (by omega)
    rw [show 1845 + (code - 1845) = code from by omega] at hc
    exact hc
  by_cases h4 : code < 3075
  · have hc := checkRangeF_covers 11 2460 615 chkF_4 (code - 2460) (by omega)
    rw [show 2460 + (code - 2460) = code from by omega] at hc
    exact hc
  by_cases h5 : code < 3690
  · have hc := checkRangeF_covers 11 3075 615 chkF_5 (code - 3075) (by omega)
    rw [show 3075 + (code - 3075) = code from by omega] at hc
    exact hc
  by_cases h6 : code < 4305
  · have hc := checkRangeF_covers 11 3690 615 chkF_6 (code - 3690) (by omega)
    rw [show 3690 + (code - 3690) = code from by omega] at hc
    exact hc
  by_cases h7 : code < 4920
  · have hc := checkRangeF_covers 11 4305 615 chkF_7 (code - 4305) (by omega)
    rw [show 4305 + (code - 4305) = code from by omega] at hc
    exact hc
  by_cases h8 : code < 5535
  · have hc := checkRangeF_covers 11 4920 615 chkF_8 (code - 4920) (by omega)
    rw [show 4920 + (code - 4920) = code from by omega] at hc
    exact hc
  by_cases h9 : code < 6150
  · have hc := checkRangeF_covers 11 5535 615 chkF_9 (code - 5535) (by omega)
    rw [show 5535 + (code - 5535) = code from by omega] at hc
    exact hc
  by_cases h10 : code < 6765
  · have hc := checkRangeF_covers 11 6150 615 chkF_10 (code - 6150) (by omega)
    rw [show 6150 + (code - 6150) = code from by omega] at hc
    exact hc
  by_cases h11 : code < 7380
  · have hc := checkRangeF_covers 11 6765 615 chkF_11 (code - 6765) (by omega)
    rw [show 6765 + (code - 6765) = code from by omega] at hc
    exact hc
  by_cases h12 : code < 7995
  · have hc := checkRangeF_covers 11 7380 615 chkF_12 (code - 7380) (by omega)
    rw [show 7380 + (code - 7380) = code from by omega] at hc
    exact hc
  by_cases h13 : code < 8610
  · have hc := checkRangeF_covers 11 7995 615 chkF_13 (code - 7995) (by omega)
    rw [show 7995 + (code - 7995) = code from by omega] at hc
    exact hc
  by_cases h14 : code < 9225
  · have hc := checkRangeF_covers 11 8610 615 chkF_14 (code - 8610) (by omega)
    rw [show 8610 + (code - 8610) = code from by omega] at hc
    exact hc
  by_cases h15 : code < 9840
  · have hc := checkRangeF_covers 11 9225 615 chkF_15 (code - 9225) (by omega)
    rw [show 9225 + (code - 9225) = code from by omega] at hc
    exact hc
  by_cases h16 : code < 10455
  · have hc := checkRangeF_covers 11 9840 615 chkF_16 (code - 9840) (by omega)
    rw [show 9840 + (code - 9840) = code from by omega] at hc
    exact hc
  by_cases h17 : code < 11070
  · have hc := checkRangeF_covers 11 10455 615 chkF_17 (code - 10455) (by omega)
    rw [show 10455 + (code - 10455) = code from by omega] at hc
    exact hc
  by_cases h18 : code < 11685
  · have hc := checkRangeF_covers 11 11070 615 chkF_18 (code - 11070) (by omega)
    rw [show 11070 + (code - 11070) = code from by omega] at hc
    exact hc
  by_cases h19 : code < 12300
  · have hc := checkRangeF_covers 11 11685 615 chkF_19 (code - 11685) (by omega)
    rw [show 11685 + (code - 11685) = code from by omega] at hc
    exact hc
  by_cases h20 : code < 12915
  · have hc := checkRangeF_covers 11 12300 615 chkF_20 (code - 12300) (by omega)
    rw [show 12300 + (code - 12300) = code from by omega] at hc
    exact hc
  by_cases h21 : code < 13530
  · have hc := checkRangeF_covers 11 12915 615 chkF_21 (code - 12915) (by omega)
    rw [show 12915 + (code - 12915) = code from by omega] at hc
    exact hc
  by_cases h22 : code < 14145
  · have hc := checkRangeF_covers 11 13530 615 chkF_22 (code - 13530) (by omega)
    rw [show 13530 + (code - 13530) = code from by omega] at hc
    exact hc
  by_cases h23 : code < 14760
  · have hc := checkRangeF_covers 11 14145 615 chkF_23 (code - 14145) (by omega)
    rw [show 14145 + (code - 14145) = code from by omega] at hc
    exact hc
  by_cases h24 : code < 15375
  · have hc := checkRangeF_covers 11 14760 615 chkF_24 (code - 14760) (by omega)
    rw [show 14760 + (code - 14760) = code from by omega] at hc
    exact hc
  by_cases h25 : code < 15990
  · have hc := checkRangeF_covers 11 15375 615 chkF_25 (code - 15375) (by omega)
    rw [show 15375 + (code - 15375) = code from by omega] at hc
    exact hc
  by_cases h26 : code < 16605
  · have hc := checkRangeF_covers 11 15990 615 chkF_26 (code - 15990) (by omega)
    rw [show 15990 + (code - 15990) = code from by omega] at hc
    exact hc
  by_cases h27 : code < 17220
  · have hc := checkRangeF_covers 11 16605 615 chkF_27 (code - 16605) (by omega)
    rw [show 16605 + (code - 16605) = code from by omega] at hc
    exact hc
  by_cases h28 : code < 17835
  · have hc := checkRangeF_covers 11 17220 615 chkF_28 (code - 17220) (by omega)
    rw [show 17220 + (code - 17220) = code from by omega] at hc
    exact hc
  by_cases h29 : code < 18450
  · have hc := checkRangeF_covers 11 17835 615 chkF_29 (code - 17835) (by omega)
    rw [show 17835 + (code - 17835) = code from by omega] at hc
    exact hc
  by_cases h30 : code < 19065
  · have hc := checkRangeF_covers 11 18450 615 chkF_30 (code - 18450) (by omega)
    rw [show 18450 + (code - 18450) = code from by omega] at hc
    exact hc
  by_cases h31 : code < 19680
  · have hc := checkRangeF_covers 11 19065 615 chkF_31 (code - 19065) (by omega)
    rw [show 19065 + (code - 19065) = code from by omega] at hc
    exact hc
  · have hc := checkRangeF_covers 11 19680 3 chkF_32 (code - 19680) (by omega)
    rw [show 19680 + (code - 19680) = code from by omega] at hc
    exact hc

/-- Cell encoding used by the table codes: blank 0, X 1, O 2. -/
def encC (c : Char) : Nat := if c == 'X' then 1 else if c == 'O' then 2 else 0

/-- The table code of a board: base-3, row-major. -/
def encodeT (b : Board) : Nat :=
  encC (getCell b 0 0) + 3 * encC (getCell b 0 1) + 9 * encC (getCell b 0 2) +
  27 * encC (getCell b 1 0) + 81 * encC (getCell b 1 1) +
  243 * encC (getCell b 1 2) + 729 * encC (getCell b 2 0) +
  2187 * encC (getCell b 2 1) + 6561 * encC (getCell b 2 2)

theorem encC_le_two (c : Char) : encC c ≤ 2 := by
  unfold encC
  split
  · omega
  split
  · omega
  · omega

theorem encC_beq_one (c : Char) : (encC c == 1) = (c == 'X') := by
  by_cases h1 : c = 'X'
  · subst h1
    rfl
  · by_cases h2 : c = 'O'
    · subst h2
      rfl
    · simp [encC, beq_iff_eq, h1, h2]

theorem encC_beq_two (c : Char) : (encC c == 2) = (c == 'O') := by
  by_cases h1 : c = 'X'
  · subst h1
    rfl
  · by_cases h2 : c = 'O'
    · subst h2
      rfl
    · simp [encC, beq_iff_eq, h1, h2]

theorem encC_bne_zero (c : Char) (hdom : c = 'X' ∨ c = 'O' ∨ c = ' ') :
    (encC c != 0) = (c != ' ') := by
  rcases hdom with rfl | rfl | rfl <;> rfl

theorem cell_empty_iff_digit (c : Char) (hdom : c = 'X' ∨ c = 'O' ∨ c = ' ') :
    c = ' ' ↔ encC c = 0 := by
  rcases hdom with rfl | rfl | rfl <;> simp [encC]

theorem digit_extract (s e0 e1 e2 e3 e4 e5 e6 e7 e8 : Nat)
    (hs : s = e0 + 3 * e1 + 9 * e2 + 27 * e3 + 81 * e4 + 243 * e5 + 729 * e6 +
      2187 * e7 + 6561 * e8)
    (h0 : e0 ≤ 2) (h1 : e1 ≤ 2) (h2 : e2 ≤ 2) (h3 : e3 ≤ 2) (h4 : e4 ≤ 2)
    (h5 : e5 ≤ 2) (h6 : e6 ≤ 2) (h7 : e7 ≤ 2) (h8 : e8 ≤ 2) :
    s / 1 % 3 = e0 ∧ s / 3 % 3 = e1 ∧ s / 9 % 3 = e2 ∧ s / 27 % 3 = e3 ∧
    s / 81 % 3 = e4 ∧ s / 243 % 3 = e5 ∧ s / 729 % 3 = e6 ∧
    s / 2187 % 3 = e7 ∧ s / 6561 % 3 = e8 := by
  subst hs
  refine ⟨?_, ?_, ?_, ?_, ?_, ?_, ?_, ?_, ?_⟩ <;> omega

theorem natGet_encodeT (c0 c1 c2 c3 c4 c5 c6 c7 c8 : Char) :
    natGet (encodeT [[c0, c1, c2], [c3, c4, c5], [c6, c7, c8]]) 0 = encC c0 ∧
    natGet (encodeT [[c0, c1, c2], [c3, c4, c5], [c6, c7, c8]]) 1 = encC c1 ∧
    natGet (encodeT [[c0, c1, c2], [c3, c4, c5], [c6, c7, c8]]) 2 = encC c2 ∧
    natGet (encodeT [[c0, c1, c2], [c3, c4, c5], [c6, c7, c8]]) 3 = encC c3 ∧
    natGet (encodeT [[c0, c1, c2], [c3, c4, c5], [c6, c7, c8]]) 4 = encC c4 ∧
    natGet (encodeT [[c0, c1, c2], [c3, c4, c5], [c6, c7, c8]]) 5 = encC c5 ∧
    natGet (encodeT [[c0, c1, c2], [c3, c4, c5], [c6, c7, c8]]) 6 = encC c6 ∧
    natGet (encodeT [[c0, c1, c2], [c3, c4, c5], [c6, c7, c8]]) 7 = encC c7 ∧
    natGet (encodeT [[c0, c1, c2], [c3, c4, c5], [c6, c7, c8]]) 8 = encC c8 :=
  digit_extract (encodeT [[c0, c1, c2], [c3, c4, c5], [c6, c7, c8]])
    (encC c0) (encC c1) (encC c2) (encC c3) (encC c4) (encC c5) (encC c6)
    (encC c7) (encC c8) rfl
    (encC_le_two c0) (encC_le_two c1) (encC_le_two c2) (encC_le_two c3)
    (encC_le_two c4) (encC_le_two c5) (encC_le_two c6) (encC_le_two c7)
    (encC_le_two c8)

theorem encodeT_lt (c0 c1 c2 c3 c4 c5 c6 c7 c8 : Char) :
    encodeT [[c0, c1, c2], [c3, c4, c5], [c6, c7, c8]] < 19683 := by
  have h0 := encC_le_two c0
  have h1 := encC_le_two c1
  have h2 := encC_le_two c2
  have h3 := encC_le_two c3
  have h4 := encC_le_two c4
  have h5 := encC_le_two c5
  have h6 := encC_le_two c6
  have h7 := encC_le_two c7
  have h8 := encC_le_two c8
  show encC c0 + 3 * encC c1 + 9 * encC c2 + 27 * encC c3 + 81 * encC c4 +
    243 * encC c5 + 729 * encC c6 + 2187 * encC c7 + 6561 * encC c8 < 19683
  omega

theorem bridge_winO (c0 c1 c2 c3 c4 c5 c6 c7 c8 : Char) :
    natWin (encodeT [[c0, c1, c2], [c3, c4, c5], [c6, c7, c8]]) 2 =
      checkWinState [[c0, c1, c2], [c3, c4, c5], [c6, c7, c8]] 'O' := by
  obtain ⟨d0, d1, d2, d3, d4, d5, d6, d7, d8⟩ := natGet_encodeT c0 c1 c2 c3 c4 c5 c6 c7 c8
  have hr : List.range 3 = [0, 1, 2] := rfl
  have s20 : (2 : Nat) - 0 = 2 := rfl
  have s21 : (2 : Nat) - 1 = 1 := rfl
  have s22 : (2 : Nat) - 2 = 0 := rfl
  unfold natWin
  rw [d0, d1, d2, d3, d4, d5, d6, d7, d8, encC_beq_two c0, encC_beq_two c1,
    encC_beq_two c2, encC_beq_two c3, encC_beq_two c4, encC_beq_two c5,
    encC_beq_two c6, encC_beq_two c7, encC_beq_two c8]
  simp only [checkWinState, hr, s20, s21, s22, List.any_cons, List.any_nil,
    List.all_cons, List.all_nil,
    getCell00, getCell01, getCell02, getCell10, getCell11, getCell12,
    getCell20, getCell21, getCell22,
    Bool.or_false, Bool.and_true, Bool.or_assoc, Bool.and_assoc]

theorem bridge_winX (c0 c1 c2 c3 c4 c5 c6 c7 c8 : Char) :
    natWin (encodeT [[c0, c1, c2], [c3, c4, c5], [c6, c7, c8]]) 1 =
      checkWinState [[c0, c1, c2], [c3, c4, c5], [c6, c7, c8]] 'X' := by
  obtain ⟨d0, d1, d2, d3, d4, d5, d6, d7, d8⟩ := natGet_encodeT c0 c1 c2 c3 c4 c5 c6 c7 c8
  have hr : List.range 3 = [0, 1, 2] := rfl
  have s20 : (2 : Nat) - 0 = 2 := rfl
  have s21 : (2 : Nat) - 1 = 1 := rfl
  have s22 : (2 : Nat) - 2 = 0 := rfl
  unfold natWin
  rw [d0, d1, d2, d3, d4, d5, d6, d7, d8, encC_beq_one c0, encC_beq_one c1,
    encC_beq_one c2, encC_beq_one c3, encC_beq_one c4, encC_beq_one c5,
    encC_beq_one c6, encC_beq_one c7, encC_beq_one c8]
  simp only [checkWinState, hr, s20, s21, s22, List.any_cons, List.any_nil,
    List.all_cons, List.all_nil,
    getCell00, getCell01, getCell02, getCell10, getCell11, getCell12,
    getCell20, getCell21, getCell22,
    Bool.or_false, Bool.and_true, Bool.or_assoc, Bool.and_assoc]

theorem bridge_full (c0 c1 c2 c3 c4 c5 c6 c7 c8 : Char)
    (h0 : c0 = 'X' ∨ c0 = 'O' ∨ c0 = ' ') (h1 : c1 = 'X' ∨ c1 = 'O' ∨ c1 = ' ')
    (h2 : c2 = 'X' ∨ c2 = 'O' ∨ c2 = ' ') (h3 : c3 = 'X' ∨ c3 = 'O' ∨ c3 = ' ')
    (h4 : c4 = 'X' ∨ c4 = 'O' ∨ c4 = ' ') (h5 : c5 = 'X' ∨ c5 = 'O' ∨ c5 = ' ')
    (h6 : c6 = 'X' ∨ c6 = 'O' ∨ c6 = ' ') (h7 : c7 = 'X' ∨ c7 = 'O' ∨ c7 = ' ')
    (h8 : c8 = 'X' ∨ c8 = 'O' ∨ c8 = ' ') :
    natFull (encodeT [[c0, c1, c2], [c3, c4, c5], [c6, c7, c8]]) =
      checkFull [[c0, c1, c2], [c3, c4, c5], [c6, c7, c8]] := by
  obtain ⟨d0, d1, d2, d3, d4, d5, d6, d7, d8⟩ := natGet_encodeT c0 c1 c2 c3 c4 c5 c6 c7 c8
  unfold natFull
  rw [d0, d1, d2, d3, d4, d5, d6, d7, d8, encC_bne_zero c0 h0,
    encC_bne_zero c1 h1, encC_bne_zero c2 h2, encC_bne_zero c3 h3,
    encC_bne_zero c4 h4, encC_bne_zero c5 h5, encC_bne_zero c6 h6,
    encC_bne_zero c7 h7, encC_bne_zero c8 h8]
  simp only [checkFull, List.all_cons, List.all_nil, Bool.and_true,
    Bool.and_assoc]

theorem bridge_cnt1 (c0 c1 c2 c3 c4 c5 c6 c7 c8 : Char) :
    cntDig (encodeT [[c0, c1, c2], [c3, c4, c5], [c6, c7, c8]]) 1 =
      countMark [[c0, c1, c2], [c3, c4, c5], [c6, c7, c8]] 'X' := by
  obtain ⟨d0, d1, d2, d3, d4, d5, d6, d7, d8⟩ := natGet_encodeT c0 c1 c2 c3 c4 c5 c6 c7 c8
  unfold cntDig
  rw [d0, d1, d2, d3, d4, d5, d6, d7, d8, encC_beq_one c0, encC_beq_one c1,
    encC_beq_one c2, encC_beq_one c3, encC_beq_one c4, encC_beq_one c5,
    encC_beq_one c6, encC_beq_one c7, encC_beq_one c8]
  simp only [countMark, List.map_cons, List.map_nil, List.sum_cons,
    List.sum_nil, List.count_cons, List.count_nil]
  omega

theorem bridge_cnt2 (c0 c1 c2 c3 c4 c5 c6 c7 c8 : Char) :
    cntDig (encodeT [[c0, c1, c2], [c3, c4, c5], [c6, c7, c8]]) 2 =
      countMark [[c0, c1, c2], [c3, c4, c5], [c6, c7, c8]] 'O' := by
  obtain ⟨d0, d1, d2, d3, d4, d5, d6, d7, d8⟩ := natGet_encodeT c0 c1 c2 c3 c4 c5 c6 c7 c8
  unfold cntDig
  rw [d0, d1, d2, d3, d4, d5, d6, d7, d8, encC_beq_two c0, encC_beq_two c1,
    encC_beq_two c2, encC_beq_two c3, encC_beq_two c4, encC_beq_two c5,
    encC_beq_two c6, encC_beq_two c7, encC_beq_two c8]
  simp only [countMark, List.map_cons, List.map_nil, List.sum_cons,
    List.sum_nil, List.count_cons, List.count_nil]
  omega

theorem encodeT_set (c0 c1 c2 c3 c4 c5 c6 c7 c8 : Char) (ij : Nat × Nat)
    (hij : ij ∈ cellsRM) (mk : Char)
    (hsp : getCell [[c0, c1, c2], [c3, c4, c5], [c6, c7, c8]] ij.1 ij.2 = ' ') :
    encodeT (setCell [[c0, c1, c2], [c3, c4, c5], [c6, c7, c8]] ij.1 ij.2 mk) =
      encodeT [[c0, c1, c2], [c3, c4, c5], [c6, c7, c8]] +
        encC mk * 3 ^ (3 * ij.1 + ij.2) := by
  obtain ⟨a, b⟩ := ij
  simp only [cellsRM, List.mem_cons, List.not_mem_nil, or_false,
    Prod.mk.injEq] at hij
  rcases hij with h9 | h9 | h9 | h9 | h9 | h9 | h9 | h9 | h9
  all_goals obtain ⟨rfl, rfl⟩ := h9
  · rw [getCell00] at hsp
    subst hsp
    show encC mk + 3 * encC c1 + 9 * encC c2 + 27 * encC c3 + 81 * encC c4 + 243 * encC c5 + 729 * encC c6 + 2187 * encC c7 + 6561 * encC c8 =
      encC ' ' + 3 * encC c1 + 9 * encC c2 + 27 * encC c3 + 81 * encC c4 + 243 * encC c5 + 729 * encC c6 + 2187 * encC c7 + 6561 * encC c8 + encC mk * 3 ^ (3 * 0 + 0)
    have hz : encC ' ' = 0 := rfl
    have hp : (3 : Nat) ^ (3 * 0 + 0) = 1 := rfl
    rw [hz, hp]
    omega
  · rw [getCell01] at hsp
    subst hsp
    show encC c0 + 3 * encC mk + 9 * encC c2 + 27 * encC c3 + 81 * encC c4 + 243 * encC c5 + 729 * encC c6 + 2187 * encC c7 + 6561 * encC c8 =
      encC c0 + 3 * encC ' ' + 9 * encC c2 + 27 * encC c3 + 81 * encC c4 + 243 * encC c5 + 729 * encC c6 + 2187 * encC c7 + 6561 * encC c8 + encC mk * 3 ^ (3 * 0 + 1)
    have hz : encC ' ' = 0 := rfl
    have hp : (3 : Nat) ^ (3 * 0 + 1) = 3 := rfl
    rw [hz, hp]
    omega
  · rw [getCell02] at hsp
    subst hsp
    show encC c0 + 3 * encC c1 + 9 * encC mk + 27 * encC c3 + 81 * encC c4 + 243 * encC c5 + 729 * encC c6 + 2187 * encC c7 + 6561 * encC c8 =
      encC c0 + 3 * encC c1 + 9 * encC ' ' + 27 * encC c3 + 81 * encC c4 + 243 * encC c5 + 729 * encC c6 + 2187 * encC c7 + 6561 * encC c8 + encC mk * 3 ^ (3 * 0 + 2)
    have hz : encC ' ' = 0 := rfl
    have hp : (3 : Nat) ^ (3 * 0 + 2) = 9 := rfl
    rw [hz, hp]
    omega
  · rw [getCell10] at hsp
    subst hsp
    show encC c0 + 3 * encC c1 + 9 * encC c2 + 27 * encC mk + 81 * encC c4 + 243 * encC c5 + 729 * encC c6 + 2187 * encC c7 + 6561 * encC c8 =
      encC c0 + 3 * encC c1 + 9 * encC c2 + 27 * encC ' ' + 81 * encC c4 + 243 * encC c5 + 729 * encC c6 + 2187 * encC c7 + 6561 * encC c8 + encC mk * 3 ^ (3 * 1 + 0)
    have hz : encC ' ' = 0 := rfl
    have hp : (3 : Nat) ^ (3 * 1 + 0) = 27 := rfl
    rw [hz, hp]
    omega
  · rw [getCell11] at hsp
    subst hsp
    show encC c0 + 3 * encC c1 + 9 * encC c2 + 27 * encC c3 + 81 * encC mk + 243 * encC c5 + 729 * encC c6 + 2187 * encC c7 + 6561 * encC c8 =
      encC c0 + 3 * encC c1 + 9 * encC c2 + 27 * encC c3 + 81 * encC ' ' + 243 * encC c5 + 729 * encC c6 + 2187 * encC c7 + 6561 * encC c8 + encC mk * 3 ^ (3 * 1 + 1)
    have hz : encC ' ' = 0 := rfl
    have hp : (3 : Nat) ^ (3 * 1 + 1) = 81 := rfl
    rw [hz, hp]
    omega
  · rw [getCell12] at hsp
    subst hsp
    show encC c0 + 3 * encC c1 + 9 * encC c2 + 27 * encC c3 + 81 * encC c4 + 243 * encC mk + 729 * encC c6 + 2187 * encC c7 + 6561 * encC c8 =
      encC c0 + 3 * encC c1 + 9 * encC c2 + 27 * encC c3 + 81 * encC c4 + 243 * encC ' ' + 729 * encC c6 + 2187 * encC c7 + 6561 * encC c8 + encC mk * 3 ^ (3 * 1 + 2)
    have hz : encC ' ' = 0 := rfl
    have hp : (3 : Nat) ^ (3 * 1 + 2) = 243 := rfl
    rw [hz, hp]
    omega
  · rw [getCell20] at hsp
    subst hsp
    show encC c0 + 3 * encC c1 + 9 * encC c2 + 27 * encC c3 + 81 * encC c4 + 243 * encC c5 + 729 * encC mk + 2187 * encC c7 + 6561 * encC c8 =
      encC c0 + 3 * encC c1 + 9 * encC c2 + 27 * encC c3 + 81 * encC c4 + 243 * encC c5 + 729 * encC ' ' + 2187 * encC c7 + 6561 * encC c8 + encC mk * 3 ^ (3 * 2 + 0)
    have hz : encC ' ' = 0 := rfl
    have hp : (3 : Nat) ^ (3 * 2 + 0) = 729 := rfl
    rw [hz, hp]
    omega
  · rw [getCell21] at hsp
    subst hsp
    show encC c0 + 3 * encC c1 + 9 * encC c2 + 27 * encC c3 + 81 * encC c4 + 243 * encC c5 + 729 * encC c6 + 2187 * encC mk + 6561 * encC c8 =
      encC c0 + 3 * encC c1 + 9 * encC c2 + 27 * encC c3 + 81 * encC c4 + 243 * encC c5 + 729 * encC c6 + 2187 * encC ' ' + 6561 * encC c8 + encC mk * 3 ^ (3 * 2 + 1)
    have hz : encC ' ' = 0 := rfl
    have hp : (3 : Nat) ^ (3 * 2 + 1) = 2187 := rfl
    rw [hz, hp]
    omega
  · rw [getCell22] at hsp
    subst hsp
    show encC c0 + 3 * encC c1 + 9 * encC c2 + 27 * encC c3 + 81 * encC c4 + 243 * encC c5 + 729 * encC c6 + 2187 * encC c7 + 6561 * encC mk =
      encC c0 + 3 * encC c1 + 9 * encC c2 + 27 * encC c3 + 81 * encC c4 + 243 * encC c5 + 729 * encC c6 + 2187 * encC c7 + 6561 * encC ' ' + encC mk * 3 ^ (3 * 2 + 2)
    have hz : encC ' ' = 0 := rfl
    have hp : (3 : Nat) ^ (3 * 2 + 2) = 6561 := rfl
    rw [hz, hp]
    omega

theorem empty_iff_digit_cell (c0 c1 c2 c3 c4 c5 c6 c7 c8 : Char)
    (hOK : cellsOK [[c0, c1, c2], [c3, c4, c5], [c6, c7, c8]]) :
    ∀ ij ∈ cellsRM,
      (getCell [[c0, c1, c2], [c3, c4, c5], [c6, c7, c8]] ij.1 ij.2 = ' ' ↔
        natGet (encodeT [[c0, c1, c2], [c3, c4, c5], [c6, c7, c8]])
          (3 * ij.1 + ij.2) = 0) := by
  obtain ⟨d0, d1, d2, d3, d4, d5, d6, d7, d8⟩ := natGet_encodeT c0 c1 c2 c3 c4 c5 c6 c7 c8
  have g0 : c0 = 'X' ∨ c0 = 'O' ∨ c0 = ' ' := hOK [c0, c1, c2] (by simp) c0 (by simp)
  have g1 : c1 = 'X' ∨ c1 = 'O' ∨ c1 = ' ' := hOK [c0, c1, c2] (by simp) c1 (by simp)
  have g2 : c2 = 'X' ∨ c2 = 'O' ∨ c2 = ' ' := hOK [c0, c1, c2] (by simp) c2 (by simp)
  have g3 : c3 = 'X' ∨ c3 = 'O' ∨ c3 = ' ' := hOK [c3, c4, c5] (by simp) c3 (by simp)
  have g4 : c4 = 'X' ∨ c4 = 'O' ∨ c4 = ' ' := hOK [c3, c4, c5] (by simp) c4 (by simp)
  have g5 : c5 = 'X' ∨ c5 = 'O' ∨ c5 = ' ' := hOK [c3, c4, c5] (by simp) c5 (by simp)
  have g6 : c6 = 'X' ∨ c6 = 'O' ∨ c6 = ' ' := hOK [c6, c7, c8] (by simp) c6 (by simp)
  have g7 : c7 = 'X' ∨ c7 = 'O' ∨ c7 = ' ' := hOK [c6, c7, c8] (by simp) c7 (by simp)
  have g8 : c8 = 'X' ∨ c8 = 'O' ∨ c8 = ' ' := hOK [c6, c7, c8] (by simp) c8 (by simp)
  intro ij hij
  obtain ⟨a, b⟩ := ij
  simp only [cellsRM, List.mem_cons, List.not_mem_nil, or_false,
    Prod.mk.injEq] at hij
  rcases hij with h9 | h9 | h9 | h9 | h9 | h9 | h9 | h9 | h9
  all_goals obtain ⟨rfl, rfl⟩ := h9
  · rw [getCell00, show 3 * 0 + 0 = 0 from rfl, d0]
    exact cell_empty_iff_digit c0 g0
  · rw [getCell01, show 3 * 0 + 1 = 1 from rfl, d1]
    exact cell_empty_iff_digit c1 g1
  · rw [getCell02, show 3 * 0 + 2 = 2 from rfl, d2]
    exact cell_empty_iff_digit c2 g2
  · rw [getCell10, show 3 * 1 + 0 = 3 from rfl, d3]
    exact cell_empty_iff_digit c3 g3
  · rw [getCell11, show 3 * 1 + 1 = 4 from rfl, d4]
    exact cell_empty_iff_digit c4 g4
  · rw [getCell12, show 3 * 1 + 2 = 5 from rfl, d5]
    exact cell_empty_iff_digit c5 g5
  · rw [getCell20, show 3 * 2 + 0 = 6 from rfl, d6]
    exact cell_empty_iff_digit c6 g6
  · rw [getCell21, show 3 * 2 + 1 = 7 from rfl, d7]
    exact cell_empty_iff_digit c7 g7
  · rw [getCell22, show 3 * 2 + 2 = 8 from rfl, d8]
    exact cell_empty_iff_digit c8 g8

/-- Relation between a running minimax best (maximising loop) and a running
table best: the sentinel pairs with the fold identity 0, a finite score
pairs with its shifted table value. -/
def relMax (v : MVal) (n : Nat) : Prop :=
  (v = MVal.negInf ∧ n = 0) ∨ (v = MVal.fin ((n : Int) - 1) ∧ n ≤ 2)

/-- Relation for the minimising loop, with fold identity 2. -/
def relMin (v : MVal) (n : Nat) : Prop :=
  (v = MVal.posInf ∧ n = 2) ∨ (v = MVal.fin ((n : Int) - 1) ∧ n ≤ 2)

theorem table_fold_max (fuel : Nat) (b : Board) (code : Nat) :
    ∀ (cells : List (Nat × Nat)) (acc : MVal × Board) (accN : Nat),
      acc.2 = b →
      (∀ ij ∈ cells, (getCell b ij.1 ij.2 = ' ' ↔
        natGet code (3 * ij.1 + ij.2) = 0)) →
      (∀ ij ∈ cells, getCell b ij.1 ij.2 = ' ' →
        (minimax fuel (setCell b ij.1 ij.2 'O') false).1 =
          MVal.fin ((tlook (code + 2 * 3 ^ (3 * ij.1 + ij.2)) : Int) - 1) ∧
        tlook (code + 2 * 3 ^ (3 * ij.1 + ij.2)) ≤ 2) →
      relMax acc.1 accN →
      relMax (cells.foldl (minimaxStep (minimax fuel) 'O' false MVal.maxV) acc).1
        (cells.foldl (fun a ij =>
          if natGet code (3 * ij.1 + ij.2) == 0 then
            Nat.max a (tlook (code + 2 * 3 ^ (3 * ij.1 + ij.2)))
          else a) accN) ∧
      ((cells.foldl (minimaxStep (minimax fuel) 'O' false MVal.maxV) acc).1 =
          MVal.negInf →
        acc.1 = MVal.negInf ∧ ∀ ij ∈ cells, getCell b ij.1 ij.2 ≠ ' ') := by
  intro cells
  induction cells with
  | nil =>
    intro acc accN hboard hdig hIH hacc
    rw [List.foldl_nil, List.foldl_nil]
    exact ⟨hacc, fun h => ⟨h, by simp⟩⟩
  | cons hd tl ih =>
    intro acc accN hboard hdig hIH hacc
    have hmem0 : hd ∈ hd :: tl := List.mem_cons_self hd tl
    by_cases hsp : getCell b hd.1 hd.2 = ' '
    · have hg : (getCell b hd.1 hd.2 == ' ') = true := beq_iff_eq.mpr hsp
      have hng : (natGet code (3 * hd.1 + hd.2) == 0) = true :=
        beq_iff_eq.mpr ((hdig hd hmem0).mp hsp)
      obtain ⟨hval, hle⟩ := hIH hd hmem0 hsp
      rw [List.foldl_cons, List.foldl_cons, minimaxStep, hboard, if_pos hg,
        if_pos hng, hval]
      have hb2 : setCell (minimax fuel (setCell b hd.1 hd.2 'O') false).2
          hd.1 hd.2 ' ' = b := by
        rw [minimax_preserves]
        exact setCell_restore 'O' hsp
      have hrel : relMax
          (MVal.maxV acc.1
            (MVal.fin ((tlook (code + 2 * 3 ^ (3 * hd.1 + hd.2)) : Int) - 1)))
          (Nat.max accN (tlook (code + 2 * 3 ^ (3 * hd.1 + hd.2)))) := by
        rcases hacc with ⟨ha, han⟩ | ⟨ha, han⟩
        · rw [ha, han]
          have hmx : Nat.max 0 (tlook (code + 2 * 3 ^ (3 * hd.1 + hd.2))) =
              tlook (code + 2 * 3 ^ (3 * hd.1 + hd.2)) := by
            simp only [Nat.max_def]
            split <;> omega
          rw [hmx]
          exact Or.inr ⟨rfl, hle⟩
        · rw [ha]
          refine Or.inr ⟨?_, by simp only [Nat.max_def]; split <;> omega⟩
          show MVal.fin _ = MVal.fin _
          congr 1
          simp only [Nat.max_def, max_def]
          split <;> split <;> omega
      have hstep := ih
        (MVal.maxV acc.1
          (MVal.fin ((tlook (code + 2 * 3 ^ (3 * hd.1 + hd.2)) : Int) - 1)),
         setCell (minimax fuel (setCell b hd.1 hd.2 'O') false).2 hd.1 hd.2 ' ')
        (Nat.max accN (tlook (code + 2 * 3 ^ (3 * hd.1 + hd.2))))
        hb2 (fun ij hij => hdig ij (List.mem_cons_of_mem hd hij))
        (fun ij hij h => hIH ij (List.mem_cons_of_mem hd hij) h)
        hrel
      refine ⟨hstep.1, fun hres => ?_⟩
      obtain ⟨habs, _⟩ := hstep.2 hres
      exfalso
      rcases hc : acc.1 with _ | _ | n <;> rw [hc] at habs <;>
        simp [MVal.maxV] at habs
    · have hgne : ¬ ((getCell b hd.1 hd.2 == ' ') = true) := by
        intro h
        exact hsp (beq_iff_eq.mp h)
      have hngne : ¬ ((natGet code (3 * hd.1 + hd.2) == 0) = true) := by
        intro h
        exact hsp ((hdig hd hmem0).mpr (beq_iff_eq.mp h))
      rw [List.foldl_cons, List.foldl_cons, minimaxStep, hboard, if_neg hgne,
        if_neg hngne]
      have hstep := ih acc accN hboard
        (fun ij hij => hdig ij (List.mem_cons_of_mem hd hij))
        (fun ij hij h => hIH ij (List.mem_cons_of_mem hd hij) h) hacc
      refine ⟨hstep.1, fun hres => ?_⟩
      obtain ⟨h1, h2⟩ := hstep.2 hres
      refine ⟨h1, fun ij hij => ?_⟩
      rcases List.mem_cons.mp hij with rfl | h
      · exact hsp
      · exact h2 ij h

theorem table_fold_min (fuel : Nat) (b : Board) (code : Nat) :
    ∀ (cells : List (Nat × Nat)) (acc : MVal × Board) (accN : Nat),
      acc.2 = b →
      (∀ ij ∈ cells, (getCell b ij.1 ij.2 = ' ' ↔
        natGet code (3 * ij.1 + ij.2) = 0)) →
      (∀ ij ∈ cells, getCell b ij.1 ij.2 = ' ' →
        (minimax fuel (setCell b ij.1 ij.2 'X') true).1 =
          MVal.fin ((tlook (code + 1 * 3 ^ (3 * ij.1 + ij.2)) : Int) - 1) ∧
        tlook (code + 1 * 3 ^ (3 * ij.1 + ij.2)) ≤ 2) →
      relMin acc.1 accN →
      relMin (cells.foldl (minimaxStep (minimax fuel) 'X' true MVal.minV) acc).1
        (cells.foldl (fun a ij =>
          if natGet code (3 * ij.1 + ij.2) == 0 then
            Nat.min a (tlook (code + 1 * 3 ^ (3 * ij.1 + ij.2)))
          else a) accN) ∧
      ((cells.foldl (minimaxStep (minimax fuel) 'X' true MVal.minV) acc).1 =
          MVal.posInf →
        acc.1 = MVal.posInf ∧ ∀ ij ∈ cells, getCell b ij.1 ij.2 ≠ ' ') := by
  intro cells
  induction cells with
  | nil =>
    intro acc accN hboard hdig hIH hacc
    rw [List.foldl_nil, List.foldl_nil]
    exact ⟨hacc, fun h => ⟨h, by simp⟩⟩
  | cons hd tl ih =>
    intro acc accN hboard hdig hIH hacc
    have hmem0 : hd ∈ hd :: tl := List.mem_cons_self hd tl
    by_cases hsp : getCell b hd.1 hd.2 = ' '
    · have hg : (getCell b hd.1 hd.2 == ' ') = true := beq_iff_eq.mpr hsp
      have hng : (natGet code (3 * hd.1 + hd.2) == 0) = true :=
        beq_iff_eq.mpr ((hdig hd hmem0).mp hsp)
      obtain ⟨hval, hle⟩ := hIH hd hmem0 hsp
      rw [List.foldl_cons, List.foldl_cons, minimaxStep, hboard, if_pos hg,
        if_pos hng, hval]
      have hb2 : setCell (minimax fuel (setCell b hd.1 hd.2 'X') true).2
          hd.1 hd.2 ' ' = b := by
        rw [minimax_preserves]
        exact setCell_restore 'X' hsp
      have hrel : relMin
          (MVal.minV acc.1
            (MVal.fin ((tlook (code + 1 * 3 ^ (3 * hd.1 + hd.2)) : Int) - 1)))
          (Nat.min accN (tlook (code + 1 * 3 ^ (3 * hd.1 + hd.2)))) := by
        rcases hacc with ⟨ha, han⟩ | ⟨ha, han⟩
        · rw [ha, han]
          have hmn : Nat.min 2 (tlook (code + 1 * 3 ^ (3 * hd.1 + hd.2))) =
              tlook (code + 1 * 3 ^ (3 * hd.1 + hd.2)) := by
            simp only [Nat.min_def]
            split <;> omega
          rw [hmn]
          exact Or.inr ⟨rfl, hle⟩
        · rw [ha]
          refine Or.inr ⟨?_, by simp only [Nat.min_def]; split <;> omega⟩
          show MVal.fin _ = MVal.fin _
          congr 1
          simp only [Nat.min_def, min_def]
          split <;> split <;> omega
      have hstep := ih
        (MVal.minV acc.1
          (MVal.fin ((tlook (code + 1 * 3 ^ (3 * hd.1 + hd.2)) : Int) - 1)),
         setCell (minimax fuel (setCell b hd.1 hd.2 'X') true).2 hd.1 hd.2 ' ')
        (Nat.min accN (tlook (code + 1 * 3 ^ (3 * hd.1 + hd.2))))
        hb2 (fun ij hij => hdig ij (List.mem_cons_of_mem hd hij))
        (fun ij hij h => hIH ij (List.mem_cons_of_mem hd hij) h)
        hrel
      refine ⟨hstep.1, fun hres => ?_⟩
      obtain ⟨habs, _⟩ := hstep.2 hres
      exfalso
      rcases hc : acc.1 with _ | _ | n <;> rw [hc] at habs <;>
        simp [MVal.minV] at habs
    · have hgne : ¬ ((getCell b hd.1 hd.2 == ' ') = true) := by
        intro h
        exact hsp (beq_iff_eq.mp h)
      have hngne : ¬ ((natGet code (3 * hd.1 + hd.2) == 0) = true) := by
        intro h
        exact hsp ((hdig hd hmem0).mpr (beq_iff_eq.mp h))
      rw [List.foldl_cons, List.foldl_cons, minimaxStep, hboard, if_neg hgne,
        if_neg hngne]
      have hstep := ih acc accN hboard
        (fun ij hij => hdig ij (List.mem_cons_of_mem hd hij))
        (fun ij hij h => hIH ij (List.mem_cons_of_mem hd hij) h) hacc
      refine ⟨hstep.1, fun hres => ?_⟩
      obtain ⟨h1, h2⟩ := hstep.2 hres
      refine ⟨h1, fun ij hij => ?_⟩
      rcases List.mem_cons.mp hij with rfl | h
      · exact hsp
      · exact h2 ij h

/-- The mark counts a board can legally have: X equal to O, or X one
ahead. -/
def validCountsB (b : Board) : Prop :=
  countMark b 'X' = countMark b 'O' ∨ countMark b 'X' = countMark b 'O' + 1

/-- The player to move is O (the maximizer) exactly when X is one mark
ahead. -/
def moverO (b : Board) : Bool := countMark b 'X' == countMark b 'O' + 1

theorem minimax_eq_table : ∀ (fuel : Nat) (b : Board),
    WF b → cellsOK b → validCountsB b → emptyCount b < fuel →
    (minimax fuel b (moverO b)).1 =
      MVal.fin ((tlook (encodeT b) : Int) - 1) ∧ tlook (encodeT b) ≤ 2 := by
  intro fuel
  induction fuel with
  | zero =>
    intro b _ _ _ h
    omega
  | succ fuel ih =>
    intro b hWF hOK hvc hfuel
    obtain ⟨c0, c1, c2, c3, c4, c5, c6, c7, c8, rfl⟩ := hWF.elim
    have hWF2 : WF [[c0, c1, c2], [c3, c4, c5], [c6, c7, c8]] := by
      constructor <;> simp
    have hcode_lt := encodeT_lt c0 c1 c2 c3 c4 c5 c6 c7 c8
    have hcc := checkCode_all _ hcode_lt
    have hcnt1 := bridge_cnt1 c0 c1 c2 c3 c4 c5 c6 c7 c8
    have hcnt2 := bridge_cnt2 c0 c1 c2 c3 c4 c5 c6 c7 c8
    have hwinO := bridge_winO c0 c1 c2 c3 c4 c5 c6 c7 c8
    have hwinX := bridge_winX c0 c1 c2 c3 c4 c5 c6 c7 c8
    have g0 : c0 = 'X' ∨ c0 = 'O' ∨ c0 = ' ' := hOK [c0, c1, c2] (by simp) c0 (by simp)
    have g1 : c1 = 'X' ∨ c1 = 'O' ∨ c1 = ' ' := hOK [c0, c1, c2] (by simp) c1 (by simp)
    have g2 : c2 = 'X' ∨ c2 = 'O' ∨ c2 = ' ' := hOK [c0, c1, c2] (by simp) c2 (by simp)
    have g3 : c3 = 'X' ∨ c3 = 'O' ∨ c3 = ' ' := hOK [c3, c4, c5] (by simp) c3 (by simp)
    have g4 : c4 = 'X' ∨ c4 = 'O' ∨ c4 = ' ' := hOK [c3, c4, c5] (by simp) c4 (by simp)
    have g5 : c5 = 'X' ∨ c5 = 'O' ∨ c5 = ' ' := hOK [c3, c4, c5] (by simp) c5 (by simp)
    have g6 : c6 = 'X' ∨ c6 = 'O' ∨ c6 = ' ' := hOK [c6, c7, c8] (by simp) c6 (by simp)
    have g7 : c7 = 'X' ∨ c7 = 'O' ∨ c7 = ' ' := hOK [c6, c7, c8] (by simp) c7 (by simp)
    have g8 : c8 = 'X' ∨ c8 = 'O' ∨ c8 = ' ' := hOK [c6, c7, c8] (by simp) c8 (by simp)
    have hfullb := bridge_full c0 c1 c2 c3 c4 c5 c6 c7 c8 g0 g1 g2 g3 g4 g5 g6 g7 g8
    have hdig := empty_iff_digit_cell c0 c1 c2 c3 c4 c5 c6 c7 c8 hOK
    rw [checkCode, hcnt1, hcnt2, hwinO, hwinX, hfullb] at hcc
    rw [minimax]
    by_cases hO : checkWinState [[c0, c1, c2], [c3, c4, c5], [c6, c7, c8]] 'O' = true
    · rw [if_pos hO]
      rcases hvc with hv | hv
      · rw [if_pos (beq_iff_eq.mpr (by omega)), if_pos hO] at hcc
        have := beq_iff_eq.mp hcc
        rw [this]
        exact ⟨rfl, by omega⟩
      · rw [if_neg (by simp [beq_iff_eq]; omega),
          if_pos (beq_iff_eq.mpr (by omega)), if_pos hO] at hcc
        have := beq_iff_eq.mp hcc
        rw [this]
        exact ⟨rfl, by omega⟩
    · rw [if_neg hO]
      by_cases hX : checkWinState [[c0, c1, c2], [c3, c4, c5], [c6, c7, c8]] 'X' = true
      · rw [if_pos hX]
        rcases hvc with hv | hv
        · rw [if_pos (beq_iff_eq.mpr (by omega)), if_neg hO, if_pos hX] at hcc
          have := beq_iff_eq.mp hcc
          rw [this]
          exact ⟨rfl, by omega⟩
        · rw [if_neg (by simp [beq_iff_eq]; omega),
            if_pos (beq_iff_eq.mpr (by omega)), if_neg hO, if_pos hX] at hcc
          have := beq_iff_eq.mp hcc
          rw [this]
          exact ⟨rfl, by omega⟩
      · rw [if_neg hX]
        by_cases hF : checkFull [[c0, c1, c2], [c3, c4, c5], [c6, c7, c8]] = true
        · rw [if_pos hF]
          rcases hvc with hv | hv
          · rw [if_pos (beq_iff_eq.mpr (by omega)), if_neg hO, if_neg hX,
              if_pos hF] at hcc
            have := beq_iff_eq.mp hcc
            rw [this]
            exact ⟨rfl, by omega⟩
          · rw [if_neg (by simp [beq_iff_eq]; omega),
              if_pos (beq_iff_eq.mpr (by omega)), if_neg hO, if_neg hX,
              if_pos hF] at hcc
            have := beq_iff_eq.mp hcc
            rw [this]
            exact ⟨rfl, by omega⟩
        · rw [if_neg hF]
          obtain ⟨ij0, hmem0, hsp0⟩ := not_full_has_empty hWF2 hF
          rcases hvc with hv | hv
          · -- X to move: minimising branch
            have hmov : moverO [[c0, c1, c2], [c3, c4, c5], [c6, c7, c8]] = false := by
              unfold moverO
              simp [beq_iff_eq]
              omega
            rw [if_pos (beq_iff_eq.mpr (by omega)), if_neg hO, if_neg hX,
              if_neg hF] at hcc
            have htl := beq_iff_eq.mp hcc
            rw [hmov, if_neg (by simp)]
            have hch : ∀ ij ∈ cellsRM,
                getCell [[c0, c1, c2], [c3, c4, c5], [c6, c7, c8]] ij.1 ij.2 = ' ' →
                (minimax fuel (setCell [[c0, c1, c2], [c3, c4, c5], [c6, c7, c8]]
                    ij.1 ij.2 'X') true).1 =
                  MVal.fin ((tlook (encodeT [[c0, c1, c2], [c3, c4, c5], [c6, c7, c8]] +
                    1 * 3 ^ (3 * ij.1 + ij.2)) : Int) - 1) ∧
                tlook (encodeT [[c0, c1, c2], [c3, c4, c5], [c6, c7, c8]] +
                  1 * 3 ^ (3 * ij.1 + ij.2)) ≤ 2 := by
              intro ij hij hsp
              have hcX := countMark_set [[c0, c1, c2], [c3, c4, c5], [c6, c7, c8]]
                ij.1 ij.2 'X' 'X' hsp
              have hcO := countMark_set [[c0, c1, c2], [c3, c4, c5], [c6, c7, c8]]
                ij.1 ij.2 'X' 'O' hsp
              simp only [if_neg, if_pos] at hcX hcO
              have hmov2 : moverO (setCell [[c0, c1, c2], [c3, c4, c5], [c6, c7, c8]]
                  ij.1 ij.2 'X') = true := by
                unfold moverO
                rw [beq_iff_eq]
                simp at hcX hcO
                omega
              have hec := emptyCount_set [[c0, c1, c2], [c3, c4, c5], [c6, c7, c8]]
                ij.1 ij.2 'X' hsp (by decide)
              have hres := ih (setCell [[c0, c1, c2], [c3, c4, c5], [c6, c7, c8]]
                  ij.1 ij.2 'X')
                (setCell_WF hWF2 ij.1 ij.2 'X')
                (cellsOK_set hOK ij.1 ij.2 (Or.inl rfl))
                (by unfold validCountsB
                    simp at hcX hcO
                    omega)
                (by omega)
              rw [hmov2] at hres
              rw [encodeT_set c0 c1 c2 c3 c4 c5 c6 c7 c8 ij hij 'X' hsp] at hres
              exact hres
            have hfold := table_fold_min fuel
              [[c0, c1, c2], [c3, c4, c5], [c6, c7, c8]]
              (encodeT [[c0, c1, c2], [c3, c4, c5], [c6, c7, c8]]) cellsRM
              (MVal.posInf, [[c0, c1, c2], [c3, c4, c5], [c6, c7, c8]]) 2
              rfl hdig hch (Or.inl ⟨rfl, rfl⟩)
            have hne : (cellsRM.foldl (minimaxStep (minimax fuel) 'X' true
                MVal.minV) (MVal.posInf,
                  [[c0, c1, c2], [c3, c4, c5], [c6, c7, c8]])).1 ≠
                MVal.posInf := by
              intro h
              exact absurd hsp0 ((hfold.2 h).2 ij0 hmem0)
            rcases hfold.1 with ⟨h1, _⟩ | ⟨h1, h2⟩
            · exact absurd h1 hne
            · rw [h1, htl]
              exact ⟨rfl, by
                show natChildMin _ ≤ 2
                unfold natChildMin
                exact h2⟩
          · -- O to move: maximising branch
            have hmov : moverO [[c0, c1, c2], [c3, c4, c5], [c6, c7, c8]] = true := by
              unfold moverO
              rw [beq_iff_eq]
              omega
            rw [if_neg (by simp [beq_iff_eq]; omega),
              if_pos (beq_iff_eq.mpr (by omega)), if_neg hO, if_neg hX,
              if_neg hF] at hcc
            have htl := beq_iff_eq.mp hcc
            rw [hmov, if_pos rfl]
            have hch : ∀ ij ∈ cellsRM,
                getCell [[c0, c1, c2], [c3, c4, c5], [c6, c7, c8]] ij.1 ij.2 = ' ' →
                (minimax fuel (setCell [[c0, c1, c2], [c3, c4, c5], [c6, c7, c8]]
                    ij.1 ij.2 'O') false).1 =
                  MVal.fin ((tlook (encodeT [[c0, c1, c2], [c3, c4, c5], [c6, c7, c8]] +
                    2 * 3 ^ (3 * ij.1 + ij.2)) : Int) - 1) ∧
                tlook (encodeT [[c0, c1, c2], [c3, c4, c5], [c6, c7, c8]] +
                  2 * 3 ^ (3 * ij.1 + ij.2)) ≤ 2 := by
              intro ij hij hsp
              have hcX := countMark_set [[c0, c1, c2], [c3, c4, c5], [c6, c7, c8]]
                ij.1 ij.2 'O' 'X' hsp
              have hcO := countMark_set [[c0, c1, c2], [c3, c4, c5], [c6, c7, c8]]
                ij.1 ij.2 'O' 'O' hsp
              have hmov2 : moverO (setCell [[c0, c1, c2], [c3, c4, c5], [c6, c7, c8]]
                  ij.1 ij.2 'O') = false := by
                unfold moverO
                simp [beq_iff_eq]
                simp at hcX hcO
                omega
              have hec := emptyCount_set [[c0, c1, c2], [c3, c4, c5], [c6, c7, c8]]
                ij.1 ij.2 'O' hsp (by decide)
              have hres := ih (setCell [[c0, c1, c2], [c3, c4, c5], [c6, c7, c8]]
                  ij.1 ij.2 'O')
                (setCell_WF hWF2 ij.1 ij.2 'O')
                (cellsOK_set hOK ij.1 ij.2 (Or.inr (Or.inl rfl)))
                (by unfold validCountsB
                    simp at hcX hcO
                    omega)
                (by omega)
              rw [hmov2] at hres
              rw [encodeT_set c0 c1 c2 c3 c4 c5 c6 c7 c8 ij hij 'O' hsp] at hres
              exact hres
            have hfold := table_fold_max fuel
              [[c0, c1, c2], [c3, c4, c5], [c6, c7, c8]]
              (encodeT [[c0, c1, c2], [c3, c4, c5], [c6, c7, c8]]) cellsRM
              (MVal.negInf, [[c0, c1, c2], [c3, c4, c5], [c6, c7, c8]]) 0
              rfl hdig hch (Or.inl ⟨rfl, rfl⟩)
            have hne : (cellsRM.foldl (minimaxStep (minimax fuel) 'O' false
                MVal.maxV) (MVal.negInf,
                  [[c0, c1, c2], [c3, c4, c5], [c6, c7, c8]])).1 ≠
                MVal.negInf := by
              intro h
              exact absurd hsp0 ((hfold.2 h).2 ij0 hmem0)
            rcases hfold.1 with ⟨h1, _⟩ | ⟨h1, h2⟩
            · exact absurd h1 hne
            · rw [h1, htl]
              exact ⟨rfl, by
                show natChildMax _ ≤ 2
                unfold natChildMax
                exact h2⟩

/-- Modelled from the spec: move selection for the minimising player X is
absent from the source (the human plays X); per spec §4.3, `bestMove` for X
evaluates every legal move and picks the minimum-value one, first in
row-major order among ties.  One loop iteration, mirroring
`getComputerMove`'s accumulator with the comparison reversed. -/
def bestStepX (rec : Board → Bool → MVal × Board)
    (acc : MVal × Option (Nat × Nat) × Board) (ij : Nat × Nat) :
    MVal × Option (Nat × Nat) × Board :=
  if getCell acc.2.2 ij.1 ij.2 == ' ' then
    if MVal.ltV (rec (setCell acc.2.2 ij.1 ij.2 'X') true).1 acc.1 then
      ((rec (setCell acc.2.2 ij.1 ij.2 'X') true).1, some ij,
        setCell (rec (setCell acc.2.2 ij.1 ij.2 'X') true).2 ij.1 ij.2 ' ')
    else
      (acc.1, acc.2.1,
        setCell (rec (setCell acc.2.2 ij.1 ij.2 'X') true).2 ij.1 ij.2 ' ')
  else acc

/-- Modelled from the spec: the full minimising scan for X over the cells in
row-major order, seeded with the `+inf` sentinel. -/
def bestMoveXAux (b : Board) : MVal × Option (Nat × Nat) × Board :=
  cellsRM.foldl (bestStepX (minimax 9)) (MVal.posInf, none, b)

/-- Modelled from the spec: X's chosen move. -/
def bestMoveX (b : Board) : Option (Nat × Nat) := (bestMoveXAux b).2.1

/-- The minimax value, for X, of playing at a given empty cell. -/
def childValX (b : Board) (ij : Nat × Nat) : MVal :=
  (minimax 9 (setCell b ij.1 ij.2 'X') true).1

theorem rmIndex_inj : ∀ p ∈ cellsRM, ∀ q ∈ cellsRM,
    rmIndex p = rmIndex q → p = q := by decide

theorem bestX_fold_inv (b : Board) :
    ∀ (R P : List (Nat × Nat)) (acc : MVal × Option (Nat × Nat) × Board),
      acc.2.2 = b →
      ((acc.1 = MVal.posInf ∧ acc.2.1 = none ∧
          ∀ d ∈ P, getCell b d.1 d.2 ≠ ' ') ∨
       (∃ rc, acc.2.1 = some rc ∧ rc ∈ P ∧ getCell b rc.1 rc.2 = ' ' ∧
          acc.1 = childValX b rc ∧
          (∀ d ∈ P, getCell b d.1 d.2 = ' ' →
            MVal.ltV (childValX b d) (childValX b rc) = false) ∧
          (∀ d ∈ P, getCell b d.1 d.2 = ' ' → rmIndex d < rmIndex rc →
            MVal.ltV (childValX b rc) (childValX b d) = true))) →
      (∀ d ∈ P, ∀ e ∈ R, rmIndex d < rmIndex e) →
      List.Pairwise (fun x y => rmIndex x < rmIndex y) R →
      (∀ e ∈ R, getCell b e.1 e.2 = ' ' → ∃ n, childValX b e = MVal.fin n) →
      ((R.foldl (bestStepX (minimax 9)) acc).2.2 = b ∧
       (((R.foldl (bestStepX (minimax 9)) acc).1 = MVal.posInf ∧
           (R.foldl (bestStepX (minimax 9)) acc).2.1 = none ∧
           ∀ d ∈ P ++ R, getCell b d.1 d.2 ≠ ' ') ∨
        (∃ rc, (R.foldl (bestStepX (minimax 9)) acc).2.1 = some rc ∧
           rc ∈ P ++ R ∧ getCell b rc.1 rc.2 = ' ' ∧
           (R.foldl (bestStepX (minimax 9)) acc).1 = childValX b rc ∧
           (∀ d ∈ P ++ R, getCell b d.1 d.2 = ' ' →
             MVal.ltV (childValX b d) (childValX b rc) = false) ∧
           (∀ d ∈ P ++ R, getCell b d.1 d.2 = ' ' → rmIndex d < rmIndex rc →
             MVal.ltV (childValX b rc) (childValX b d) = true)))) := by
  intro R
  induction R with
  | nil =>
    intro P acc hboard hcase _ _ _
    rw [List.foldl_nil]
    exact ⟨hboard, by simpa using hcase⟩
  | cons hd tl ih =>
    intro P acc hboard hcase hPR hsort hfin
    have hsort2 := List.pairwise_cons.mp hsort
    have happ : P ++ hd :: tl = (P ++ [hd]) ++ tl := by simp
    rw [List.foldl_cons, bestStepX, hboard, happ]
    by_cases hg : (getCell b hd.1 hd.2 == ' ') = true
    · rw [if_pos hg]
      have hsp := beq_iff_eq.mp hg
      have hrest : setCell (minimax 9 (setCell b hd.1 hd.2 'X') true).2
          hd.1 hd.2 ' ' = b := by
        rw [minimax_preserves]
        exact setCell_restore 'X' hsp
      have hcv : (minimax 9 (setCell b hd.1 hd.2 'X') true).1 = childValX b hd :=
        rfl
      obtain ⟨nv, hnv⟩ := hfin hd (List.mem_cons_self hd tl) hsp
      by_cases hlt : MVal.ltV (minimax 9 (setCell b hd.1 hd.2 'X') true).1 acc.1 = true
      · rw [if_pos hlt]
        rw [hcv] at hlt
        refine ih (P ++ [hd]) _ (by simpa using hrest)
          (Or.inr ⟨hd, rfl, by simp, hsp, hcv, ?_, ?_⟩) ?_ hsort2.2
          (fun e he => hfin e (List.mem_cons_of_mem hd he))
        · intro d hd2 hde
          rcases List.mem_append.mp hd2 with hdP | hdone
          · rcases hcase with ⟨_, _, hnone⟩ | ⟨rc, _, _, _, hacc1, hmin, _⟩
            · exact absurd hde (hnone d hdP)
            · rw [hacc1] at hlt
              by_contra hcon
              rw [Bool.not_eq_false] at hcon
              have := mval_lt_trans hcon hlt
              rw [hmin d hdP hde] at this
              exact Bool.false_ne_true this
          · have : d = hd := by simpa using hdone
            subst this
            exact mval_lt_irrefl _
        · intro d hd2 hde hidx
          rcases List.mem_append.mp hd2 with hdP | hdone
          · rcases hcase with ⟨_, _, hnone⟩ | ⟨rc, _, _, _, hacc1, hmin, hfirst⟩
            · exact absurd hde (hnone d hdP)
            · rw [hacc1] at hlt
              rcases mval_lt_false_elim (hmin d hdP hde) with h | h
              · exact mval_lt_trans hlt h
              · rw [← h]
                exact hlt
          · have : d = hd := by simpa using hdone
            subst this
            omega
        · intro d hd2 e he
          rcases List.mem_append.mp hd2 with hdP | hdone
          · exact hPR d hdP e (List.mem_cons_of_mem hd he)
          · have : d = hd := by simpa using hdone
            subst this
            exact hsort2.1 e he
      · rw [if_neg hlt]
        rw [Bool.not_eq_true, hcv] at hlt
        rcases hcase with ⟨hacc1, _, _⟩ | ⟨rc, hmove, hmem, hrcsp, hacc1, hmin, hfirst⟩
        · rw [hacc1, hnv] at hlt
          exact absurd hlt (by simp [MVal.ltV])
        · refine ih (P ++ [hd]) _ (by simpa using hrest)
            (Or.inr ⟨rc, by simpa using hmove, List.mem_append_left [hd] hmem,
              hrcsp, hacc1, ?_, ?_⟩) ?_ hsort2.2
            (fun e he => hfin e (List.mem_cons_of_mem hd he))
          · intro d hd2 hde
            rcases List.mem_append.mp hd2 with hdP | hdone
            · exact hmin d hdP hde
            · have : d = hd := by simpa using hdone
              subst this
              rw [hacc1] at hlt
              exact hlt
          · intro d hd2 hde hidx
            rcases List.mem_append.mp hd2 with hdP | hdone
            · exact hfirst d hdP hde hidx
            · have hdhd : d = hd := by simpa using hdone
              have h2 := hPR rc hmem hd (List.mem_cons_self hd tl)
              rw [hdhd] at hidx
              exfalso
              omega
          · intro d hd2 e he
            rcases List.mem_append.mp hd2 with hdP | hdone
            · exact hPR d hdP e (List.mem_cons_of_mem hd he)
            · have : d = hd := by simpa using hdone
              subst this
              exact hsort2.1 e he
    · rw [if_neg hg]
      have hnsp : getCell b hd.1 hd.2 ≠ ' ' := fun h => hg (beq_iff_eq.mpr h)
      refine ih (P ++ [hd]) acc hboard ?_ ?_ hsort2.2
        (fun e he => hfin e (List.mem_cons_of_mem hd he))
      · rcases hcase with ⟨hacc1, hmove, hnone⟩ | ⟨rc, hmove, hmem, hrcsp, hacc1, hmin, hfirst⟩
        · refine Or.inl ⟨hacc1, hmove, fun d hd2 => ?_⟩
          rcases List.mem_append.mp hd2 with hdP | hdone
          · exact hnone d hdP
          · have : d = hd := by simpa using hdone
            subst this
            exact hnsp
        · refine Or.inr ⟨rc, hmove, List.mem_append_left [hd] hmem, hrcsp,
            hacc1, fun d hd2 hde => ?_, fun d hd2 hde hidx => ?_⟩
          · rcases List.mem_append.mp hd2 with hdP | hdone
            · exact hmin d hdP hde
            · have : d = hd := by simpa using hdone
              subst this
              exact absurd hde hnsp
          · rcases List.mem_append.mp hd2 with hdP | hdone
            · exact hfirst d hdP hde hidx
            · have : d = hd := by simpa using hdone
              subst this
              exact absurd hde hnsp
      · intro d hd2 e he
        rcases List.mem_append.mp hd2 with hdP | hdone
        · exact hPR d hdP e (List.mem_cons_of_mem hd he)
        · have : d = hd := by simpa using hdone
          subst this
          exact hsort2.1 e he

theorem getComputerMove_determined (b : Board) (hWF : WF b) (rc : Nat × Nat)
    (hmem : rc ∈ availableCells b)
    (hmax : ∀ d ∈ availableCells b,
      MVal.ltV (childVal b rc) (childVal b d) = false)
    (hfirst : ∀ d ∈ availableCells b, rmIndex d < rmIndex rc →
      MVal.ltV (childVal b d) (childVal b rc) = true) :
    getComputerMove b = (some rc, b) := by
  have hfin : ∀ e ∈ cellsRM, getCell b e.1 e.2 = ' ' →
      ∃ n, childVal b e = MVal.fin n := by
    intro e _ hsp
    have hcnt := emptyCount_set b e.1 e.2 'O' hsp (by decide)
    have hle := emptyCount_le_nine hWF
    obtain ⟨n, hn, _⟩ := minimax_value_range 9 (setCell b e.1 e.2 'O') false
      (setCell_WF hWF e.1 e.2 'O') (by omega)
    exact ⟨n, hn⟩
  have h := best_fold_inv b cellsRM [] (MVal.negInf, none, b)
    ⟨rfl, Or.inl ⟨rfl, rfl, by simp⟩⟩ (by simp) (by decide) hfin
  obtain ⟨hb2, hc⟩ := h
  have hrcf := List.mem_filter.mp hmem
  have hrcmem : rc ∈ cellsRM := hrcf.1
  have hrcsp : getCell b rc.1 rc.2 = ' ' := beq_iff_eq.mp hrcf.2
  rcases hc with ⟨_, _, hnone⟩ | ⟨rc2, hmove, hmem2, hsp2, _, hmax2, hfirst2⟩
  · exact absurd hrcsp (hnone rc (by simpa using hrcmem))
  · have hmem2' : rc2 ∈ cellsRM := by simpa using hmem2
    have hav2 : rc2 ∈ availableCells b :=
      List.mem_filter.mpr ⟨hmem2', beq_iff_eq.mpr hsp2⟩
    have heq : rc2 = rc := by
      rcases Nat.lt_trichotomy (rmIndex rc2) (rmIndex rc) with hlt | heq | hgt
      · have h1 := hfirst rc2 hav2 hlt
        have h2 := hmax2 rc (by simpa using hrcmem) hrcsp
        rw [h2] at h1
        exact absurd h1 Bool.false_ne_true
      · exact rmIndex_inj rc2 hmem2' rc hrcmem heq
      · have h1 := hfirst2 rc (by simpa using hrcmem) hrcsp hgt
        have h2 := hmax rc2 hav2
        rw [h2] at h1
        exact absurd h1 Bool.false_ne_true
    have haux : getComputerMoveAux b =
        cellsRM.foldl (bestStep (minimax 9)) (MVal.negInf, none, b) := rfl
    simp only [getComputerMove, haux]
    rw [heq] at hmove
    rw [hmove, hb2]

theorem bestMoveX_determined (b : Board) (hWF : WF b) (rc : Nat × Nat)
    (hmem : rc ∈ availableCells b)
    (hmin : ∀ d ∈ availableCells b,
      MVal.ltV (childValX b d) (childValX b rc) = false)
    (hfirst : ∀ d ∈ availableCells b, rmIndex d < rmIndex rc →
      MVal.ltV (childValX b rc) (childValX b d) = true) :
    bestMoveX b = some rc := by
  have hfin : ∀ e ∈ cellsRM, getCell b e.1 e.2 = ' ' →
      ∃ n, childValX b e = MVal.fin n := by
    intro e _ hsp
    have hcnt := emptyCount_set b e.1 e.2 'X' hsp (by decide)
    have hle := emptyCount_le_nine hWF
    obtain ⟨n, hn, _⟩ := minimax_value_range 9 (setCell b e.1 e.2 'X') true
      (setCell_WF hWF e.1 e.2 'X') (by omega)
    exact ⟨n, hn⟩
  have h := bestX_fold_inv b cellsRM [] (MVal.posInf, none, b) rfl
    (Or.inl ⟨rfl, rfl, by simp⟩) (by simp) (by decide) hfin
  obtain ⟨hb2, hc⟩ := h
  have hrcf := List.mem_filter.mp hmem
  have hrcmem : rc ∈ cellsRM := hrcf.1
  have hrcsp : getCell b rc.1 rc.2 = ' ' := beq_iff_eq.mp hrcf.2
  rcases hc with ⟨_, _, hnone⟩ | ⟨rc2, hmove, hmem2, hsp2, _, hmin2, hfirst2⟩
  · exact absurd hrcsp (hnone rc (by simpa using hrcmem))
  · have hmem2' : rc2 ∈ cellsRM := by simpa using hmem2
    have hav2 : rc2 ∈ availableCells b :=
      List.mem_filter.mpr ⟨hmem2', beq_iff_eq.mpr hsp2⟩
    have heq : rc2 = rc := by
      rcases Nat.lt_trichotomy (rmIndex rc2) (rmIndex rc) with hlt | heq | hgt
      · have h1 := hfirst rc2 hav2 hlt
        have h2 := hmin2 rc (by simpa using hrcmem) hrcsp
        rw [h2] at h1
        exact absurd h1 Bool.false_ne_true
      · exact rmIndex_inj rc2 hmem2' rc hrcmem heq
      · have h1 := hfirst2 rc (by simpa using hrcmem) hrcsp hgt
        have h2 := hmin rc2 hav2
        rw [h2] at h1
        exact absurd h1 Bool.false_ne_true
    simp only [bestMoveX, bestMoveXAux]
    rw [heq] at hmove
    rw [hmove]

/-- Modelled from the spec: one self-play turn — the active player picks its
minimax move (X by the modelled minimising policy, O by `getComputerMove`)
and the engine applies it; a player with no legal move leaves the state
unchanged (unreachable from the empty board). -/
def selfPlayStep (g : GameSt) : Outcome :=
  match (if g.turn == 'X' then bestMoveX g.board
         else (getComputerMove g.board).1) with
  | none => .inProgress g
  | some rc => applyMove g rc.1 rc.2

/-- Modelled from the spec: self-play iterated for a given number of turns;
terminal outcomes are absorbing. -/
def selfPlay : Nat → Outcome → Outcome
  | 0, o => o
  | n + 1, .inProgress g => selfPlay n (selfPlayStep g)
  | _ + 1, o => o

theorem selfPlayStep_eqX (g : GameSt) (rc : Nat × Nat) (ht : g.turn = 'X')
    (h : bestMoveX g.board = some rc) :
    selfPlayStep g = applyMove g rc.1 rc.2 := by
  unfold selfPlayStep
  rw [ht, if_pos (show (('X' : Char) == 'X') = true from rfl), h]

theorem selfPlayStep_eqO (g : GameSt) (rc : Nat × Nat) (ht : g.turn = 'O')
    (h : (getComputerMove g.board).1 = some rc) :
    selfPlayStep g = applyMove g rc.1 rc.2 := by
  unfold selfPlayStep
  rw [ht, if_neg (show ¬((('O' : Char) == 'X') = true) from by decide), h]

theorem selfPlay_terminal_draw : ∀ (m : Nat) (b : Board),
    selfPlay m (.draw b) = .draw b := by
  intro m b
  cases m <;> rfl

theorem selfPlay_add : ∀ (a b : Nat) (o : Outcome),
    selfPlay (b + a) o = selfPlay b (selfPlay a o) := by
  intro a
  induction a with
  | zero => intro b o; rfl
  | succ a ih =>
    intro b o
    cases o with
    | inProgress g => exact ih b (selfPlayStep g)
    | win p bd => cases b <;> rfl
    | draw bd => cases b <;> rfl

theorem childValX_table (b : Board) (i j : Nat)
    (h1 : moverO (setCell b i j 'X') = true)
    (hWF : WF (setCell b i j 'X')) (hOK : cellsOK (setCell b i j 'X'))
    (hvc : validCountsB (setCell b i j 'X'))
    (hfu : emptyCount (setCell b i j 'X') < 9) :
    childValX b (i, j) =
      MVal.fin ((tlook (encodeT (setCell b i j 'X')) : Int) - 1) := by
  have h := (minimax_eq_table 9 (setCell b i j 'X') hWF hOK hvc hfu).1
  rw [h1] at h
  exact h

theorem childVal_table (b : Board) (i j : Nat)
    (h1 : moverO (setCell b i j 'O') = false)
    (hWF : WF (setCell b i j 'O')) (hOK : cellsOK (setCell b i j 'O'))
    (hvc : validCountsB (setCell b i j 'O'))
    (hfu : emptyCount (setCell b i j 'O') < 9) :
    childVal b (i, j) =
      MVal.fin ((tlook (encodeT (setCell b i j 'O')) : Int) - 1) := by
  have h := (minimax_eq_table 9 (setCell b i j 'O') hWF hOK hvc hfu).1
  rw [h1] at h
  exact h

theorem selfPlay_one (g : GameSt) :
    selfPlay 1 (.inProgress g) = selfPlayStep g := rfl

/-- C3: modelled self-play — O by the source `getComputerMove`, X by the
policy modelled from the spec — always ends in a draw: from the empty board
the nine turns fill the board with no winning line for either player, and
no prefix of the game ever ends in a win.  Each turn is pinned by
evaluating, through the verified value table, the minimax value of every
available child position. -/
theorem minimax_selfplay_draw :
    (∃ b, selfPlay 9 (Outcome.inProgress ⟨emptyBoard, 'X'⟩) = Outcome.draw b ∧
      checkFull b = true ∧ checkWinState b 'X' = false ∧
      checkWinState b 'O' = false) ∧
    ∀ (k : Nat) (p : Char) (b : Board),
      selfPlay k (Outcome.inProgress ⟨emptyBoard, 'X'⟩) ≠ Outcome.win p b := by
  have hv0_0 : childValX [[' ', ' ', ' '], [' ', ' ', ' '], [' ', ' ', ' ']] (0, 0) = MVal.fin 0 :=
    (childValX_table [[' ', ' ', ' '], [' ', ' ', ' '], [' ', ' ', ' ']] 0 0 (by decide)
      (by constructor <;> decide) (by unfold cellsOK; decide)
      (by unfold validCountsB; decide) (by decide)).trans (by decide!)
  have hv0_1 : childValX [[' ', ' ', ' '], [' ', ' ', ' '], [' ', ' ', ' ']] (0, 1) = MVal.fin 0 :=
    (childValX_table [[' ', ' ', ' '], [' ', ' ', ' '], [' ', ' ', ' ']] 0 1 (by decide)
      (by constructor <;> decide) (by unfold cellsOK; decide)
      (by unfold validCountsB; decide) (by decide)).trans (by decide!)
  have hv0_2 : childValX [[' ', ' ', ' '], [' ', ' ', ' '], [' ', ' ', ' ']] (0, 2) = MVal.fin 0 :=
    (childValX_table [[' ', ' ', ' '], [' ', ' ', ' '], [' ', ' ', ' ']] 0 2 (by decide)
      (by constructor <;> decide) (by unfold cellsOK; decide)
      (by unfold validCountsB; decide) (by decide)).trans (by decide!)
  have hv0_3 : childValX [[' ', ' ', ' '], [' ', ' ', ' '], [' ', ' ', ' ']] (1, 0) = MVal.fin 0 :=
    (childValX_table [[' ', ' ', ' '], [' ', ' ', ' '], [' ', ' ', ' ']] 1 0 (by decide)
      (by constructor <;> decide) (by unfold cellsOK; decide)
      (by unfold validCountsB; decide) (by decide)).trans (by decide!)
  have hv0_4 : childValX [[' ', ' ', ' '], [' ', ' ', ' '], [' ', ' ', ' ']] (1, 1) = MVal.fin 0 :=
    (childValX_table [[' ', ' ', ' '], [' ', ' ', ' '], [' ', ' ', ' ']] 1 1 (by decide)
      (by constructor <;> decide) (by unfold cellsOK; decide)
      (by unfold validCountsB; decide) (by decide)).trans (by decide!)
  have hv0_5 : childValX [[' ', ' ', ' '], [' ', ' ', ' '], [' ', ' ', ' ']] (1, 2) = MVal.fin 0 :=
    (childValX_table [[' ', ' ', ' '], [' ', ' ', ' '], [' ', ' ', ' ']] 1 2 (by decide)
      (by constructor <;> decide) (by unfold cellsOK; decide)
      (by unfold validCountsB; decide) (by decide)).trans (by decide!)
  have hv0_6 : childValX [[' ', ' ', ' '], [' ', ' ', ' '], [' ', ' ', ' ']] (2, 0) = MVal.fin 0 :=
    (childValX_table [[' ', ' ', ' '], [' ', ' ', ' '], [' ', ' ', ' ']] 2 0 (by decide)
      (by constructor <;> decide) (by unfold cellsOK; decide)
      (by unfold validCountsB; decide) (by decide)).trans (by decide!)
  have hv0_7 : childValX [[' ', ' ', ' '], [' ', ' ', ' '], [' ', ' ', ' ']] (2, 1) = MVal.fin 0 :=
    (childValX_table [[' ', ' ', ' '], [' ', ' ', ' '], [' ', ' ', ' ']] 2 1 (by decide)
      (by constructor <;> decide) (by unfold cellsOK; decide)
      (by unfold validCountsB; decide) (by decide)).trans (by decide!)
  have hv0_8 : childValX [[' ', ' ', ' '], [' ', ' ', ' '], [' ', ' ', ' ']] (2, 2) = MVal.fin 0 :=
    (childValX_table [[' ', ' ', ' '], [' ', ' ', ' '], [' ', ' ', ' ']] 2 2 (by decide)
      (by constructor <;> decide) (by unfold cellsOK; decide)
      (by unfold validCountsB; decide) (by decide)).trans (by decide!)
  have hm0 : bestMoveX [[' ', ' ', ' '], [' ', ' ', ' '], [' ', ' ', ' ']] = some (0, 0) := by
    refine bestMoveX_determined [[' ', ' ', ' '], [' ', ' ', ' '], [' ', ' ', ' ']] (by constructor <;> decide) (0, 0)
      (by decide) ?_ ?_
    · intro d hd
      rw [show availableCells [[' ', ' ', ' '], [' ', ' ', ' '], [' ', ' ', ' ']] = [(0, 0), (0, 1), (0, 2), (1, 0), (1, 1), (1, 2), (2, 0), (2, 1), (2, 2)] from by decide] at hd
      simp only [List.mem_cons, List.not_mem_nil, or_false] at hd
      rcases hd with rfl | rfl | rfl | rfl | rfl | rfl | rfl | rfl | rfl
      · rw [hv0_0]
        decide
      · rw [hv0_1, hv0_0]
        decide
      · rw [hv0_2, hv0_0]
        decide
      · rw [hv0_3, hv0_0]
        decide
      · rw [hv0_4, hv0_0]
        decide
      · rw [hv0_5, hv0_0]
        decide
      · rw [hv0_6, hv0_0]
        decide
      · rw [hv0_7, hv0_0]
        decide
      · rw [hv0_8, hv0_0]
        decide
    · intro d hd hidx
      rw [show availableCells [[' ', ' ', ' '], [' ', ' ', ' '], [' ', ' ', ' ']] = [(0, 0), (0, 1), (0, 2), (1, 0), (1, 1), (1, 2), (2, 0), (2, 1), (2, 2)] from by decide] at hd
      simp only [List.mem_cons, List.not_mem_nil, or_false] at hd
      rcases hd with rfl | rfl | rfl | rfl | rfl | rfl | rfl | rfl | rfl
      · exact absurd hidx (by decide)
      · exact absurd hidx (by decide)
      · exact absurd hidx (by decide)
      · exact absurd hidx (by decide)
      · exact absurd hidx (by decide)
      · exact absurd hidx (by decide)
      · exact absurd hidx (by decide)
      · exact absurd hidx (by decide)
      · exact absurd hidx (by decide)
  have hs0 : selfPlayStep ⟨emptyBoard, 'X'⟩ =
      Outcome.inProgress ⟨[['X', ' ', ' '], [' ', ' ', ' '], [' ', ' ', ' ']], 'O'⟩ :=
    (selfPlayStep_eqX ⟨emptyBoard, 'X'⟩ (0, 0) rfl hm0).trans (by decide)
  have hv1_1 : childVal [['X', ' ', ' '], [' ', ' ', ' '], [' ', ' ', ' ']] (0, 1) = MVal.fin (-1) :=
    (childVal_table [['X', ' ', ' '], [' ', ' ', ' '], [' ', ' ', ' ']] 0 1 (by decide)
      (by constructor <;> decide) (by unfold cellsOK; decide)
      (by unfold validCountsB; decide) (by decide)).trans (by decide!)
  have hv1_2 : childVal [['X', ' ', ' '], [' ', ' ', ' '], [' ', ' ', ' ']] (0, 2) = MVal.fin (-1) :=
    (childVal_table [['X', ' ', ' '], [' ', ' ', ' '], [' ', ' ', ' ']] 0 2 (by decide)
      (by constructor <;> decide) (by unfold cellsOK; decide)
      (by unfold validCountsB; decide) (by decide)).trans (by decide!)
  have hv1_3 : childVal [['X', ' ', ' '], [' ', ' ', ' '], [' ', ' ', ' ']] (1, 0) = MVal.fin (-1) :=
    (childVal_table [['X', ' ', ' '], [' ', ' ', ' '], [' ', ' ', ' ']] 1 0 (by decide)
      (by constructor <;> decide) (by unfold cellsOK; decide)
      (by unfold validCountsB; decide) (by decide)).trans (by decide!)
  have hv1_4 : childVal [['X', ' ', ' '], [' ', ' ', ' '], [' ', ' ', ' ']] (1, 1) = MVal.fin 0 :=
    (childVal_table [['X', ' ', ' '], [' ', ' ', ' '], [' ', ' ', ' ']] 1 1 (by decide)
      (by constructor <;> decide) (by unfold cellsOK; decide)
      (by unfold validCountsB; decide) (by decide)).trans (by decide!)
  have hv1_5 : childVal [['X', ' ', ' '], [' ', ' ', ' '], [' ', ' ', ' ']] (1, 2) = MVal.fin (-1) :=
    (childVal_table [['X', ' ', ' '], [' ', ' ', ' '], [' ', ' ', ' ']] 1 2 (by decide)
      (by constructor <;> decide) (by unfold cellsOK; decide)
      (by unfold validCountsB; decide) (by decide)).trans (by decide!)
  have hv1_6 : childVal [['X', ' ', ' '], [' ', ' ', ' '], [' ', ' ', ' ']] (2, 0) = MVal.fin (-1) :=
    (childVal_table [['X', ' ', ' '], [' ', ' ', ' '], [' ', ' ', ' ']] 2 0 (by decide)
      (by constructor <;> decide) (by unfold cellsOK; decide)
      (by unfold validCountsB; decide) (by decide)).trans (by decide!)
  have hv1_7 : childVal [['X', ' ', ' '], [' ', ' ', ' '], [' ', ' ', ' ']] (2, 1) = MVal.fin (-1) :=
    (childVal_table [['X', ' ', ' '], [' ', ' ', ' '], [' ', ' ', ' ']] 2 1 (by decide)
      (by constructor <;> decide) (by unfold cellsOK; decide)
      (by unfold validCountsB; decide) (by decide)).trans (by decide!)
  have hv1_8 : childVal [['X', ' ', ' '], [' ', ' ', ' '], [' ', ' ', ' ']] (2, 2) = MVal.fin (-1) :=
    (childVal_table [['X', ' ', ' '], [' ', ' ', ' '], [' ', ' ', ' ']] 2 2 (by decide)
      (by constructor <;> decide) (by unfold cellsOK; decide)
      (by unfold validCountsB; decide) (by decide)).trans (by decide!)
  have hm1 : getComputerMove [['X', ' ', ' '], [' ', ' ', ' '], [' ', ' ', ' ']] = (some (1, 1), [['X', ' ', ' '], [' ', ' ', ' '], [' ', ' ', ' ']]) := by
    refine getComputerMove_determined [['X', ' ', ' '], [' ', ' ', ' '], [' ', ' ', ' ']] (by constructor <;> decide) (1, 1)
      (by decide) ?_ ?_
    · intro d hd
      rw [show availableCells [['X', ' ', ' '], [' ', ' ', ' '], [' ', ' ', ' ']] = [(0, 1), (0, 2), (1, 0), (1, 1), (1, 2), (2, 0), (2, 1), (2, 2)] from by decide] at hd
      simp only [List.mem_cons, List.not_mem_nil, or_false] at hd
      rcases hd with rfl | rfl | rfl | rfl | rfl | rfl | rfl | rfl
      · rw [hv1_1, hv1_4]
        decide
      · rw [hv1_2, hv1_4]
        decide
      · rw [hv1_3, hv1_4]
        decide
      · rw [hv1_4]
        decide
      · rw [hv1_5, hv1_4]
        decide
      · rw [hv1_6, hv1_4]
        decide
      · rw [hv1_7, hv1_4]
        decide
      · rw [hv1_8, hv1_4]
        decide
    · intro d hd hidx
      rw [show availableCells [['X', ' ', ' '], [' ', ' ', ' '], [' ', ' ', ' ']] = [(0, 1), (0, 2), (1, 0), (1, 1), (1, 2), (2, 0), (2, 1), (2, 2)] from by decide] at hd
      simp only [List.mem_cons, List.not_mem_nil, or_false] at hd
      rcases hd with rfl | rfl | rfl | rfl | rfl | rfl | rfl | rfl
      · rw [hv1_4, hv1_1]
        decide
      · rw [hv1_4, hv1_2]
        decide
      · rw [hv1_4, hv1_3]
        decide
      · exact absurd hidx (by decide)
      · exact absurd hidx (by decide)
      · exact absurd hidx (by decide)
      · exact absurd hidx (by decide)
      · exact absurd hidx (by decide)
  have hs1 : selfPlayStep ⟨[['X', ' ', ' '], [' ', ' ', ' '], [' ', ' ', ' ']], 'O'⟩ =
      Outcome.inProgress ⟨[['X', ' ', ' '], [' ', 'O', ' '], [' ', ' ', ' ']], 'X'⟩ :=
    (selfPlayStep_eqO ⟨[['X', ' ', ' '], [' ', ' ', ' '], [' ', ' ', ' ']], 'O'⟩ (1, 1) rfl
      (congrArg Prod.fst hm1)).trans (by decide)
  have hv2_1 : childValX [['X', ' ', ' '], [' ', 'O', ' '], [' ', ' ', ' ']] (0, 1) = MVal.fin 0 :=
    (childValX_table [['X', ' ', ' '], [' ', 'O', ' '], [' ', ' ', ' ']] 0 1 (by decide)
      (by constructor <;> decide) (by unfold cellsOK; decide)
      (by unfold validCountsB; decide) (by decide)).trans (by decide!)
  have hv2_2 : childValX [['X', ' ', ' '], [' ', 'O', ' '], [' ', ' ', ' ']] (0, 2) = MVal.fin 0 :=
    (childValX_table [['X', ' ', ' '], [' ', 'O', ' '], [' ', ' ', ' ']] 0 2 (by decide)
      (by constructor <;> decide) (by unfold cellsOK; decide)
      (by unfold validCountsB; decide) (by decide)).trans (by decide!)
  have hv2_3 : childValX [['X', ' ', ' '], [' ', 'O', ' '], [' ', ' ', ' ']] (1, 0) = MVal.fin 0 :=
    (childValX_table [['X', ' ', ' '], [' ', 'O', ' '], [' ', ' ', ' ']] 1 0 (by decide)
      (by constructor <;> decide) (by unfold cellsOK; decide)
      (by unfold validCountsB; decide) (by decide)).trans (by decide!)
  have hv2_5 : childValX [['X', ' ', ' '], [' ', 'O', ' '], [' ', ' ', ' ']] (1, 2) = MVal.fin 0 :=
    (childValX_table [['X', ' ', ' '], [' ', 'O', ' '], [' ', ' ', ' ']] 1 2 (by decide)
      (by constructor <;> decide) (by unfold cellsOK; decide)
      (by unfold validCountsB; decide) (by decide)).trans (by decide!)
  have hv2_6 : childValX [['X', ' ', ' '], [' ', 'O', ' '], [' ', ' ', ' ']] (2, 0) = MVal.fin 0 :=
    (childValX_table [['X', ' ', ' '], [' ', 'O', ' '], [' ', ' ', ' ']] 2 0 (by decide)
      (by constructor <;> decide) (by unfold cellsOK; decide)
      (by unfold validCountsB; decide) (by decide)).trans (by decide!)
  have hv2_7 : childValX [['X', ' ', ' '], [' ', 'O', ' '], [' ', ' ', ' ']] (2, 1) = MVal.fin 0 :=
    (childValX_table [['X', ' ', ' '], [' ', 'O', ' '], [' ', ' ', ' ']] 2 1 (by decide)
      (by constructor <;> decide) (by unfold cellsOK; decide)
      (by unfold validCountsB; decide) (by decide)).trans (by decide!)
  have hv2_8 : childValX [['X', ' ', ' '], [' ', 'O', ' '], [' ', ' ', ' ']] (2, 2) = MVal.fin 0 :=
    (childValX_table [['X', ' ', ' '], [' ', 'O', ' '], [' ', ' ', ' ']] 2 2 (by decide)
      (by constructor <;> decide) (by unfold cellsOK; decide)
      (by unfold validCountsB; decide) (by decide)).trans (by decide!)
  have hm2 : bestMoveX [['X', ' ', ' '], [' ', 'O', ' '], [' ', ' ', ' ']] = some (0, 1) := by
    refine bestMoveX_determined [['X', ' ', ' '], [' ', 'O', ' '], [' ', ' ', ' ']] (by constructor <;> decide) (0, 1)
      (by decide) ?_ ?_
    · intro d hd
      rw [show availableCells [['X', ' ', ' '], [' ', 'O', ' '], [' ', ' ', ' ']] = [(0, 1), (0, 2), (1, 0), (1, 2), (2, 0), (2, 1), (2, 2)] from by decide] at hd
      simp only [List.mem_cons, List.not_mem_nil, or_false] at hd
      rcases hd with rfl | rfl | rfl | rfl | rfl | rfl | rfl
      · rw [hv2_1]
        decide
      · rw [hv2_2, hv2_1]
        decide
      · rw [hv2_3, hv2_1]
        decide
      · rw [hv2_5, hv2_1]
        decide
      · rw [hv2_6, hv2_1]
        decide
      · rw [hv2_7, hv2_1]
        decide
      · rw [hv2_8, hv2_1]
        decide
    · intro d hd hidx
      rw [show availableCells [['X', ' ', ' '], [' ', 'O', ' '], [' ', ' ', ' ']] = [(0, 1), (0, 2), (1, 0), (1, 2), (2, 0), (2, 1), (2, 2)] from by decide] at hd
      simp only [List.mem_cons, List.not_mem_nil, or_false] at hd
      rcases hd with rfl | rfl | rfl | rfl | rfl | rfl | rfl
      · exact absurd hidx (by decide)
      · exact absurd hidx (by decide)
      · exact absurd hidx (by decide)
      · exact absurd hidx (by decide)
      · exact absurd hidx (by decide)
      · exact absurd hidx (by decide)
      · exact absurd hidx (by decide)
  have hs2 : selfPlayStep ⟨[['X', ' ', ' '], [' ', 'O', ' '], [' ', ' ', ' ']], 'X'⟩ =
      Outcome.inProgress ⟨[['X', 'X', ' '], [' ', 'O', ' '], [' ', ' ', ' ']], 'O'⟩ :=
    (selfPlayStep_eqX ⟨[['X', ' ', ' '], [' ', 'O', ' '], [' ', ' ', ' ']], 'X'⟩ (0, 1) rfl hm2).trans (by decide)
  have hv3_2 : childVal [['X', 'X', ' '], [' ', 'O', ' '], [' ', ' ', ' ']] (0, 2) = MVal.fin 0 :=
    (childVal_table [['X', 'X', ' '], [' ', 'O', ' '], [' ', ' ', ' ']] 0 2 (by decide)
      (by constructor <;> decide) (by unfold cellsOK; decide)
      (by unfold validCountsB; decide) (by decide)).trans (by decide!)
  have hv3_3 : childVal [['X', 'X', ' '], [' ', 'O', ' '], [' ', ' ', ' ']] (1, 0) = MVal.fin (-1) :=
    (childVal_table [['X', 'X', ' '], [' ', 'O', ' '], [' ', ' ', ' ']] 1 0 (by decide)
      (by constructor <;> decide) (by unfold cellsOK; decide)
      (by unfold validCountsB; decide) (by decide)).trans (by decide!)
  have hv3_5 : childVal [['X', 'X', ' '], [' ', 'O', ' '], [' ', ' ', ' ']] (1, 2) = MVal.fin (-1) :=
    (childVal_table [['X', 'X', ' '], [' ', 'O', ' '], [' ', ' ', ' ']] 1 2 (by decide)
      (by constructor <;> decide) (by unfold cellsOK; decide)
      (by unfold validCountsB; decide) (by decide)).trans (by decide!)
  have hv3_6 : childVal [['X', 'X', ' '], [' ', 'O', ' '], [' ', ' ', ' ']] (2, 0) = MVal.fin (-1) :=
    (childVal_table [['X', 'X', ' '], [' ', 'O', ' '], [' ', ' ', ' ']] 2 0 (by decide)
      (by constructor <;> decide) (by unfold cellsOK; decide)
      (by unfold validCountsB; decide) (by decide)).trans (by decide!)
  have hv3_7 : childVal [['X', 'X', ' '], [' ', 'O', ' '], [' ', ' ', ' ']] (2, 1) = MVal.fin (-1) :=
    (childVal_table [['X', 'X', ' '], [' ', 'O', ' '], [' ', ' ', ' ']] 2 1 (by decide)
      (by constructor <;> decide) (by unfold cellsOK; decide)
      (by unfold validCountsB; decide) (by decide)).trans (by decide!)
  have hv3_8 : childVal [['X', 'X', ' '], [' ', 'O', ' '], [' ', ' ', ' ']] (2, 2) = MVal.fin (-1) :=
    (childVal_table [['X', 'X', ' '], [' ', 'O', ' '], [' ', ' ', ' ']] 2 2 (by decide)
      (by constructor <;> decide) (by unfold cellsOK; decide)
      (by unfold validCountsB; decide) (by decide)).trans (by decide!)
  have hm3 : getComputerMove [['X', 'X', ' '], [' ', 'O', ' '], [' ', ' ', ' ']] = (some (0, 2), [['X', 'X', ' '], [' ', 'O', ' '], [' ', ' ', ' ']]) := by
    refine getComputerMove_determined [['X', 'X', ' '], [' ', 'O', ' '], [' ', ' ', ' ']] (by constructor <;> decide) (0, 2)
      (by decide) ?_ ?_
    · intro d hd
      rw [show availableCells [['X', 'X', ' '], [' ', 'O', ' '], [' ', ' ', ' ']] = [(0, 2), (1, 0), (1, 2), (2, 0), (2, 1), (2, 2)] from by decide] at hd
      simp only [List.mem_cons, List.not_mem_nil, or_false] at hd
      rcases hd with rfl | rfl | rfl | rfl | rfl | rfl
      · rw [hv3_2]
        decide
      · rw [hv3_3, hv3_2]
        decide
      · rw [hv3_5, hv3_2]
        decide
      · rw [hv3_6, hv3_2]
        decide
      · rw [hv3_7, hv3_2]
        decide
      · rw [hv3_8, hv3_2]
        decide
    · intro d hd hidx
      rw [show availableCells [['X', 'X', ' '], [' ', 'O', ' '], [' ', ' ', ' ']] = [(0, 2), (1, 0), (1, 2), (2, 0), (2, 1), (2, 2)] from by decide] at hd
      simp only [List.mem_cons, List.not_mem_nil, or_false] at hd
      rcases hd with rfl | rfl | rfl | rfl | rfl | rfl
      · exact absurd hidx (by decide)
      · exact absurd hidx (by decide)
      · exact absurd hidx (by decide)
      · exact absurd hidx (by decide)
      · exact absurd hidx (by decide)
      · exact absurd hidx (by decide)
  have hs3 : selfPlayStep ⟨[['X', 'X', ' '], [' ', 'O', ' '], [' ', ' ', ' ']], 'O'⟩ =
      Outcome.inProgress ⟨[['X', 'X', 'O'], [' ', 'O', ' '], [' ', ' ', ' ']], 'X'⟩ :=
    (selfPlayStep_eqO ⟨[['X', 'X', ' '], [' ', 'O', ' '], [' ', ' ', ' ']], 'O'⟩ (0, 2) rfl
      (congrArg Prod.fst hm3)).trans (by decide)
  have hv4_3 : childValX [['X', 'X', 'O'], [' ', 'O', ' '], [' ', ' ', ' ']] (1, 0) = MVal.fin 1 :=
    (childValX_table [['X', 'X', 'O'], [' ', 'O', ' '], [' ', ' ', ' ']] 1 0 (by decide)
      (by constructor <;> decide) (by unfold cellsOK; decide)
      (by unfold validCountsB; decide) (by decide)).trans (by decide!)
  have hv4_5 : childValX [['X', 'X', 'O'], [' ', 'O', ' '], [' ', ' ', ' ']] (1, 2) = MVal.fin 1 :=
    (childValX_table [['X', 'X', 'O'], [' ', 'O', ' '], [' ', ' ', ' ']] 1 2 (by decide)
      (by constructor <;> decide) (by unfold cellsOK; decide)
      (by unfold validCountsB; decide) (by decide)).trans (by decide!)
  have hv4_6 : childValX [['X', 'X', 'O'], [' ', 'O', ' '], [' ', ' ', ' ']] (2, 0) = MVal.fin 0 :=
    (childValX_table [['X', 'X', 'O'], [' ', 'O', ' '], [' ', ' ', ' ']] 2 0 (by decide)
      (by constructor <;> decide) (by unfold cellsOK; decide)
      (by unfold validCountsB; decide) (by decide)).trans (by decide!)
  have hv4_7 : childValX [['X', 'X', 'O'], [' ', 'O', ' '], [' ', ' ', ' ']] (2, 1) = MVal.fin 1 :=
    (childValX_table [['X', 'X', 'O'], [' ', 'O', ' '], [' ', ' ', ' ']] 2 1 (by decide)
      (by constructor <;> decide) (by unfold cellsOK; decide)
      (by unfold validCountsB; decide) (by decide)).trans (by decide!)
  have hv4_8 : childValX [['X', 'X', 'O'], [' ', 'O', ' '], [' ', ' ', ' ']] (2, 2) = MVal.fin 1 :=
    (childValX_table [['X', 'X', 'O'], [' ', 'O', ' '], [' ', ' ', ' ']] 2 2 (by decide)
      (by constructor <;> decide) (by unfold cellsOK; decide)
      (by unfold validCountsB; decide) (by decide)).trans (by decide!)
  have hm4 : bestMoveX [['X', 'X', 'O'], [' ', 'O', ' '], [' ', ' ', ' ']] = some (2, 0) := by
    refine bestMoveX_determined [['X', 'X', 'O'], [' ', 'O', ' '], [' ', ' ', ' ']] (by constructor <;> decide) (2, 0)
      (by decide) ?_ ?_
    · intro d hd
      rw [show availableCells [['X', 'X', 'O'], [' ', 'O', ' '], [' ', ' ', ' ']] = [(1, 0), (1, 2), (2, 0), (2, 1), (2, 2)] from by decide] at hd
      simp only [List.mem_cons, List.not_mem_nil, or_false] at hd
      rcases hd with rfl | rfl | rfl | rfl | rfl
      · rw [hv4_3, hv4_6]
        decide
      · rw [hv4_5, hv4_6]
        decide
      · rw [hv4_6]
        decide
      · rw [hv4_7, hv4_6]
        decide
      · rw [hv4_8, hv4_6]
        decide
    · intro d hd hidx
      rw [show availableCells [['X', 'X', 'O'], [' ', 'O', ' '], [' ', ' ', ' ']] = [(1, 0), (1, 2), (2, 0), (2, 1), (2, 2)] from by decide] at hd
      simp only [List.mem_cons, List.not_mem_nil, or_false] at hd
      rcases hd with rfl | rfl | rfl | rfl | rfl
      · rw [hv4_6, hv4_3]
        decide
      · rw [hv4_6, hv4_5]
        decide
      · exact absurd hidx (by decide)
      · exact absurd hidx (by decide)
      · exact absurd hidx (by decide)
  have hs4 : selfPlayStep ⟨[['X', 'X', 'O'], [' ', 'O', ' '], [' ', ' ', ' ']], 'X'⟩ =
      Outcome.inProgress ⟨[['X', 'X', 'O'], [' ', 'O', ' '], ['X', ' ', ' ']], 'O'⟩ :=
    (selfPlayStep_eqX ⟨[['X', 'X', 'O'], [' ', 'O', ' '], [' ', ' ', ' ']], 'X'⟩ (2, 0) rfl hm4).trans (by decide)
  have hv5_3 : childVal [['X', 'X', 'O'], [' ', 'O', ' '], ['X', ' ', ' ']] (1, 0) = MVal.fin 0 :=
    (childVal_table [['X', 'X', 'O'], [' ', 'O', ' '], ['X', ' ', ' ']] 1 0 (by decide)
      (by constructor <;> decide) (by unfold cellsOK; decide)
      (by unfold validCountsB; decide) (by decide)).trans (by decide!)
  have hv5_5 : childVal [['X', 'X', 'O'], [' ', 'O', ' '], ['X', ' ', ' ']] (1, 2) = MVal.fin (-1) :=
    (childVal_table [['X', 'X', 'O'], [' ', 'O', ' '], ['X', ' ', ' ']] 1 2 (by decide)
      (by constructor <;> decide) (by unfold cellsOK; decide)
      (by unfold validCountsB; decide) (by decide)).trans (by decide!)
  have hv5_7 : childVal [['X', 'X', 'O'], [' ', 'O', ' '], ['X', ' ', ' ']] (2, 1) = MVal.fin (-1) :=
    (childVal_table [['X', 'X', 'O'], [' ', 'O', ' '], ['X', ' ', ' ']] 2 1 (by decide)
      (by constructor <;> decide) (by unfold cellsOK; decide)
      (by unfold validCountsB; decide) (by decide)).trans (by decide!)
  have hv5_8 : childVal [['X', 'X', 'O'], [' ', 'O', ' '], ['X', ' ', ' ']] (2, 2) = MVal.fin (-1) :=
    (childVal_table [['X', 'X', 'O'], [' ', 'O', ' '], ['X', ' ', ' ']] 2 2 (by decide)
      (by constructor <;> decide) (by unfold cellsOK; decide)
      (by unfold validCountsB; decide) (by decide)).trans (by decide!)
  have hm5 : getComputerMove [['X', 'X', 'O'], [' ', 'O', ' '], ['X', ' ', ' ']] = (some (1, 0), [['X', 'X', 'O'], [' ', 'O', ' '], ['X', ' ', ' ']]) := by
    refine getComputerMove_determined [['X', 'X', 'O'], [' ', 'O', ' '], ['X', ' ', ' ']] (by constructor <;> decide) (1, 0)
      (by decide) ?_ ?_
    · intro d hd
      rw [show availableCells [['X', 'X', 'O'], [' ', 'O', ' '], ['X', ' ', ' ']] = [(1, 0), (1, 2), (2, 1), (2, 2)] from by decide] at hd
      simp only [List.mem_cons, List.not_mem_nil, or_false] at hd
      rcases hd with rfl | rfl | rfl | rfl
      · rw [hv5_3]
        decide
      · rw [hv5_5, hv5_3]
        decide
      · rw [hv5_7, hv5_3]
        decide
      · rw [hv5_8, hv5_3]
        decide
    · intro d hd hidx
      rw [show availableCells [['X', 'X', 'O'], [' ', 'O', ' '], ['X', ' ', ' ']] = [(1, 0), (1, 2), (2, 1), (2, 2)] from by decide] at hd
      simp only [List.mem_cons, List.not_mem_nil, or_false] at hd
      rcases hd with rfl | rfl | rfl | rfl
      · exact absurd hidx (by decide)
      · exact absurd hidx (by decide)
      · exact absurd hidx (by decide)
      · exact absurd hidx (by decide)
  have hs5 : selfPlayStep ⟨[['X', 'X', 'O'], [' ', 'O', ' '], ['X', ' ', ' ']], 'O'⟩ =
      Outcome.inProgress ⟨[['X', 'X', 'O'], ['O', 'O', ' '], ['X', ' ', ' ']], 'X'⟩ :=
    (selfPlayStep_eqO ⟨[['X', 'X', 'O'], [' ', 'O', ' '], ['X', ' ', ' ']], 'O'⟩ (1, 0) rfl
      (congrArg Prod.fst hm5)).trans (by decide)
  have hv6_5 : childValX [['X', 'X', 'O'], ['O', 'O', ' '], ['X', ' ', ' ']] (1, 2) = MVal.fin 0 :=
    (childValX_table [['X', 'X', 'O'], ['O', 'O', ' '], ['X', ' ', ' ']] 1 2 (by decide)
      (by constructor <;> decide) (by unfold cellsOK; decide)
      (by unfold validCountsB; decide) (by decide)).trans (by decide!)
  have hv6_7 : childValX [['X', 'X', 'O'], ['O', 'O', ' '], ['X', ' ', ' ']] (2, 1) = MVal.fin 1 :=
    (childValX_table [['X', 'X', 'O'], ['O', 'O', ' '], ['X', ' ', ' ']] 2 1 (by decide)
      (by constructor <;> decide) (by unfold cellsOK; decide)
      (by unfold validCountsB; decide) (by decide)).trans (by decide!)
  have hv6_8 : childValX [['X', 'X', 'O'], ['O', 'O', ' '], ['X', ' ', ' ']] (2, 2) = MVal.fin 1 :=
    (childValX_table [['X', 'X', 'O'], ['O', 'O', ' '], ['X', ' ', ' ']] 2 2 (by decide)
      (by constructor <;> decide) (by unfold cellsOK; decide)
      (by unfold validCountsB; decide) (by decide)).trans (by decide!)
  have hm6 : bestMoveX [['X', 'X', 'O'], ['O', 'O', ' '], ['X', ' ', ' ']] = some (1, 2) := by
    refine bestMoveX_determined [['X', 'X', 'O'], ['O', 'O', ' '], ['X', ' ', ' ']] (by constructor <;> decide) (1, 2)
      (by decide) ?_ ?_
    · intro d hd
      rw [show availableCells [['X', 'X', 'O'], ['O', 'O', ' '], ['X', ' ', ' ']] = [(1, 2), (2, 1), (2, 2)] from by decide] at hd
      simp only [List.mem_cons, List.not_mem_nil, or_false] at hd
      rcases hd with rfl | rfl | rfl
      · rw [hv6_5]
        decide
      · rw [hv6_7, hv6_5]
        decide
      · rw [hv6_8, hv6_5]
        decide
    · intro d hd hidx
      rw [show availableCells [['X', 'X', 'O'], ['O', 'O', ' '], ['X', ' ', ' ']] = [(1, 2), (2, 1), (2, 2)] from by decide] at hd
      simp only [List.mem_cons, List.not_mem_nil, or_false] at hd
      rcases hd with rfl | rfl | rfl
      · exact absurd hidx (by decide)
      · exact absurd hidx (by decide)
      · exact absurd hidx (by decide)
  have hs6 : selfPlayStep ⟨[['X', 'X', 'O'], ['O', 'O', ' '], ['X', ' ', ' ']], 'X'⟩ =
      Outcome.inProgress ⟨[['X', 'X', 'O'], ['O', 'O', 'X'], ['X', ' ', ' ']], 'O'⟩ :=
    (selfPlayStep_eqX ⟨[['X', 'X', 'O'], ['O', 'O', ' '], ['X', ' ', ' ']], 'X'⟩ (1, 2) rfl hm6).trans (by decide)
  have hv7_7 : childVal [['X', 'X', 'O'], ['O', 'O', 'X'], ['X', ' ', ' ']] (2, 1) = MVal.fin 0 :=
    (childVal_table [['X', 'X', 'O'], ['O', 'O', 'X'], ['X', ' ', ' ']] 2 1 (by decide)
      (by constructor <;> decide) (by unfold cellsOK; decide)
      (by unfold validCountsB; decide) (by decide)).trans (by decide!)
  have hv7_8 : childVal [['X', 'X', 'O'], ['O', 'O', 'X'], ['X', ' ', ' ']] (2, 2) = MVal.fin 0 :=
    (childVal_table [['X', 'X', 'O'], ['O', 'O', 'X'], ['X', ' ', ' ']] 2 2 (by decide)
      (by constructor <;> decide) (by unfold cellsOK; decide)
      (by unfold validCountsB; decide) (by decide)).trans (by decide!)
  have hm7 : getComputerMove [['X', 'X', 'O'], ['O', 'O', 'X'], ['X', ' ', ' ']] = (some (2, 1), [['X', 'X', 'O'], ['O', 'O', 'X'], ['X', ' ', ' ']]) := by
    refine getComputerMove_determined [['X', 'X', 'O'], ['O', 'O', 'X'], ['X', ' ', ' ']] (by constructor <;> decide) (2, 1)
      (by decide) ?_ ?_
    · intro d hd
      rw [show availableCells [['X', 'X', 'O'], ['O', 'O', 'X'], ['X', ' ', ' ']] = [(2, 1), (2, 2)] from by decide] at hd
      simp only [List.mem_cons, List.not_mem_nil, or_false] at hd
      rcases hd with rfl | rfl
      · rw [hv7_7]
        decide
      · rw [hv7_8, hv7_7]
        decide
    · intro d hd hidx
      rw [show availableCells [['X', 'X', 'O'], ['O', 'O', 'X'], ['X', ' ', ' ']] = [(2, 1), (2, 2)] from by decide] at hd
      simp only [List.mem_cons, List.not_mem_nil, or_false] at hd
      rcases hd with rfl | rfl
      · exact absurd hidx (by decide)
      · exact absurd hidx (by decide)
  have hs7 : selfPlayStep ⟨[['X', 'X', 'O'], ['O', 'O', 'X'], ['X', ' ', ' ']], 'O'⟩ =
      Outcome.inProgress ⟨[['X', 'X', 'O'], ['O', 'O', 'X'], ['X', 'O', ' ']], 'X'⟩ :=
    (selfPlayStep_eqO ⟨[['X', 'X', 'O'], ['O', 'O', 'X'], ['X', ' ', ' ']], 'O'⟩ (2, 1) rfl
      (congrArg Prod.fst hm7)).trans (by decide)
  have hv8_8 : childValX [['X', 'X', 'O'], ['O', 'O', 'X'], ['X', 'O', ' ']] (2, 2) = MVal.fin 0 :=
    (childValX_table [['X', 'X', 'O'], ['O', 'O', 'X'], ['X', 'O', ' ']] 2 2 (by decide)
      (by constructor <;> decide) (by unfold cellsOK; decide)
      (by unfold validCountsB; decide) (by decide)).trans (by decide!)
  have hm8 : bestMoveX [['X', 'X', 'O'], ['O', 'O', 'X'], ['X', 'O', ' ']] = some (2, 2) := by
    refine bestMoveX_determined [['X', 'X', 'O'], ['O', 'O', 'X'], ['X', 'O', ' ']] (by constructor <;> decide) (2, 2)
      (by decide) ?_ ?_
    · intro d hd
      rw [show availableCells [['X', 'X', 'O'], ['O', 'O', 'X'], ['X', 'O', ' ']] = [(2, 2)] from by decide] at hd
      simp only [List.mem_cons, List.not_mem_nil, or_false] at hd
      rcases hd with rfl
      · rw [hv8_8]
        decide
    · intro d hd hidx
      rw [show availableCells [['X', 'X', 'O'], ['O', 'O', 'X'], ['X', 'O', ' ']] = [(2, 2)] from by decide] at hd
      simp only [List.mem_cons, List.not_mem_nil, or_false] at hd
      rcases hd with rfl
      · exact absurd hidx (by decide)
  have hs8 : selfPlayStep ⟨[['X', 'X', 'O'], ['O', 'O', 'X'], ['X', 'O', ' ']], 'X'⟩ =
      Outcome.draw [['X', 'X', 'O'], ['O', 'O', 'X'], ['X', 'O', 'X']] :=
    (selfPlayStep_eqX ⟨[['X', 'X', 'O'], ['O', 'O', 'X'], ['X', 'O', ' ']], 'X'⟩ (2, 2) rfl hm8).trans (by decide)
  have ht1 : selfPlay 1 (Outcome.inProgress ⟨emptyBoard, 'X'⟩) =
      Outcome.inProgress ⟨[['X', ' ', ' '], [' ', ' ', ' '], [' ', ' ', ' ']], 'O'⟩ := by
    rw [selfPlay_one, hs0]
  have ht2 : selfPlay 2 (Outcome.inProgress ⟨emptyBoard, 'X'⟩) =
      Outcome.inProgress ⟨[['X', ' ', ' '], [' ', 'O', ' '], [' ', ' ', ' ']], 'X'⟩ := by
    rw [show (2 : Nat) = 1 + 1 from rfl, selfPlay_add 1 1, ht1,
      selfPlay_one, hs1]
  have ht3 : selfPlay 3 (Outcome.inProgress ⟨emptyBoard, 'X'⟩) =
      Outcome.inProgress ⟨[['X', 'X', ' '], [' ', 'O', ' '], [' ', ' ', ' ']], 'O'⟩ := by
    rw [show (3 : Nat) = 1 + 2 from rfl, selfPlay_add 2 1, ht2,
      selfPlay_one, hs2]
  have ht4 : selfPlay 4 (Outcome.inProgress ⟨emptyBoard, 'X'⟩) =
      Outcome.inProgress ⟨[['X', 'X', 'O'], [' ', 'O', ' '], [' ', ' ', ' ']], 'X'⟩ := by
    rw [show (4 : Nat) = 1 + 3 from rfl, selfPlay_add 3 1, ht3,
      selfPlay_one, hs3]
  have ht5 : selfPlay 5 (Outcome.inProgress ⟨emptyBoard, 'X'⟩) =
      Outcome.inProgress ⟨[['X', 'X', 'O'], [' ', 'O', ' '], ['X', ' ', ' ']], 'O'⟩ := by
    rw [show (5 : Nat) = 1 + 4 from rfl, selfPlay_add 4 1, ht4,
      selfPlay_one, hs4]
  have ht6 : selfPlay 6 (Outcome.inProgress ⟨emptyBoard, 'X'⟩) =
      Outcome.inProgress ⟨[['X', 'X', 'O'], ['O', 'O', ' '], ['X', ' ', ' ']], 'X'⟩ := by
    rw [show (6 : Nat) = 1 + 5 from rfl, selfPlay_add 5 1, ht5,
      selfPlay_one, hs5]
  have ht7 : selfPlay 7 (Outcome.inProgress ⟨emptyBoard, 'X'⟩) =
      Outcome.inProgress ⟨[['X', 'X', 'O'], ['O', 'O', 'X'], ['X', ' ', ' ']], 'O'⟩ := by
    rw [show (7 : Nat) = 1 + 6 from rfl, selfPlay_add 6 1, ht6,
      selfPlay_one, hs6]
  have ht8 : selfPlay 8 (Outcome.inProgress ⟨emptyBoard, 'X'⟩) =
      Outcome.inProgress ⟨[['X', 'X', 'O'], ['O', 'O', 'X'], ['X', 'O', ' ']], 'X'⟩ := by
    rw [show (8 : Nat) = 1 + 7 from rfl, selfPlay_add 7 1, ht7,
      selfPlay_one, hs7]
  have ht9 : selfPlay 9 (Outcome.inProgress ⟨emptyBoard, 'X'⟩) =
      Outcome.draw [['X', 'X', 'O'], ['O', 'O', 'X'], ['X', 'O', 'X']] := by
    rw [show (9 : Nat) = 1 + 8 from rfl, selfPlay_add 8 1, ht8,
      selfPlay_one, hs8]
  refine ⟨⟨_, ht9, by decide, by decide, by decide⟩, ?_⟩
  intro k p b hcon
  rcases Nat.lt_or_ge k 9 with hk | hk
  · interval_cases k
    · exact Outcome.noConfusion hcon
    · rw [ht1] at hcon
      exact Outcome.noConfusion hcon
    · rw [ht2] at hcon
      exact Outcome.noConfusion hcon
    · rw [ht3] at hcon
      exact Outcome.noConfusion hcon
    · rw [ht4] at hcon
      exact Outcome.noConfusion hcon
    · rw [ht5] at hcon
      exact Outcome.noConfusion hcon
    · rw [ht6] at hcon
      exact Outcome.noConfusion hcon
    · rw [ht7] at hcon
      exact Outcome.noConfusion hcon
    · rw [ht8] at hcon
      exact Outcome.noConfusion hcon
  · obtain ⟨m, rfl⟩ : ∃ m, k = m + 9 := ⟨k - 9, by omega⟩
    rw [selfPlay_add 9 m, ht9, selfPlay_terminal_draw] at hcon
    exact Outcome.noConfusion hcon
